import Mathlib

/-!
# HdRprMesh synchronisation (pxr/imaging/plugin/hdRpr/mesh.cpp)

A shallow embedding of `HdRprMesh::Sync`, `HdRprMesh::GetPrimvarData`,
`HdRprMesh::GetFallbackMaterial` and `HdRprMesh::Finalize`, with the renderer
backend (`rprApi`) modelled as a log of the calls it receives.

Conventions of the embedding.

* C `int` values are `Int`; the implicit `int → size_t` conversion done when an
  `int` is compared with a size or used as a subscript is `toSizeT`
  (reduction modulo `2^64`), and the `size_t → int` conversion is `toInt`.
  Signed `int` arithmetic (`offset += n`, `count++`) is the mathematical one:
  signed overflow is undefined in C++ and outside the model.
* A subscript outside the array is undefined behaviour; the model returns
  `none` there, and `Sync` as a whole returns `none`.
* Floating point data (points, normals, UVs, matrices) is only moved around by
  this file, so its scalars are opaque integers.
* Renderer objects are natural numbers handed out by a counter, so that every
  successful creation returns a handle never seen before.
-/

namespace HdRpr

/-! ## Scalars and tokens -/

abbrev SdfPath := Nat
abbrev Handle := Nat
abbrev GfVec3f := Int × Int × Int
abbrev GfVec2f := Int × Int
abbrev GfMatrix4 := Nat

/-- The `int → size_t` conversion applied when an `int` meets a size. -/
def toSizeT (i : Int) : Nat := (i % 2 ^ 64).toNat

/-- The `size_t → int` conversion of `unusedSubset.indices[count] = i`. -/
def toInt (n : Nat) : Int := ((n : Int) + 2 ^ 31) % 2 ^ 32 - 2 ^ 31

/-- The value an `int` holds after an `int` addition: the sum reduced to 32
bits, two's complement (`offset += numVerticesInFace`, `faceIndexesOffset + i`,
`count++`). -/
def wrapInt (x : Int) : Int := (x + 2 ^ 31) % 2 ^ 32 - 2 ^ 31

/-- The subscript `xs[i]` of a `VtArray`/`std::vector` with an `int` index:
`none` when it is out of bounds. -/
def sub {α : Type} (xs : List α) (i : Int) : Option α := xs[toSizeT i]?

/-- Names of primvars the file looks at (`HdTokens`, the primary UV set name,
`HdRprMeshPrivateTokens->subdivisionLevel`), and all others. -/
inductive Token where
  | points
  | normals
  | st
  | displayColor
  | subdivisionLevel
  | other (n : Nat)
  deriving DecidableEq, Repr

/-- The three interpolation classes queried by `Sync`, in the order of the
`HdInterpolation` enumeration (which is the iteration order of the map). -/
inductive HdInterpolation where
  | constant
  | vertex
  | faceVarying
  deriving DecidableEq, Repr

/-- What a `VtValue` can hold, as far as this file distinguishes. -/
inductive VtValue where
  | vec3fArray (a : List GfVec3f)
  | vec2fArray (a : List GfVec2f)
  | int (i : Int)
  | other
  deriving DecidableEq, Repr

inductive SubsetType where
  | TypeFaceSet
  | TypeOther
  deriving DecidableEq, Repr

structure HdGeomSubset where
  type : SubsetType
  id : SdfPath
  materialId : SdfPath
  indices : List Int
  deriving DecidableEq, Repr

inductive Scheme where
  | catmullClark
  | loop
  | bilinear
  | none
  deriving DecidableEq, Repr

structure HdMeshTopology where
  scheme : Scheme
  orientation : Nat
  faceVertexCounts : List Int
  faceVertexIndices : List Int
  geomSubsets : List HdGeomSubset
  deriving DecidableEq, Repr

structure HdDisplayStyle where
  refineLevel : Int
  flatShadingEnabled : Bool
  displacementEnabled : Bool
  deriving DecidableEq, Repr

/-! ## The renderer backend -/

/-- The eight arguments of `rprApi->CreateMesh`. -/
structure MeshArgs where
  points : List GfVec3f
  pointIndexes : List Int
  normals : List GfVec3f
  normalIndexes : List Int
  uvs : List GfVec2f
  uvIndexes : List Int
  vpf : List Int
  orientation : Nat
  deriving DecidableEq, Repr

/-- One call received by the renderer backend. A failed `CreateMesh` records
the result `none` (a null pointer). -/
inductive Call where
  | createMesh (args : MeshArgs) (result : Option Handle)
  | createMeshInstance (mesh : Handle) (result : Handle)
  | createMaterial (color : GfVec3f) (result : Handle)
  | release (h : Handle)
  | releaseMaterial (m : Option Handle)
  | setTransform (h : Handle) (m : GfMatrix4)
  | setMeshVisibility (h : Handle) (visible : Bool)
  | setMeshMaterial (h : Handle) (material : Option Handle) (doublesided : Bool)
      (displacementEnabled : Bool)
  | setMeshRefineLevel (h : Handle) (level : Int)
  | setMeshVertexInterpolationRule (h : Handle) (rule : Nat)
  deriving DecidableEq, Repr

/-- The backend: the next fresh object and the calls received so far. -/
structure Api where
  next : Nat
  log : List Call
  deriving DecidableEq, Repr

/-! ## The mesh -/

/-- The members of `HdRprMesh` used by `mesh.cpp`. -/
structure MeshState where
  id : SdfPath
  m_points : List GfVec3f
  m_topology : HdMeshTopology
  m_faceVertexCounts : List Int
  m_faceVertexIndices : List Int
  m_enableSubdiv : Bool
  m_normals : List GfVec3f
  m_normalIndices : List Int
  m_authoredNormals : Bool
  m_smoothNormals : Bool
  m_uvs : List GfVec2f
  m_uvIndices : List Int
  m_adjacency : Nat
  m_adjacencyValid : Bool
  m_normalsValid : Bool
  m_cachedMaterialId : SdfPath
  visible : Bool
  m_doublesided : Bool
  m_displayStyle : HdDisplayStyle
  m_refineLevel : Int
  m_transform : GfMatrix4
  m_geomSubsets : List HdGeomSubset
  m_rprMeshes : List Handle
  m_rprMeshInstances : List (List Handle)
  m_fallbackMaterial : Option Handle
  deriving DecidableEq, Repr

/-! ## Subset splitter: the catch-all subset (lines 318-345) -/

/-- Body of the loop of lines 322-327 for one index: the pair is
`(faceIsUnused, numUnusedFaces)`. `TF_VERIFY(index < numFaces)` compares
after converting `index` to `size_t`. The decrement never wraps: the counter
is the number of flags still set (`markInv_markSubsets`). -/
def markIndex (numFaces : Nat) (acc : List Bool × Nat) (index : Int) : List Bool × Nat :=
  if toSizeT index < numFaces ∧ acc.1[toSizeT index]? = some true then
    (acc.1.set (toSizeT index) false, acc.2 - 1)
  else acc

/-- Lines 319-328: mark the faces referenced by the subsets. -/
def markSubsets (numFaces : Nat) (subsets : List HdGeomSubset) : List Bool × Nat :=
  subsets.foldl (fun acc s => s.indices.foldl (markIndex numFaces) acc)
    (List.replicate numFaces true, numFaces)

/-- Loop of lines 339-344, started at face `i` with `count` entries written:
`out` is `unusedSubset.indices`, whose size is `numUnusedFaces`. -/
def fillUnused : List Bool → Nat → Nat → List Int → List Int
  | [], _, _, out => out
  | b :: bs, i, count, out =>
    if count < out.length then
      if b then fillUnused bs (i + 1) (count + 1) (out.set count (toInt i))
      else fillUnused bs (i + 1) count out
    else out

/-- Lines 318-345: the subset list after the catch-all subset is appended. -/
def appendUnusedSubset (st : MeshState) (subsets : List HdGeomSubset) : List HdGeomSubset :=
  let numFaces := st.m_faceVertexCounts.length
  let marked := markSubsets numFaces subsets
  if marked.2 ≠ 0 then
    subsets ++ [{ type := SubsetType.TypeFaceSet, id := st.id,
                  materialId := st.m_cachedMaterialId,
                  indices := fillUnused marked.1 0 0 (List.replicate marked.2 0) }]
  else subsets

/-! ## Subset splitter: re-indexing (lines 349-397) -/

/-- Lines 349-355: `indexesOffsetPrefixSum`, for a running `int offset`. -/
def indexesOffsetPrefixSum : Int → List Int → List Int
  | _, [] => []
  | offset, numVerticesInFace :: rest =>
    offset :: indexesOffsetPrefixSum (wrapInt (offset + numVerticesInFace)) rest

/-- The local arrays of lines 365-372. -/
structure SubsetArrays where
  subsetPoints : List GfVec3f
  subsetNormals : List GfVec3f
  subsetSt : List GfVec2f
  subsetIndexes : List Int
  subsetVertexPerFace : List Int
  count : Int
  deriving DecidableEq, Repr

/-- Body of the loop of lines 379-394 for corner `i` of a face; `i`,
`faceIndexesOffset` and `count` are `int`s. -/
def pushCorner (st : MeshState) (faceIndexesOffset : Int) (acc : SubsetArrays) (i : Nat) :
    Option SubsetArrays := do
  let pointIndex ← sub st.m_faceVertexIndices (wrapInt (faceIndexesOffset + i))
  let point ← sub st.m_points pointIndex
  let normals ←
    if st.m_normals.isEmpty then pure acc.subsetNormals
    else do
      let normalIndex ←
        if st.m_normalIndices.isEmpty then pure pointIndex
        else sub st.m_normalIndices (wrapInt (faceIndexesOffset + i))
      let normal ← sub st.m_normals normalIndex
      pure (acc.subsetNormals ++ [normal])
  let uvs ←
    if st.m_uvs.isEmpty then pure acc.subsetSt
    else do
      let stIndex ←
        if st.m_uvIndices.isEmpty then pure pointIndex
        else sub st.m_uvIndices (wrapInt (faceIndexesOffset + i))
      let uv ← sub st.m_uvs stIndex
      pure (acc.subsetSt ++ [uv])
  pure { acc with subsetIndexes := acc.subsetIndexes ++ [acc.count],
                  count := wrapInt (acc.count + 1),
                  subsetPoints := acc.subsetPoints ++ [point], subsetNormals := normals,
                  subsetSt := uvs }

/-- Body of the loop of lines 373-395 for one face of the subset. -/
def pushFace (st : MeshState) (prefixSums : List Int) (acc : SubsetArrays) (faceIndex : Int) :
    Option SubsetArrays := do
  let numVerticesInFace ← sub st.m_faceVertexCounts faceIndex
  let faceIndexesOffset ← sub prefixSums faceIndex
  (List.range numVerticesInFace.toNat).foldlM (pushCorner st faceIndexesOffset)
    { acc with subsetVertexPerFace := acc.subsetVertexPerFace ++ [numVerticesInFace] }

/-- Lines 365-395: the arrays built for a subset. -/
def buildSubsetArrays (st : MeshState) (subset : HdGeomSubset) : Option SubsetArrays :=
  subset.indices.foldlM (pushFace st (indexesOffsetPrefixSum 0 st.m_faceVertexCounts))
    { subsetPoints := [], subsetNormals := [], subsetSt := [], subsetIndexes := [],
      subsetVertexPerFace := [], count := 0 }

/-- The arguments of the `CreateMesh` call of line 397. -/
def subsetMeshArgs (st : MeshState) (subset : HdGeomSubset) : Option MeshArgs :=
  (buildSubsetArrays st subset).map fun a =>
    { points := a.subsetPoints, pointIndexes := a.subsetIndexes, normals := a.subsetNormals,
      normalIndexes := [], uvs := a.subsetSt, uvIndexes := [], vpf := a.subsetVertexPerFace,
      orientation := st.m_topology.orientation }

/-- The loop of lines 357-403 from a given position: the surviving subsets, the
handles pushed to `m_rprMeshes`, the backend counter and the calls made.
`createMeshOk n` tells whether the backend's creation number `n` succeeds. -/
def createSubsetMeshes (st : MeshState) (createMeshOk : Nat → Bool) :
    List HdGeomSubset → Nat → Option (List HdGeomSubset × List Handle × Nat × List Call)
  | [], next => some ([], [], next, [])
  | subset :: rest, next =>
    if subset.type ≠ SubsetType.TypeFaceSet then createSubsetMeshes st createMeshOk rest next
    else
      match subsetMeshArgs st subset with
      | none => none
      | some args =>
        match createSubsetMeshes st createMeshOk rest (next + 1) with
        | none => none
        | some (kept, meshes, next1, calls) =>
          if createMeshOk next then
            some (subset :: kept, next :: meshes, next1,
              Call.createMesh args (some next) :: calls)
          else some (kept, meshes, next1, Call.createMesh args none :: calls)

/-! ## The scene delegate and the dirty bits -/

/-- The bits of `HdChangeTracker` listed in `GetInitialDirtyBitsMask`. -/
structure DirtyBits where
  points : Bool
  topology : Bool
  transform : Bool
  primvar : Bool
  normals : Bool
  materialId : Bool
  subdivTags : Bool
  displayStyle : Bool
  visibility : Bool
  instancer : Bool
  instanceIndex : Bool
  doubleSided : Bool
  deriving DecidableEq, Repr

/-- The mask `HdChangeTracker::Clean`. -/
def DirtyBits.clean : DirtyBits :=
  { points := false, topology := false, transform := false, primvar := false,
    normals := false, materialId := false, subdivTags := false, displayStyle := false,
    visibility := false, instancer := false, instanceIndex := false, doubleSided := false }

/-- Modelled from the spec: `HdChangeTracker::IsPrimvarDirty` is library code;
the dirty flags are per attribute (points, normals) and one `primvar` flag for
every other primvar, UVs included. -/
def IsPrimvarDirty (dirtyBits : DirtyBits) (name : Token) : Bool :=
  match name with
  | Token.points => dirtyBits.points
  | Token.normals => dirtyBits.normals
  | _ => dirtyBits.primvar

/-- What the scene delegate, the render index and the backend answer during one
`Sync`. -/
structure Scene where
  /-- names returned by `GetExtComputationPrimvarDescriptors(id, vertex)` -/
  extComputationDescs : List Token
  /-- entry of the computed value store for `points`, if any -/
  computedPoints : Option VtValue
  /-- answer of `Get(id, name)` / `GetPrimvar` -/
  get : Token → VtValue
  topology : HdMeshTopology
  /-- names returned by `GetPrimvarDescriptors(id, interpolation)` -/
  primvarDescriptors : HdInterpolation → List Token
  materialId : SdfPath
  visible : Bool
  doubleSided : Bool
  displayStyle : HdDisplayStyle
  transform : GfMatrix4
  vertexInterpolationRule : Nat
  /-- the realized material object of a material sprim, if both exist -/
  materialObject : SdfPath → Option Handle
  /-- `ComputeTransforms(id)` of the instancer, `none` without instancer -/
  instancer : Option (List GfMatrix4)
  /-- whether the backend's creation number `n` yields a mesh -/
  createMeshOk : Nat → Bool

/-- Library functions the file calls and does not define. -/
structure Lib where
  BuildAdjacencyTable : HdMeshTopology → Nat
  ComputeSmoothNormals : Nat → Nat → List GfVec3f → List GfVec3f
  matMul : GfMatrix4 → GfMatrix4 → GfMatrix4
  defaultColor : GfVec3f

/-- The conversion `VtValue::Get<VtVec3fArray>()`: empty when the value holds
something else. -/
def VtValue.getVec3fArray : VtValue → List GfVec3f
  | VtValue.vec3fArray a => a
  | _ => []

/-- The test `IsHolding<VtArray<GfVec3f>>` with `UncheckedGet`. -/
def VtValue.holdVec3f : VtValue → Option (List GfVec3f)
  | VtValue.vec3fArray a => some a
  | _ => none

/-- The test `IsHolding<VtArray<GfVec2f>>` with `UncheckedGet`. -/
def VtValue.holdVec2f : VtValue → Option (List GfVec2f)
  | VtValue.vec2fArray a => some a
  | _ => none

/-- The interpolation class of the first descriptor named `name`, walking the
map of lines 207-211 in key order (lines 88-90). -/
def findPrimvar (scene : Scene) (name : Token) : Option HdInterpolation :=
  if name ∈ scene.primvarDescriptors HdInterpolation.constant then
    some HdInterpolation.constant
  else if name ∈ scene.primvarDescriptors HdInterpolation.vertex then
    some HdInterpolation.vertex
  else if name ∈ scene.primvarDescriptors HdInterpolation.faceVarying then
    some HdInterpolation.faceVarying
  else none

/-- The template `HdRprMesh::GetPrimvarData` (lines 79-108): the returned flag,
`out_data` and `out_indices`. `holding` is the test for `VtArray<T>`. -/
def GetPrimvarData {T : Type} (holding : VtValue → Option (List T)) (name : Token)
    (scene : Scene) (st : MeshState) : Bool × List T × List Int :=
  match findPrimvar scene name with
  | none => (false, [], [])
  | some interpolation =>
    match holding (scene.get name) with
    | none => (false, [], [])
    | some data =>
      (true, data,
        if interpolation = HdInterpolation.faceVarying then
          (List.range st.m_faceVertexIndices.length).map Int.ofNat
        else [])

/-- The color looked up by lines 123-137. -/
def fallbackColor (lib : Lib) (scene : Scene) : GfVec3f :=
  if Token.displayColor ∈ scene.primvarDescriptors HdInterpolation.constant then
    match scene.get Token.displayColor with
    | VtValue.vec3fArray (c :: _) => c
    | _ => lib.defaultColor
  else lib.defaultColor

/-- The method `HdRprMesh::GetFallbackMaterial` (lines 112-144), on the cached
`m_fallbackMaterial` and the backend counter: the returned material, the new
cache, the new counter and the calls made. -/
def GetFallbackMaterial (lib : Lib) (scene : Scene) (dirtyBits : DirtyBits)
    (fallback : Option Handle) (next : Nat) :
    Option Handle × Option Handle × Nat × List Call :=
  let released := fallback.isSome && dirtyBits.primvar
  let calls1 := if released then [Call.releaseMaterial fallback] else []
  let fallback1 := if released then none else fallback
  match fallback1 with
  | some m => (some m, some m, next, calls1)
  | none =>
    (some next, some next, next + 1,
      calls1 ++ [Call.createMaterial (fallbackColor lib scene) next])

/-! ## Sync, phases 1 and 2: pull scene data, resolve draw styles -/

/-- Calls to the scene delegate and to library code that `Sync` makes and that
are not backend calls. -/
inductive Event where
  | getComputedPrimvarValues
  | getPoints
  | buildAdjacencyTable
  | computeSmoothNormals
  deriving DecidableEq, Repr

/-- The running state of one `Sync`: the mesh, the backend counter, the
backend calls and library events so far, and the three local flags. -/
structure Frame where
  st : MeshState
  next : Nat
  calls : List Call
  events : List Event
  newMesh : Bool
  isRefineLevelDirty : Bool
  updateTransform : Bool
  deriving DecidableEq, Repr

/-- Lines 163-183: computed points. The flag tells `pointsIsComputed`. -/
def pullComputedPoints (scene : Scene) (dirtyBits : DirtyBits) (f : Frame) : Frame × Bool :=
  if Token.points ∈ scene.extComputationDescs ∧ IsPrimvarDirty dirtyBits Token.points = true then
    match scene.computedPoints with
    | some value =>
      ({ f with st := { f.st with m_points := value.getVec3fArray, m_normalsValid := false },
                events := f.events ++ [Event.getComputedPrimvarValues],
                newMesh := true }, true)
    | none => ({ f with events := f.events ++ [Event.getComputedPrimvarValues] }, false)
  else (f, false)

/-- Lines 185-192: authored points. -/
def pullPoints (scene : Scene) (dirtyBits : DirtyBits) (p : Frame × Bool) : Frame :=
  if !p.2 && IsPrimvarDirty dirtyBits Token.points then
    { p.1 with st := { p.1.st with m_points := (scene.get Token.points).getVec3fArray,
                                   m_normalsValid := false },
               events := p.1.events ++ [Event.getPoints],
               newMesh := true }
  else p.1

/-- Lines 194-205: topology (`IsTopologyDirty` tests the topology bit). -/
def pullTopology (scene : Scene) (dirtyBits : DirtyBits) (f : Frame) : Frame :=
  if dirtyBits.topology then
    { f with st := { f.st with m_topology := scene.topology,
                               m_faceVertexCounts := scene.topology.faceVertexCounts,
                               m_faceVertexIndices := scene.topology.faceVertexIndices,
                               m_adjacencyValid := false,
                               m_normalsValid := false,
                               m_enableSubdiv := decide (scene.topology.scheme = Scheme.catmullClark) },
             newMesh := true }
  else f

/-- Lines 213-217: normals. -/
def pullNormals (scene : Scene) (dirtyBits : DirtyBits) (f : Frame) : Frame :=
  if IsPrimvarDirty dirtyBits Token.normals then
    let r := GetPrimvarData VtValue.holdVec3f Token.normals scene f.st
    { f with st := { f.st with m_authoredNormals := r.1, m_normals := r.2.1,
                               m_normalIndices := r.2.2 },
             newMesh := true }
  else f

/-- Lines 219-224: UVs; the primary UV set name is `st`. -/
def pullUvs (scene : Scene) (dirtyBits : DirtyBits) (f : Frame) : Frame :=
  if IsPrimvarDirty dirtyBits Token.st then
    let r := GetPrimvarData VtValue.holdVec2f Token.st scene f.st
    { f with st := { f.st with m_uvs := r.2.1, m_uvIndices := r.2.2 }, newMesh := true }
  else f

/-- Lines 226-236: material id, visibility, double-sidedness. -/
def pullFlags (scene : Scene) (dirtyBits : DirtyBits) (f : Frame) : Frame :=
  let st1 := if dirtyBits.materialId then { f.st with m_cachedMaterialId := scene.materialId }
             else f.st
  let st2 := if dirtyBits.visibility then { st1 with visible := scene.visible } else st1
  let st3 := if dirtyBits.doubleSided then { st2 with m_doublesided := scene.doubleSided }
             else st2
  { f with st := st3 }

/-- Lines 241-248: display style. -/
def resolveDisplayStyle (scene : Scene) (dirtyBits : DirtyBits) (f : Frame) : Frame :=
  if dirtyBits.displayStyle then
    if f.st.m_refineLevel ≠ scene.displayStyle.refineLevel then
      { f with st := { f.st with m_displayStyle := scene.displayStyle,
                                 m_refineLevel := scene.displayStyle.refineLevel },
               isRefineLevelDirty := true }
    else { f with st := { f.st with m_displayStyle := scene.displayStyle } }
  else f

/-- Lines 250-270: the `rpr:subdivisionLevel` override. -/
def resolveSubdivisionLevel (scene : Scene) (dirtyBits : DirtyBits) (f : Frame) : Frame :=
  if dirtyBits.primvar = true ∧
      Token.subdivisionLevel ∈ scene.primvarDescriptors HdInterpolation.constant then
    match scene.get Token.subdivisionLevel with
    | VtValue.int refineLevel =>
      if f.st.m_refineLevel ≠ refineLevel then
        { f with st := { f.st with m_refineLevel := refineLevel }, isRefineLevelDirty := true }
      else f
    | _ => f
  else f

/-- Lines 277-281: the adjacency table. -/
def buildAdjacency (lib : Lib) (f : Frame) : Frame :=
  if !f.st.m_adjacencyValid then
    { f with st := { f.st with m_adjacency := lib.BuildAdjacencyTable f.st.m_topology,
                               m_adjacencyValid := true, m_normalsValid := false },
             events := f.events ++ [Event.buildAdjacencyTable] }
  else f

/-- Lines 283-288: the smooth normals. -/
def computeNormals (lib : Lib) (f : Frame) : Frame :=
  if !f.st.m_normalsValid then
    { f with st := { f.st with m_normals := lib.ComputeSmoothNormals f.st.m_adjacency
                                              f.st.m_points.length f.st.m_points,
                               m_normalsValid := true },
             events := f.events ++ [Event.computeSmoothNormals],
             newMesh := true }
  else f

/-- Lines 272-289. -/
def resolveSmoothNormals (lib : Lib) (f : Frame) : Frame :=
  let smooth := f.st.m_displayStyle.flatShadingEnabled &&
    !(f.st.m_enableSubdiv && decide (f.st.m_refineLevel > 0))
  let f1 := { f with st := { f.st with m_smoothNormals := smooth } }
  if !f1.st.m_authoredNormals && f1.st.m_smoothNormals then
    computeNormals lib (buildAdjacency lib f1)
  else f1

/-- Lines 291-295. -/
def resolveTransform (scene : Scene) (dirtyBits : DirtyBits) (f : Frame) : Frame :=
  if dirtyBits.transform then
    { f with st := { f.st with m_transform := scene.transform }, updateTransform := true }
  else { f with updateTransform := f.newMesh }

/-- Lines 161-295: everything before the renderer objects are touched. -/
def resolve (lib : Lib) (scene : Scene) (dirtyBits : DirtyBits) (f : Frame) : Frame :=
  resolveTransform scene dirtyBits
    (resolveSmoothNormals lib
      (resolveSubdivisionLevel scene dirtyBits
        (resolveDisplayStyle scene dirtyBits
          (pullFlags scene dirtyBits
            (pullUvs scene dirtyBits
              (pullNormals scene dirtyBits
                (pullTopology scene dirtyBits
                  (pullPoints scene dirtyBits
                    (pullComputedPoints scene dirtyBits f)))))))))

/-! ## Sync, phase 3: create the renderer meshes (lines 300-405) -/

/-- The release calls of lines 301-308 (and of lines 543-550). -/
def releaseAll (st : MeshState) : List Call :=
  st.m_rprMeshes.map Call.release ++ st.m_rprMeshInstances.flatten.map Call.release

/-- The arguments of the `CreateMesh` call of line 314. -/
def wholeMeshArgs (st : MeshState) : MeshArgs :=
  { points := st.m_points, pointIndexes := st.m_faceVertexIndices, normals := st.m_normals,
    normalIndexes := st.m_normalIndices, uvs := st.m_uvs, uvIndexes := st.m_uvIndices,
    vpf := st.m_faceVertexCounts, orientation := st.m_topology.orientation }

/-- Lines 300-405. -/
def createRprMeshes (scene : Scene) (f : Frame) : Option Frame :=
  if f.newMesh then
    if f.st.m_topology.geomSubsets.isEmpty then
      let meshes := if scene.createMeshOk f.next then [f.next] else []
      let result := if scene.createMeshOk f.next then some f.next else none
      some { f with st := { f.st with m_rprMeshInstances := [], m_rprMeshes := meshes,
                                      m_geomSubsets := [] },
                    next := f.next + 1,
                    calls := f.calls ++ releaseAll f.st ++
                      [Call.createMesh (wholeMeshArgs f.st) result] }
    else
      match createSubsetMeshes f.st scene.createMeshOk
          (appendUnusedSubset f.st f.st.m_topology.geomSubsets) f.next with
      | none => none
      | some (kept, meshes, next1, calls) =>
        some { f with st := { f.st with m_rprMeshInstances := [], m_rprMeshes := meshes,
                                        m_geomSubsets := kept },
                      next := next1,
                      calls := f.calls ++ releaseAll f.st ++ calls }
  else some f

/-! ## Sync, phase 4: update the renderer meshes (lines 407-535) -/

/-- Lines 408-430. -/
def updateSubdivTags (scene : Scene) (dirtyBits : DirtyBits) (f : Frame) : Frame :=
  if f.newMesh || dirtyBits.subdivTags then
    { f with calls := f.calls ++ f.st.m_rprMeshes.map fun rprMesh =>
        Call.setMeshVertexInterpolationRule rprMesh scene.vertexInterpolationRule }
  else f

/-- Lines 432-436. -/
def updateRefineLevel (f : Frame) : Frame :=
  if f.newMesh || f.isRefineLevelDirty then
    { f with calls := f.calls ++ f.st.m_rprMeshes.map fun rprMesh =>
        Call.setMeshRefineLevel rprMesh (if f.st.m_enableSubdiv then f.st.m_refineLevel else 0) }
  else f

/-- Lines 438-442. -/
def updateVisibility (dirtyBits : DirtyBits) (f : Frame) : Frame :=
  if f.newMesh || dirtyBits.visibility then
    { f with calls := f.calls ++ f.st.m_rprMeshes.map fun rprMesh =>
        Call.setMeshVisibility rprMesh f.st.visible }
  else f

/-- The lambda `getMeshMaterial` of lines 447-454: the material, the cached
fallback material, the backend counter and the calls made. -/
def getMeshMaterial (lib : Lib) (scene : Scene) (dirtyBits : DirtyBits) (materialId : SdfPath)
    (fallback : Option Handle) (next : Nat) :
    Option Handle × Option Handle × Nat × List Call :=
  match scene.materialObject materialId with
  | some material => (some material, fallback, next, [])
  | none => GetFallbackMaterial lib scene dirtyBits fallback next

/-- The loop of lines 463-466 from a given position: the cached fallback
material, the backend counter and the calls made. -/
def setSubsetMaterials (lib : Lib) (scene : Scene) (dirtyBits : DirtyBits) (doublesided : Bool)
    (displacementEnabled : Bool) :
    List HdGeomSubset → List Handle → Option Handle → Nat → Option Handle × Nat × List Call
  | subset :: subsets, mesh :: meshes, fallback, next =>
    let r := getMeshMaterial lib scene dirtyBits subset.materialId fallback next
    let rest := setSubsetMaterials lib scene dirtyBits doublesided displacementEnabled
      subsets meshes r.2.1 r.2.2.1
    (rest.1, rest.2.1,
      r.2.2.2 ++ Call.setMeshMaterial mesh r.1 doublesided displacementEnabled :: rest.2.2)
  | _, _, fallback, next => (fallback, next, [])

/-- Lines 444-471. -/
def updateMaterial (lib : Lib) (scene : Scene) (dirtyBits : DirtyBits) (f : Frame) : Frame :=
  if f.newMesh || dirtyBits.materialId || dirtyBits.doubleSided || dirtyBits.displayStyle ||
      f.isRefineLevelDirty then
    if f.st.m_geomSubsets.isEmpty then
      let r := getMeshMaterial lib scene dirtyBits f.st.m_cachedMaterialId
        f.st.m_fallbackMaterial f.next
      { f with st := { f.st with m_fallbackMaterial := r.2.1 },
               next := r.2.2.1,
               calls := f.calls ++ r.2.2.2 ++ f.st.m_rprMeshes.map fun mesh =>
                 Call.setMeshMaterial mesh r.1 f.st.m_doublesided
                   f.st.m_displayStyle.displacementEnabled }
    else if f.st.m_geomSubsets.length = f.st.m_rprMeshes.length then
      let r := setSubsetMaterials lib scene dirtyBits f.st.m_doublesided
        f.st.m_displayStyle.displacementEnabled f.st.m_geomSubsets f.st.m_rprMeshes
        f.st.m_fallbackMaterial f.next
      { f with st := { f.st with m_fallbackMaterial := r.1 },
               next := r.2.1,
               calls := f.calls ++ r.2.2 }
    else f
  else f

/-- Lines 506-517 for one renderer mesh: its instance list made as long as the
transform list; the new list, the backend counter and the calls made.
Modelled from the spec: `createInstance(meshHandle) -> handle` never fails. -/
def resizeMeshInstances (mesh : Handle) (meshInstances : List Handle) (numTransforms : Nat)
    (next : Nat) : List Handle × Nat × List Call :=
  if meshInstances.length ≠ numTransforms then
    if meshInstances.length > numTransforms then
      (meshInstances.take numTransforms, next,
        (meshInstances.drop numTransforms).map Call.release)
    else
      let created := (List.range (numTransforms - meshInstances.length)).map fun k => next + k
      (meshInstances ++ created, next + (numTransforms - meshInstances.length),
        created.map fun inst => Call.createMeshInstance mesh inst)
  else (meshInstances, next, [])

/-- The loop of lines 504-525 from a given position, over the renderer meshes
and their instance lists (of the same number after line 502). -/
def syncMeshInstances (transforms : List GfMatrix4) :
    List Handle → List (List Handle) → Nat → List (List Handle) × Nat × List Call
  | mesh :: meshes, meshInstances :: others, next =>
    let r := resizeMeshInstances mesh meshInstances transforms.length next
    let rest := syncMeshInstances transforms meshes others r.2.1
    (r.1 :: rest.1, rest.2.1,
      r.2.2 ++ List.zipWith Call.setTransform r.1 transforms ++
        Call.setMeshVisibility mesh false :: rest.2.2)
  | _, _, next => ([], next, [])

/-- The call `m_rprMeshInstances.resize(n)` of line 502. -/
def resizeInstanceLists (lists : List (List Handle)) (n : Nat) : List (List Handle) :=
  lists.take n ++ List.replicate (n - lists.length) []

/-- Lines 473-528. -/
def updateInstancer (lib : Lib) (scene : Scene) (dirtyBits : DirtyBits) (f : Frame) : Frame :=
  if f.newMesh || dirtyBits.instancer then
    match scene.instancer with
    | none => f
    | some transforms =>
      if transforms.isEmpty then
        { f with st := { f.st with m_rprMeshInstances := [] },
                 calls := f.calls ++ f.st.m_rprMeshInstances.flatten.map Call.release ++
                   f.st.m_rprMeshes.map fun mesh => Call.setMeshVisibility mesh f.st.visible }
      else
        let excess := (f.st.m_rprMeshInstances.drop f.st.m_rprMeshes.length).flatten
        let r := syncMeshInstances (transforms.map fun t => lib.matMul f.st.m_transform t)
          f.st.m_rprMeshes
          (resizeInstanceLists f.st.m_rprMeshInstances f.st.m_rprMeshes.length) f.next
        { f with st := { f.st with m_rprMeshInstances := r.1 },
                 next := r.2.1,
                 calls := f.calls ++ excess.map Call.release ++ r.2.2,
                 updateTransform := false }
  else f

/-- Lines 530-534. -/
def updateTransforms (f : Frame) : Frame :=
  if f.updateTransform then
    { f with calls := f.calls ++ f.st.m_rprMeshes.map fun rprMesh =>
        Call.setTransform rprMesh f.st.m_transform }
  else f

/-- Lines 407-535. -/
def updateRprMeshes (lib : Lib) (scene : Scene) (dirtyBits : DirtyBits) (f : Frame) : Frame :=
  if f.st.m_rprMeshes.isEmpty then f
  else
    updateTransforms
      (updateInstancer lib scene dirtyBits
        (updateMaterial lib scene dirtyBits
          (updateVisibility dirtyBits
            (updateRefineLevel
              (updateSubdivTags scene dirtyBits f)))))

/-! ## Sync and Finalize -/

/-- The frame in which a `Sync` starts. -/
def Frame.start (st : MeshState) (next : Nat) : Frame :=
  { st := st, next := next, calls := [], events := [], newMesh := false,
    isRefineLevelDirty := false, updateTransform := false }

/-- The body of `HdRprMesh::Sync` (lines 146-538) as a frame; `none` when a
subscript is out of bounds. -/
def syncFrame (lib : Lib) (scene : Scene) (dirtyBits : DirtyBits) (st : MeshState)
    (next : Nat) : Option Frame :=
  (createRprMeshes scene (resolve lib scene dirtyBits (Frame.start st next))).map
    (updateRprMeshes lib scene dirtyBits)

/-- The method `HdRprMesh::Sync`: the mesh and the backend after it. The dirty
bits are `Clean` afterwards (line 537). -/
def Sync (lib : Lib) (scene : Scene) (dirtyBits : DirtyBits) (st : MeshState) (api : Api) :
    Option (MeshState × Api) :=
  (syncFrame lib scene dirtyBits st api.next).map fun f =>
    (f.st, { next := f.next, log := api.log ++ f.calls })

/-- The method `HdRprMesh::Finalize` (lines 540-558). -/
def Finalize (st : MeshState) (api : Api) : MeshState × Api :=
  ({ st with m_rprMeshInstances := [], m_rprMeshes := [], m_fallbackMaterial := none },
   { api with log := api.log ++ releaseAll st ++ [Call.releaseMaterial st.m_fallbackMaterial] })

/-- Modelled from the spec: `mesh.h` is not among the sources; a mesh entity
starts with empty caches, cleared validity flags, no renderer handles, the
default display style and visible. -/
def MeshState.init (id : SdfPath) : MeshState :=
  { id := id, m_points := [],
    m_topology := { scheme := Scheme.none, orientation := 0, faceVertexCounts := [],
                    faceVertexIndices := [], geomSubsets := [] },
    m_faceVertexCounts := [], m_faceVertexIndices := [], m_enableSubdiv := false,
    m_normals := [], m_normalIndices := [], m_authoredNormals := false,
    m_smoothNormals := false, m_uvs := [], m_uvIndices := [], m_adjacency := 0,
    m_adjacencyValid := false, m_normalsValid := false, m_cachedMaterialId := 0,
    visible := true, m_doublesided := false,
    m_displayStyle := { refineLevel := 0, flatShadingEnabled := false,
                        displacementEnabled := true },
    m_refineLevel := 0, m_transform := 0, m_geomSubsets := [], m_rprMeshes := [],
    m_rprMeshInstances := [], m_fallbackMaterial := none }

/-- The backend before any call. -/
def Api.init : Api := { next := 0, log := [] }

/-- One step of the life of a mesh: a `Sync` with its scene answers and dirty
bits. -/
structure SyncInput where
  scene : Scene
  dirtyBits : DirtyBits

/-- A run of `Sync` calls from a state; `none` as soon as one is undefined. -/
def runSyncs (lib : Lib) : List SyncInput → MeshState × Api → Option (MeshState × Api)
  | [], s => some s
  | i :: rest, s =>
    match Sync lib i.scene i.dirtyBits s.1 s.2 with
    | none => none
    | some s1 => runSyncs lib rest s1

/-- The states reached from the initial one by a run of `Sync` calls. -/
def Reachable (lib : Lib) (s : MeshState × Api) : Prop :=
  ∃ (id : SdfPath) (inputs : List SyncInput),
    runSyncs lib inputs (MeshState.init id, Api.init) = some s

/-! ## Definitions used by the proofs -/

/-- Positions of a flag list holding `true`, counted from `i`. -/
def trueIdx : List Bool → Nat → List Nat
  | [], _ => []
  | b :: bs, i => if b then i :: trueIdx bs (i + 1) else trueIdx bs (i + 1)

/-- Invariant of the marking loop after the indices `seen`. -/
def MarkInv (numFaces : Nat) (seen : List Int) (acc : List Bool × Nat) : Prop :=
  acc.1.length = numFaces ∧ acc.2 = acc.1.count true ∧
    ∀ j, j < numFaces → (acc.1[j]? = some true ↔ ∀ i ∈ seen, toSizeT i ≠ j)

/-- The faces left unused by the indices `seen`, in ascending order. -/
def unusedFaces (numFaces : Nat) (seen : List Int) : List Nat :=
  (List.range numFaces).filter fun j => decide (∀ i ∈ seen, toSizeT i ≠ j)

/-- A face no declared subset refers to. -/
def Unreferenced (subsets : List HdGeomSubset) (j : Nat) : Prop :=
  ∀ s ∈ subsets, (j : Int) ∉ s.indices

instance (subsets : List HdGeomSubset) (j : Nat) : Decidable (Unreferenced subsets j) := by
  unfold Unreferenced; infer_instance

/-! ## Re-indexing, as the specification words it -/

/-- The specification's `offset(f)`: the sum of the counts of the faces
before `f`. -/
def specOffset (st : MeshState) (f : Int) : Int := (st.m_faceVertexCounts.take f.toNat).sum

/-- The specification's `counts[f]`. -/
def specCount (st : MeshState) (f : Int) : Int := st.m_faceVertexCounts.getD f.toNat 0

/-- The positions `offset(f)+i`, `i < counts[f]`, of the corners of face `f`
in the flattened index arrays. -/
def specFaceCorners (st : MeshState) (f : Int) : List Int :=
  (List.range (specCount st f).toNat).map fun (i : Nat) => specOffset st f + (i : Int)

/-- The point index `faceVertexIndices[p]` of the corner at position `p`. -/
def specPointIndex (st : MeshState) (p : Int) : Int := st.m_faceVertexIndices.getD p.toNat 0

/-- The point `points[faceVertexIndices[p]]` of the corner at position `p`. -/
def specCornerPoint (st : MeshState) (p : Int) : GfVec3f :=
  st.m_points.getD (specPointIndex st p).toNat (0, 0, 0)

/-- The index `k` of the normal of the corner at position `p`:
`normalIndices[p]` if a normal index array is present, else the point index. -/
def specNormalIndex (st : MeshState) (p : Int) : Int :=
  if st.m_normalIndices.isEmpty then specPointIndex st p else st.m_normalIndices.getD p.toNat 0

/-- The normal `normals[k]` of the corner at position `p`. -/
def specCornerNormal (st : MeshState) (p : Int) : GfVec3f :=
  st.m_normals.getD (specNormalIndex st p).toNat (0, 0, 0)

/-- The index of the UV of the corner at position `p`. -/
def specUvIndex (st : MeshState) (p : Int) : Int :=
  if st.m_uvIndices.isEmpty then specPointIndex st p else st.m_uvIndices.getD p.toNat 0

/-- The UV of the corner at position `p`. -/
def specCornerUv (st : MeshState) (p : Int) : GfVec2f :=
  st.m_uvs.getD (specUvIndex st p).toNat (0, 0)

/-- The corner positions of the faces of a subset, in subset order. -/
def specCorners (st : MeshState) (faces : List Int) : List Int :=
  faces.flatMap (specFaceCorners st)

/-- The arguments the specification expects `createMesh` to get for a subset. -/
def specSubsetArgs (st : MeshState) (subset : HdGeomSubset) : MeshArgs :=
  { points := (specCorners st subset.indices).map (specCornerPoint st),
    pointIndexes := (List.range (specCorners st subset.indices).length).map Int.ofNat,
    normals := if st.m_normals.isEmpty then []
               else (specCorners st subset.indices).map (specCornerNormal st),
    normalIndexes := [],
    uvs := if st.m_uvs.isEmpty then []
           else (specCorners st subset.indices).map (specCornerUv st),
    uvIndexes := [],
    vpf := subset.indices.map (specCount st),
    orientation := st.m_topology.orientation }

/-- A flat array cut into consecutive groups of the given sizes. -/
def groupByCounts {α : Type} : List Int → List α → List (List α)
  | [], _ => []
  | n :: rest, xs => xs.take n.toNat :: groupByCounts rest (xs.drop n.toNat)

/-- An attribute given by an index array into its values is well formed: the
index array has one entry per corner, each within the values. -/
def IndexedBy (indices : List Int) (numValues : Nat) (numCorners : Nat) : Prop :=
  indices.length = numCorners ∧ ∀ k ∈ indices, 0 ≤ k ∧ k < (numValues : Int)

instance (indices : List Int) (numValues numCorners : Nat) :
    Decidable (IndexedBy indices numValues numCorners) := by
  unfold IndexedBy; infer_instance

/-- A well-formed mesh: non-negative counts, as many face-vertex indices as
the counts sum to, every index within its array, and array sizes that fit
`size_t`. Normals and UVs, when present, are indexed by their own index array
if there is one and by the point index otherwise. -/
def WellFormed (st : MeshState) : Prop :=
  (∀ c ∈ st.m_faceVertexCounts, 0 ≤ c) ∧
  IndexedBy st.m_faceVertexIndices st.m_points.length st.m_faceVertexCounts.sum.toNat ∧
  (st.m_normals.isEmpty = false →
    if st.m_normalIndices.isEmpty then
      IndexedBy st.m_faceVertexIndices st.m_normals.length st.m_faceVertexIndices.length
    else IndexedBy st.m_normalIndices st.m_normals.length st.m_faceVertexIndices.length) ∧
  (st.m_uvs.isEmpty = false →
    if st.m_uvIndices.isEmpty then
      IndexedBy st.m_faceVertexIndices st.m_uvs.length st.m_faceVertexIndices.length
    else IndexedBy st.m_uvIndices st.m_uvs.length st.m_faceVertexIndices.length) ∧
  st.m_faceVertexCounts.length < 2 ^ 64 ∧ st.m_faceVertexIndices.length < 2 ^ 64 ∧
  st.m_points.length < 2 ^ 64 ∧ st.m_normals.length < 2 ^ 64 ∧ st.m_uvs.length < 2 ^ 64

instance (st : MeshState) : Decidable (WellFormed st) := by
  unfold WellFormed; infer_instance

/-- The entries of an `int` array are `int`s. -/
def IntValued (xs : List Int) : Prop := ∀ k ∈ xs, -2 ^ 31 ≤ k ∧ k < 2 ^ 31

instance (xs : List Int) : Decidable (IntValued xs) := by
  unfold IntValued; infer_instance

/-- The mesh and the subset fit `int`: the `int` arrays hold `int`s, and the
two sums the code keeps in an `int`, the corners of the whole mesh (`offset`,
line 354) and the corners of the subset (`count`, line 380), stay below
`2 ^ 31`. -/
def FitsInt (st : MeshState) (subset : HdGeomSubset) : Prop :=
  IntValued st.m_faceVertexCounts ∧ IntValued st.m_faceVertexIndices ∧
  IntValued st.m_normalIndices ∧ IntValued st.m_uvIndices ∧ IntValued subset.indices ∧
  st.m_faceVertexCounts.sum < 2 ^ 31 ∧ (subset.indices.map (specCount st)).sum < 2 ^ 31

instance (st : MeshState) (subset : HdGeomSubset) : Decidable (FitsInt st subset) := by
  unfold FitsInt; infer_instance

/-- The local arrays after the corners at the given positions, and the given
per-face counts, have been pushed. -/
def extendArrays (st : MeshState) (acc : SubsetArrays) (corners : List Int)
    (counts : List Int) : SubsetArrays :=
  { subsetPoints := acc.subsetPoints ++ corners.map (specCornerPoint st),
    subsetNormals := if st.m_normals.isEmpty then acc.subsetNormals
                     else acc.subsetNormals ++ corners.map (specCornerNormal st),
    subsetSt := if st.m_uvs.isEmpty then acc.subsetSt
                else acc.subsetSt ++ corners.map (specCornerUv st),
    subsetIndexes := acc.subsetIndexes ++
      (List.range corners.length).map fun (k : Nat) => acc.count + (k : Int),
    subsetVertexPerFace := acc.subsetVertexPerFace ++ counts,
    count := acc.count + (corners.length : Int) }

/-! ## A concrete mesh: a 2 x 2 grid of quads -/

/-- Library functions for the examples. -/
def exampleLib : Lib :=
  { BuildAdjacencyTable := fun _ => 1,
    ComputeSmoothNormals := fun _ n _ => List.replicate n (0, 0, 1),
    matMul := fun a b => 100 * a + b,
    defaultColor := (18, 18, 18) }

/-- The subset over faces 0 and 1, bound to material 11. -/
def subsetA : HdGeomSubset :=
  { type := SubsetType.TypeFaceSet, id := 5, materialId := 11, indices := [0, 1] }

/-- Four quads over nine points, with `subsetA` as only subset. -/
def quadTopology : HdMeshTopology :=
  { scheme := Scheme.none, orientation := 0, faceVertexCounts := [4, 4, 4, 4],
    faceVertexIndices := [0, 1, 4, 3, 1, 2, 5, 4, 3, 4, 7, 6, 4, 5, 8, 7],
    geomSubsets := [subsetA] }

/-- The nine points of the grid. -/
def quadPoints : List GfVec3f :=
  [(0, 0, 0), (1, 0, 0), (2, 0, 0), (0, 1, 0), (1, 1, 0), (2, 1, 0), (0, 2, 0), (1, 2, 0),
   (2, 2, 0)]

/-- A scene holding the grid: mesh material 10, realized materials 10 and 11
(objects 1010 and 1011), no instancer, a backend that never fails. -/
def quadScene : Scene :=
  { extComputationDescs := [], computedPoints := none,
    get := fun t => match t with
      | Token.points => VtValue.vec3fArray quadPoints
      | _ => VtValue.other,
    topology := quadTopology,
    primvarDescriptors := fun _ => [],
    materialId := 10, visible := true, doubleSided := false,
    displayStyle := { refineLevel := 0, flatShadingEnabled := false,
                      displacementEnabled := true },
    transform := 3, vertexInterpolationRule := 0,
    materialObject := fun p => if p = 11 then some 1011 else if p = 10 then some 1010 else none,
    instancer := none,
    createMeshOk := fun _ => true }

/-- The mask of `GetInitialDirtyBitsMask`: every bit set. -/
def allDirty : DirtyBits :=
  { points := true, topology := true, transform := true, primvar := true,
    normals := true, materialId := true, subdivTags := true, displayStyle := true,
    visibility := true, instancer := true, instanceIndex := true, doubleSided := true }

/-- The cached mesh data of the grid, as `Sync` holds it when it rebuilds. -/
def quadMesh : MeshState :=
  { MeshState.init 1 with
    m_points := quadPoints, m_topology := quadTopology,
    m_faceVertexCounts := quadTopology.faceVertexCounts,
    m_faceVertexIndices := quadTopology.faceVertexIndices,
    m_cachedMaterialId := 10 }

/-- Whether a call is a `SetMeshMaterial`. -/
def Call.isSetMeshMaterial : Call → Bool
  | Call.setMeshMaterial _ _ _ _ => true
  | _ => false

/-- Whether a call is a `CreateMesh`. -/
def Call.isCreateMesh : Call → Bool
  | Call.createMesh _ _ => true
  | _ => false

/-- The state after the first `Sync` of the grid scene. -/
def quadSynced : MeshState × Api :=
  (Sync exampleLib quadScene allDirty (MeshState.init 1) Api.init).getD
    (MeshState.init 1, Api.init)


/-- The grid scene with an instancer reporting two transforms. -/
def instancedScene : Scene := { quadScene with instancer := some [5, 6] }

/-- The grid scene with an instancer reporting one transform. -/
def instancedOnceScene : Scene := { quadScene with instancer := some [5] }

/-- The state after the first `Sync` of the instanced grid scene: two renderer
meshes with two instances each. -/
def quadInstanced : MeshState × Api :=
  (Sync exampleLib instancedScene allDirty (MeshState.init 1) Api.init).getD
    (MeshState.init 1, Api.init)

/-- Only the visibility bit. -/
def onlyVisibility : DirtyBits := { DirtyBits.clean with visibility := true }

/-- Only the transform bit. -/
def onlyTransform : DirtyBits := { DirtyBits.clean with transform := true }

/-- Only the instancer bit. -/
def onlyInstancer : DirtyBits := { DirtyBits.clean with instancer := true }

/-- Only the points bit. -/
def onlyPoints : DirtyBits := { DirtyBits.clean with points := true }

/-- Only the display style bit. -/
def onlyDisplayStyle : DirtyBits := { DirtyBits.clean with displayStyle := true }

/-- A life of the grid mesh: first sync with two instances per mesh, then one
instance, then a rebuild for new points. -/
def quadLife : List SyncInput :=
  [{ scene := instancedScene, dirtyBits := allDirty },
   { scene := instancedOnceScene, dirtyBits := onlyInstancer },
   { scene := instancedOnceScene, dirtyBits := onlyPoints }]

/-- The state at the end of `quadLife`. -/
def quadLifeEnd : MeshState × Api :=
  (runSyncs exampleLib quadLife (MeshState.init 1, Api.init)).getD (MeshState.init 1, Api.init)

/-- The grid scene with flat shading switched on in the display style. -/
def flatScene : Scene :=
  { quadScene with displayStyle := { refineLevel := 0, flatShadingEnabled := true,
                                     displacementEnabled := true } }

/-- The grid scene with the subset's face list replaced. -/
def sceneWithFaces (faces : List Int) : Scene :=
  { quadScene with
    topology := { quadTopology with geomSubsets := [{ subsetA with indices := faces }] } }

/-! ## Views and invariants of the mesh state -/

/-- The part of a frame the scene-data phases leave alone: the renderer
handles, the surviving subsets, the fallback material, the backend counter and
the calls made. -/
def Frame.backend (f : Frame) :
    List Handle × List (List Handle) × List HdGeomSubset × Option Handle × Nat × List Call :=
  (f.st.m_rprMeshes, f.st.m_rprMeshInstances, f.st.m_geomSubsets, f.st.m_fallbackMaterial,
    f.next, f.calls)

/-- What lines 272-289 establish at every `Sync`: `m_smoothNormals` is the flag
computed from the cached display style, and when smooth normals are wanted and
none are authored, the adjacency table and the normals are valid. -/
def SmoothInv (st : MeshState) : Prop :=
  st.m_smoothNormals = (st.m_displayStyle.flatShadingEnabled &&
      !(st.m_enableSubdiv && decide (st.m_refineLevel > 0))) ∧
    (st.m_authoredNormals = false → st.m_smoothNormals = true →
      st.m_adjacencyValid = true ∧ st.m_normalsValid = true)

/-- Two mesh states that differ at most in the renderer handles, the surviving
subsets and the fallback material. -/
def SameCache (a b : MeshState) : Prop :=
  b = { a with m_rprMeshes := b.m_rprMeshes, m_rprMeshInstances := b.m_rprMeshInstances,
               m_geomSubsets := b.m_geomSubsets, m_fallbackMaterial := b.m_fallbackMaterial }


/-- The mesh and instance handles a backend call hands out. -/
def Call.created : Call → List Handle
  | Call.createMesh _ (some h) => [h]
  | Call.createMeshInstance _ h => [h]
  | _ => []

/-- The mesh and instance handles a backend call releases. -/
def Call.released : Call → List Handle
  | Call.release h => [h]
  | _ => []

/-- Whether a call creates or releases a mesh or an instance. -/
def Call.touchesHandles : Call → Bool
  | Call.createMesh _ _ => true
  | Call.createMeshInstance _ _ => true
  | Call.release _ => true
  | _ => false

/-- Every handle returned by a successful `CreateMesh` or by
`CreateMeshInstance` in a log, in the order of the calls. -/
def created (log : List Call) : List Handle := log.flatMap Call.created

/-- Every handle passed to `Release` in a log, in the order of the calls. -/
def released (log : List Call) : List Handle := log.flatMap Call.released

/-- The tracked handles: `m_rprMeshes` and all of `m_rprMeshInstances`. -/
def tracked (st : MeshState) : List Handle :=
  st.m_rprMeshes ++ st.m_rprMeshInstances.flatten

/-- The books balance: the handles created so far are, each once, either
tracked or released; they are pairwise different and older than the backend
counter; and the instance lists are either absent or one per renderer mesh. -/
def Ledger (st : MeshState) (next : Nat) (log : List Call) : Prop :=
  (tracked st ++ released log).Perm (created log) ∧ (created log).Nodup ∧
    (∀ h ∈ created log, h < next) ∧
    (st.m_rprMeshInstances = [] ∨ st.m_rprMeshInstances.length = st.m_rprMeshes.length)

/-- The instance handles a renderer mesh owns: the list at the position of the
mesh in `m_rprMeshes`, empty when the mesh is not tracked or has no list. -/
def ownedBy (st : MeshState) (mesh : Handle) : List Handle :=
  if mesh ∈ st.m_rprMeshes then st.m_rprMeshInstances.getD (st.m_rprMeshes.indexOf mesh) []
  else []
/-- The handles `next, next + 1, ..., next + n - 1`. -/
def freshHandles (next n : Nat) : List Handle := (List.range n).map fun k => next + k


/-- A step of `Sync` that keeps the renderer handles and makes only calls that
neither create nor release a mesh or an instance. -/
def QuietStep (f g : Frame) : Prop :=
  g.st.m_rprMeshes = f.st.m_rprMeshes ∧ g.st.m_rprMeshInstances = f.st.m_rprMeshInstances ∧
    f.next ≤ g.next ∧
    ∃ extra, g.calls = f.calls ++ extra ∧ ∀ c ∈ extra, c.touchesHandles = false

/-- Whether lines 276-288 compute smooth normals in a frame. -/
def synthesizes (f : Frame) : Bool :=
  !f.st.m_authoredNormals &&
    (f.st.m_displayStyle.flatShadingEnabled &&
      !(f.st.m_enableSubdiv && decide (f.st.m_refineLevel > 0))) &&
    !(f.st.m_adjacencyValid && f.st.m_normalsValid)

/-- A step of `Sync` that keeps the list of renderer meshes, creates no mesh,
and releases only handles that were instance handles before it. -/
def MeshKeepingStep (f g : Frame) : Prop :=
  g.st.m_rprMeshes = f.st.m_rprMeshes ∧
    ∃ extra, g.calls = f.calls ++ extra ∧
      ∀ c ∈ extra, c.isCreateMesh = false ∧
        ∀ h, c = Call.release h → h ∈ f.st.m_rprMeshInstances.flatten

/-- The visibility most recently pushed to a renderer mesh, if any. -/
def lastVisibility (log : List Call) (mesh : Handle) : Option Bool :=
  log.reverse.findSome? fun c =>
    match c with
    | Call.setMeshVisibility m visible => if m = mesh then some visible else none
    | _ => none

/-! ## Kinds of backend calls, runs with their events -/

/-- The backend entry point a call goes to. -/
inductive CallKind where
  | createMesh
  | createMeshInstance
  | createMaterial
  | release
  | releaseMaterial
  | setTransform
  | setMeshVisibility
  | setMeshMaterial
  | setMeshRefineLevel
  | setMeshVertexInterpolationRule
  deriving DecidableEq, Repr

/-- The entry point of a call. -/
def Call.kind : Call → CallKind
  | Call.createMesh _ _ => CallKind.createMesh
  | Call.createMeshInstance _ _ => CallKind.createMeshInstance
  | Call.createMaterial _ _ => CallKind.createMaterial
  | Call.release _ => CallKind.release
  | Call.releaseMaterial _ => CallKind.releaseMaterial
  | Call.setTransform _ _ => CallKind.setTransform
  | Call.setMeshVisibility _ _ => CallKind.setMeshVisibility
  | Call.setMeshMaterial _ _ _ _ => CallKind.setMeshMaterial
  | Call.setMeshRefineLevel _ _ => CallKind.setMeshRefineLevel
  | Call.setMeshVertexInterpolationRule _ _ => CallKind.setMeshVertexInterpolationRule

/-- A step of `Sync` that only appends calls, each with a given property. -/
def CallsStep (P : Call → Prop) (f g : Frame) : Prop :=
  ∃ extra, g.calls = f.calls ++ extra ∧ ∀ c ∈ extra, P c

/-- The state a defined `Sync` frame leaves: the mesh and the backend. -/
def Frame.result (f : Frame) (api : Api) : MeshState × Api :=
  (f.st, { next := f.next, log := api.log ++ f.calls })

/-- A run of `Sync` calls from a state, as the library events of each call;
`none` as soon as one is undefined. -/
def runEvents (lib : Lib) : List SyncInput → MeshState × Api → Option (List (List Event))
  | [], _ => some []
  | i :: rest, s =>
    match syncFrame lib i.scene i.dirtyBits s.1 s.2.next with
    | none => none
    | some f =>
      match runEvents lib rest (f.result s.2) with
      | none => none
      | some evs => some (f.events :: evs)

/-- What lines 194-205 establish: the subdivision flag says whether the cached
topology has the Catmull-Clark scheme. -/
def SubdivInv (st : MeshState) : Prop :=
  st.m_enableSubdiv = decide (st.m_topology.scheme = Scheme.catmullClark)

/-- The refine level of line 434. -/
def pushedRefineLevel (st : MeshState) : Int :=
  if st.m_enableSubdiv then st.m_refineLevel else 0

/-- The grid scene with display-style refine level 3 (its scheme is not
Catmull-Clark). -/
def refinedScene : Scene :=
  { quadScene with displayStyle := { refineLevel := 3, flatShadingEnabled := false,
                                     displacementEnabled := true } }

/-- The state after the first `Sync` of `refinedScene`. -/
def refinedSynced : MeshState × Api :=
  (Sync exampleLib refinedScene allDirty (MeshState.init 1) Api.init).getD
    (MeshState.init 1, Api.init)

/-- Lines 161-270: the scene data pulled and the display style resolved, before
the smooth normals are looked at. -/
def resolveAttributes (scene : Scene) (dirtyBits : DirtyBits) (f : Frame) : Frame :=
  resolveSubdivisionLevel scene dirtyBits
    (resolveDisplayStyle scene dirtyBits
      (pullFlags scene dirtyBits
        (pullUvs scene dirtyBits
          (pullNormals scene dirtyBits
            (pullTopology scene dirtyBits
              (pullPoints scene dirtyBits
                (pullComputedPoints scene dirtyBits f)))))))

/-- Whether lines 272-276 ask for smooth normals to be made by this code. -/
def wantsSmoothNormals (st : MeshState) : Bool :=
  !st.m_authoredNormals &&
    (st.m_displayStyle.flatShadingEnabled &&
      !(st.m_enableSubdiv && decide (st.m_refineLevel > 0)))

/-- The grid with the Catmull-Clark scheme. -/
def subdivTopology : HdMeshTopology := { quadTopology with scheme := Scheme.catmullClark }

/-- The grid scene with the Catmull-Clark scheme, a given display-style refine
level and the shading flag set. -/
def subdivScene (refineLevel : Int) : Scene :=
  { quadScene with
    topology := subdivTopology,
    displayStyle := { refineLevel := refineLevel, flatShadingEnabled := true,
                      displacementEnabled := true } }

/-- The nine points of the grid, lifted by a computation. -/
def liftedPoints : List GfVec3f := quadPoints.map fun p => (p.1, p.2.1, 7)

/-- The grid scene with computed points: an ext computation named `points`
that yields `liftedPoints`; the authored `points` attribute is still there. -/
def computedScene : Scene :=
  { quadScene with extComputationDescs := [Token.points],
                   computedPoints := some (VtValue.vec3fArray liftedPoints) }

/-- The grid scene with an ext computation named `points` that yields no
value. -/
def emptyComputationScene : Scene :=
  { quadScene with extComputationDescs := [Token.points], computedPoints := none }

/-- The integer of the `rpr:subdivisionLevel` override that lines 250-270
read, if they read one. -/
def overrideLevel (scene : Scene) (dirtyBits : DirtyBits) : Option Int :=
  if dirtyBits.primvar = true ∧
      Token.subdivisionLevel ∈ scene.primvarDescriptors HdInterpolation.constant then
    match scene.get Token.subdivisionLevel with
    | VtValue.int refineLevel => some refineLevel
    | _ => none
  else none

/-- The Catmull-Clark grid scene with display-style refine level 0 and a
constant primvar `rpr:subdivisionLevel` holding a given value. -/
def overrideScene (value : VtValue) : Scene :=
  { quadScene with
    topology := subdivTopology,
    get := fun t => match t with
      | Token.points => VtValue.vec3fArray quadPoints
      | Token.subdivisionLevel => value
      | _ => VtValue.other,
    primvarDescriptors := fun i => match i with
      | HdInterpolation.constant => [Token.subdivisionLevel]
      | _ => [] }

/-- The state after the first `Sync` of the scene with override 2. -/
def overrideSynced : MeshState × Api :=
  (Sync exampleLib (overrideScene (VtValue.int 2)) allDirty (MeshState.init 1) Api.init).getD
    (MeshState.init 1, Api.init)

/-- Whether a call is a `SetMeshRefineLevel`. -/
def Call.isSetMeshRefineLevel : Call → Bool
  | Call.setMeshRefineLevel _ _ => true
  | _ => false

/-- The state after the first `Sync` of the scene whose override holds no
integer. -/
def badOverrideSynced : MeshState × Api :=
  (Sync exampleLib (overrideScene VtValue.other) allDirty (MeshState.init 1) Api.init).getD
    (MeshState.init 1, Api.init)

/-- The grid scene with an instancer reporting no transform. -/
def resetScene : Scene := { quadScene with instancer := some [] }

/-- The instanced grid after a `Sync` whose instancer reports no transform. -/
def quadReset : MeshState × Api :=
  (Sync exampleLib resetScene onlyInstancer quadInstanced.1 quadInstanced.2).getD quadInstanced

/-- Only the normals bit. -/
def onlyNormals : DirtyBits := { DirtyBits.clean with normals := true }

/-- Nine authored normals. -/
def authoredNormals : List GfVec3f := List.replicate 9 (0, 1, 0)

/-- The grid scene of `flatScene` with an authored vertex primvar `normals`. -/
def authoredNormalsScene : Scene :=
  { flatScene with
    get := fun t => match t with
      | Token.points => VtValue.vec3fArray quadPoints
      | Token.normals => VtValue.vec3fArray authoredNormals
      | _ => VtValue.other,
    primvarDescriptors := fun i => match i with
      | HdInterpolation.vertex => [Token.normals]
      | _ => [] }

/-- The state after the first `Sync` of `flatScene`: normals computed. -/
def flatSynced : MeshState × Api :=
  (Sync exampleLib flatScene allDirty (MeshState.init 1) Api.init).getD
    (MeshState.init 1, Api.init)

/-- The state after authored normals arrived at `flatSynced`. -/
def normalsAuthored : MeshState × Api :=
  (Sync exampleLib authoredNormalsScene onlyNormals flatSynced.1 flatSynced.2).getD flatSynced

/-- Whether a call is a `CreateMesh` that returned a mesh. -/
def Call.createdMesh : Call → Bool
  | Call.createMesh _ (some _) => true
  | _ => false

/-- The subsets for which lines 357-403 call `CreateMesh`: those of type
`TypeFaceSet`. -/
def faceSets (subsets : List HdGeomSubset) : List HdGeomSubset :=
  subsets.filter fun s => decide (s.type = SubsetType.TypeFaceSet)

/-- The cached mesh data that the `CreateMesh` arguments are made of. -/
def MeshState.geometry (st : MeshState) :
    List GfVec3f × HdMeshTopology × List Int × List Int × List GfVec3f × List Int ×
      List GfVec2f × List Int :=
  (st.m_points, st.m_topology, st.m_faceVertexCounts, st.m_faceVertexIndices, st.m_normals,
    st.m_normalIndices, st.m_uvs, st.m_uvIndices)

/-- The grid scene with a given list of subsets and a backend whose
`CreateMesh` always fails. -/
def failingScene (subsets : List HdGeomSubset) : Scene :=
  { quadScene with topology := { quadTopology with geomSubsets := subsets },
                   createMeshOk := fun _ => false }

/-- A subset over faces 0 and 1 of a type other than `TypeFaceSet`. -/
def subsetOther : HdGeomSubset :=
  { type := SubsetType.TypeOther, id := 6, materialId := 11, indices := [0, 1] }

/-- The subset over face 3, bound to material 10. -/
def subsetB : HdGeomSubset :=
  { type := SubsetType.TypeFaceSet, id := 7, materialId := 10, indices := [3] }

/-- The grid scene with a given list of subsets and a backend whose creations
of the given numbers fail. -/
def subsetsScene (subsets : List HdGeomSubset) (failing : List Nat) : Scene :=
  { quadScene with topology := { quadTopology with geomSubsets := subsets },
                   createMeshOk := fun n => decide (n ∉ failing) }

/-- The frame with which lines 444-471 run, after a frame left by lines
300-405. -/
def beforeMaterial (scene : Scene) (dirtyBits : DirtyBits) (f : Frame) : Frame :=
  updateVisibility dirtyBits (updateRefineLevel (updateSubdivTags scene dirtyBits f))

/-- Whether lines 444-471 end in `TF_CODING_ERROR("Unexpected number of
meshes")` (line 468) in a frame. -/
def reachesCodingError (dirtyBits : DirtyBits) (f : Frame) : Bool :=
  (f.newMesh || dirtyBits.materialId || dirtyBits.doubleSided || dirtyBits.displayStyle ||
      f.isRefineLevelDirty) &&
    !f.st.m_geomSubsets.isEmpty &&
    !decide (f.st.m_geomSubsets.length = f.st.m_rprMeshes.length)

/-- One call of the life of a mesh: a `Sync` or the `Finalize`. -/
inductive Op where
  | sync (input : SyncInput)
  | finalize

/-- A run of `Sync` and `Finalize` calls from a state; `none` as soon as a
`Sync` is undefined. -/
def runOps (lib : Lib) : List Op → MeshState × Api → Option (MeshState × Api)
  | [], s => some s
  | Op.sync i :: rest, s =>
    match Sync lib i.scene i.dirtyBits s.1 s.2 with
    | none => none
    | some s1 => runOps lib rest s1
  | Op.finalize :: rest, s => runOps lib rest (Finalize s.1 s.2)

/-- A renderer mesh was created from a subset: a logged `CreateMesh` call with
the arrays of the subset returned it. -/
def CreatedFrom (st : MeshState) (log : List Call) (subset : HdGeomSubset) (mesh : Handle) :
    Prop :=
  ∃ args, subsetMeshArgs st subset = some args ∧ Call.createMesh args (some mesh) ∈ log

/-- Renderer mesh `i` was created from subset `i`, whenever there are renderer
meshes and subsets. -/
def Corr (st : MeshState) (log : List Call) : Prop :=
  st.m_rprMeshes ≠ [] → st.m_geomSubsets ≠ [] →
    List.Forall₂ (CreatedFrom st log) st.m_geomSubsets st.m_rprMeshes

/-- The grid after its first `Sync` and a `Finalize`. -/
def quadFinalized : MeshState × Api :=
  (runOps exampleLib [Op.sync { scene := quadScene, dirtyBits := allDirty }, Op.finalize]
    (MeshState.init 1, Api.init)).getD (MeshState.init 1, Api.init)

/-- The grid scene with a subset of unsupported type, `subsetA` and `subsetB`,
and a backend whose creation number 2 fails. -/
def mixedScene : Scene := subsetsScene [subsetOther, subsetA, subsetB] [2]

/-- The frame after the rebuild of `mixedScene` at `quadFinalized`. -/
def mixedFrame : Frame :=
  (createRprMeshes mixedScene (resolve exampleLib mixedScene allDirty
    (Frame.start quadFinalized.1 quadFinalized.2.next))).getD
    (Frame.start quadFinalized.1 quadFinalized.2.next)

/-- Both validity flags of lines 276-288 are set. -/
def normalsCurrent (st : MeshState) : Bool := st.m_adjacencyValid && st.m_normalsValid

/-- What `GetPrimvarData` establishes for the normals: without authored
normals there are no normal indices. -/
def NormalsInv (st : MeshState) : Prop :=
  st.m_authoredNormals = false → st.m_normalIndices = []

/-- Only the material bit. -/
def onlyMaterialId : DirtyBits := { DirtyBits.clean with materialId := true }

/-- A life of the grid with the shading flag set: first sync, a sync for a new
material, a sync for new points, a sync for a new display style. -/
def flatLife : List SyncInput :=
  [{ scene := flatScene, dirtyBits := allDirty },
   { scene := flatScene, dirtyBits := onlyMaterialId },
   { scene := flatScene, dirtyBits := onlyPoints },
   { scene := flatScene, dirtyBits := onlyDisplayStyle }]

/-- The events of `flatLife`, `Sync` by `Sync`. -/
def flatLifeEvents : List (List Event) :=
  [[Event.getPoints, Event.buildAdjacencyTable, Event.computeSmoothNormals], [],
   [Event.getPoints, Event.computeSmoothNormals], []]

/-! ## Materials: what a log creates, releases and binds -/

/-- The material handles returned by the `CreateMaterial` calls of a log, in
the order of the calls. -/
def createdMaterials (log : List Call) : List Handle :=
  log.flatMap fun c =>
    match c with
    | Call.createMaterial _ m => [m]
    | _ => []

/-- The material handles passed to `Release` in a log, in the order of the
calls. -/
def releasedMaterials (log : List Call) : List Handle :=
  log.flatMap fun c =>
    match c with
    | Call.releaseMaterial (some m) => [m]
    | _ => []

/-- The material most recently bound to a renderer mesh, if any. -/
def lastMaterial (log : List Call) (mesh : Handle) : Option (Option Handle) :=
  log.reverse.findSome? fun c =>
    match c with
    | Call.setMeshMaterial m material _ _ => if m = mesh then some material else none
    | _ => none

/-- Whether a call creates, releases or binds a material. -/
def Call.isMaterialCall : Call → Bool
  | Call.createMaterial _ _ => true
  | Call.releaseMaterial _ => true
  | Call.setMeshMaterial _ _ _ _ => true
  | _ => false

/-- The grid scene without realized materials: every material lookup falls
back. -/
def unrealizedScene : Scene := { quadScene with materialObject := fun _ => none }

/-- Every bit but the primvar bit. -/
def allButPrimvar : DirtyBits := { allDirty with primvar := false }

/-! ## The catch-all subset -/

theorem count_set_false (l : List Bool) (j : Nat) (h : l[j]? = some true) :
    (l.set j false).count true = l.count true - 1 := by
  induction l generalizing j with
  | nil => simp at h
  | cons b bs ih =>
    cases j with
    | zero =>
      simp at h
      subst h
      simp
    | succ k =>
      simp at h
      have hpos : 0 < bs.count true := by
        apply List.count_pos_iff.mpr
        obtain ⟨hk, hk2⟩ := List.getElem?_eq_some_iff.mp h
        exact hk2 ▸ List.getElem_mem hk
      simp [List.set, List.count_cons, ih k h]
      split <;> omega

theorem markInv_init (numFaces : Nat) :
    MarkInv numFaces [] (List.replicate numFaces true, numFaces) := by
  refine ⟨by simp, by simp, ?_⟩
  intro j hj
  simp [List.getElem?_replicate, hj]

theorem markInv_step (numFaces : Nat) (seen : List Int) (acc : List Bool × Nat) (index : Int)
    (h : MarkInv numFaces seen acc) :
    MarkInv numFaces (seen ++ [index]) (markIndex numFaces acc index) := by
  obtain ⟨hlen, hcnt, hchar⟩ := h
  unfold markIndex
  split
  · rename_i hc
    obtain ⟨hlt, htrue⟩ := hc
    refine ⟨by simp [hlen], ?_, ?_⟩
    · simp only
      rw [count_set_false _ _ htrue, hcnt]
    · intro j hj
      simp only [List.getElem?_set, hlen, hlt, if_true]
      by_cases hji : toSizeT index = j
      · simp only [hji, if_true]
        constructor
        · intro hx; simp at hx
        · intro hx; exact absurd hji (hx index (by simp))
      · simp only [hji, if_false]
        rw [hchar j hj]
        simp [List.mem_append, or_imp, forall_and, hji]
  · rename_i hc
    refine ⟨hlen, hcnt, ?_⟩
    intro j hj
    rw [hchar j hj]
    simp only [List.mem_append, or_imp, forall_and, List.mem_singleton, forall_eq]
    constructor
    · intro hs
      refine ⟨hs, ?_⟩
      intro hij
      apply hc
      subst hij
      exact ⟨hj, (hchar _ hj).mpr hs⟩
    · exact fun hs => hs.1

theorem markInv_foldl (numFaces : Nat) (indices : List Int) (seen : List Int)
    (acc : List Bool × Nat) (h : MarkInv numFaces seen acc) :
    MarkInv numFaces (seen ++ indices) (indices.foldl (markIndex numFaces) acc) := by
  induction indices generalizing seen acc with
  | nil => simpa using h
  | cons i rest ih =>
    have := ih (seen ++ [i]) _ (markInv_step numFaces seen acc i h)
    simpa using this

theorem markInv_subsets (numFaces : Nat) (subsets : List HdGeomSubset) (seen : List Int)
    (acc : List Bool × Nat) (h : MarkInv numFaces seen acc) :
    MarkInv numFaces (seen ++ subsets.flatMap HdGeomSubset.indices)
      (subsets.foldl (fun acc s => s.indices.foldl (markIndex numFaces) acc) acc) := by
  induction subsets generalizing seen acc with
  | nil => simpa using h
  | cons s rest ih =>
    have := ih (seen ++ s.indices) _ (markInv_foldl numFaces s.indices seen acc h)
    simpa [List.flatMap_cons] using this

theorem markInv_markSubsets (numFaces : Nat) (subsets : List HdGeomSubset) :
    MarkInv numFaces (subsets.flatMap HdGeomSubset.indices) (markSubsets numFaces subsets) := by
  have := markInv_subsets numFaces subsets [] _ (markInv_init numFaces)
  simpa [markSubsets] using this

theorem take_set_self {α : Type} (l : List α) (n : Nat) (a : α) :
    (l.set n a).take n = l.take n := by
  induction l generalizing n with
  | nil => simp
  | cons x xs ih => cases n <;> simp [ih]

theorem fillUnused_eq (bs : List Bool) (i count : Nat) (out : List Int)
    (h : count + bs.count true = out.length) :
    fillUnused bs i count out = out.take count ++ (trueIdx bs i).map toInt := by
  induction bs generalizing i count out with
  | nil =>
    simp at h
    simp [fillUnused, trueIdx, h]
  | cons b bs ih =>
    cases b with
    | true =>
      have hlt : count < out.length := by simp at h; omega
      simp only [fillUnused, hlt, if_true, trueIdx]
      rw [ih (i + 1) (count + 1) (out.set count (toInt i)) (by simp at h ⊢; omega)]
      simp [take_set_self, List.take_succ, List.getElem?_set, hlt]
    | false =>
      by_cases hlt : count < out.length
      · simp only [fillUnused, hlt, if_true, trueIdx]
        simpa using ih (i + 1) count out (by simpa using h)
      · have hc : bs.count true = 0 := by simp at h; omega
        have hnil : ∀ (l : List Bool) (k : Nat), l.count true = 0 → trueIdx l k = [] := by
          intro l
          induction l with
          | nil => intro k _; rfl
          | cons c l ihl =>
            intro k hk
            cases c with
            | true => simp at hk
            | false => simpa [trueIdx] using ihl (k + 1) (by simpa using hk)
        simp [fillUnused, hlt, trueIdx, hnil bs (i + 1) hc, List.take_of_length_le (not_lt.mp hlt)]

theorem trueIdx_eq (bs : List Bool) (i : Nat) :
    trueIdx bs i = ((List.range bs.length).filter fun k => bs[k]? = some true).map (· + i) := by
  induction bs generalizing i with
  | nil => simp [trueIdx]
  | cons b bs ih =>
    rw [List.length_cons, List.range_succ_eq_map, List.filter_cons]
    simp only [trueIdx, ih (i + 1), List.filter_map, List.map_map]
    have hf : ((fun k => decide ((b :: bs)[k]? = some true)) ∘ Nat.succ) =
        fun k => decide (bs[k]? = some true) := by
      funext k; simp
    have hg : ((fun x => x + i) ∘ Nat.succ) = fun x => x + (i + 1) := by
      funext k; simp; omega
    cases b <;> simp [hf, hg]

theorem markInv_trueIdx (numFaces : Nat) (seen : List Int) (acc : List Bool × Nat)
    (h : MarkInv numFaces seen acc) : trueIdx acc.1 0 = unusedFaces numFaces seen := by
  obtain ⟨hlen, _, hchar⟩ := h
  rw [trueIdx_eq, hlen]
  simp only [Nat.add_zero, List.map_id', unusedFaces]
  apply List.filter_congr
  intro j hj
  have := hchar j (List.mem_range.mp hj)
  simp only [decide_eq_decide]
  exact this

theorem markInv_count (numFaces : Nat) (seen : List Int) (acc : List Bool × Nat)
    (h : MarkInv numFaces seen acc) : acc.2 = (unusedFaces numFaces seen).length := by
  rw [← markInv_trueIdx numFaces seen acc h, h.2.1]
  generalize acc.1 = l
  generalize 0 = k
  induction l generalizing k with
  | nil => rfl
  | cons b bs ih => cases b <;> simp [trueIdx, ih (k + 1)]

/-- The subset list of lines 318-345, in closed form. -/
theorem appendUnusedSubset_eq (st : MeshState) (subsets : List HdGeomSubset) :
    appendUnusedSubset st subsets =
      if unusedFaces st.m_faceVertexCounts.length (subsets.flatMap HdGeomSubset.indices) ≠ []
      then subsets ++ [{
          type := SubsetType.TypeFaceSet, id := st.id,
          materialId := st.m_cachedMaterialId,
          indices := (unusedFaces st.m_faceVertexCounts.length
            (subsets.flatMap HdGeomSubset.indices)).map toInt }]
      else subsets := by
  have hinv := markInv_markSubsets st.m_faceVertexCounts.length subsets
  have hcnt := markInv_count _ _ _ hinv
  have hidx := markInv_trueIdx _ _ _ hinv
  unfold appendUnusedSubset
  simp only []
  rw [fillUnused_eq _ 0 0 _ (by simp [hinv.2.1]), hidx, hcnt]
  simp [List.length_eq_zero]

theorem toSizeT_of_nonneg (i : Int) (h0 : 0 ≤ i) (h1 : i < 2 ^ 64) : toSizeT i = i.toNat := by
  unfold toSizeT
  rw [Int.emod_eq_of_lt h0 h1]

theorem toSizeT_natCast (j : Nat) (h : j < 2 ^ 64) : toSizeT (j : Int) = j := by
  rw [toSizeT_of_nonneg _ (by positivity) (by exact_mod_cast h)]
  simp

theorem toInt_of_lt (j : Nat) (h : j < 2 ^ 31) : toInt j = (j : Int) := by
  unfold toInt
  have h2 : ((j : Int) + 2 ^ 31) % 2 ^ 32 = (j : Int) + 2 ^ 31 := by
    apply Int.emod_eq_of_lt
    · positivity
    · have : (j : Int) < 2 ^ 31 := by exact_mod_cast h
      omega
  rw [h2]; ring

theorem unusedFaces_lt (numFaces : Nat) (seen : List Int) (j : Nat)
    (h : j ∈ unusedFaces numFaces seen) : j < numFaces := by
  simp [unusedFaces] at h
  exact h.1

theorem unusedFaces_map_toInt (numFaces : Nat) (seen : List Int) (hN : numFaces < 2 ^ 31) :
    (unusedFaces numFaces seen).map toInt = (unusedFaces numFaces seen).map Int.ofNat := by
  apply List.map_congr_left
  intro j hj
  exact toInt_of_lt j (lt_trans (unusedFaces_lt _ _ _ hj) hN)

theorem unusedFaces_nodup (numFaces : Nat) (seen : List Int) :
    (unusedFaces numFaces seen).Nodup :=
  (List.nodup_range numFaces).filter _

theorem length_unusedFaces (numFaces : Nat) (seen : List Int) (hN : numFaces < 2 ^ 31)
    (hrange : ∀ i ∈ seen, 0 ≤ i ∧ i < numFaces) (hnd : seen.Nodup) :
    seen.length + (unusedFaces numFaces seen).length = numFaces := by
  have hsz : ∀ i ∈ seen, toSizeT i = i.toNat := by
    intro i hi
    have hi2 := hrange i hi
    have hN2 : (numFaces : Int) < 2 ^ 31 := by exact_mod_cast hN
    exact toSizeT_of_nonneg i hi2.1 (by omega)
  have hmem : ∀ j : Nat, (∀ i ∈ seen, toSizeT i ≠ j) ↔ j ∉ seen.map Int.toNat := by
    intro j
    simp only [List.mem_map, not_exists, not_and]
    constructor
    · intro h i hi
      rw [← hsz i hi]
      exact h i hi
    · intro h i hi
      rw [hsz i hi]
      exact h i hi
  have hS : (seen.map Int.toNat).Nodup := by
    apply List.Nodup.map_on _ hnd
    intro a ha b hb hab
    have h1 := (hrange a ha).1
    have h2 := (hrange b hb).1
    omega
  have hperm : ((List.range numFaces).filter fun j => decide (j ∈ seen.map Int.toNat)).Perm
      (seen.map Int.toNat) := by
    apply (List.perm_ext_iff_of_nodup ((List.nodup_range numFaces).filter _) hS).mpr
    intro j
    simp only [List.mem_filter, List.mem_range, decide_eq_true_eq, and_iff_right_iff_imp]
    intro hj
    obtain ⟨i, hi, rfl⟩ := List.mem_map.mp hj
    have := hrange i hi
    omega
  have hlen := hperm.length_eq
  have hsplit := List.length_eq_length_filter_add (l := List.range numFaces)
    (fun j => decide (j ∈ seen.map Int.toNat))
  have hU : unusedFaces numFaces seen =
      (List.range numFaces).filter fun j => !decide (j ∈ seen.map Int.toNat) := by
    unfold unusedFaces
    apply List.filter_congr
    intro j _
    have hj := hmem j
    by_cases h : j ∈ seen.map Int.toNat
    · have h2 : ¬ (∀ i ∈ seen, toSizeT i ≠ j) := fun hh => (hj.mp hh) h
      rw [decide_eq_true h, decide_eq_false h2]; rfl
    · have h2 := hj.mpr h
      rw [decide_eq_false h, decide_eq_true h2]; rfl
  rw [hU]
  simp only [List.length_map, List.length_range] at hlen hsplit
  omega

/-! ## Re-indexing -/

theorem sub_eq_getD {α : Type} (xs : List α) (i : Int) (d : α) (h0 : 0 ≤ i)
    (h1 : i < (xs.length : Int)) (h2 : xs.length < 2 ^ 64) :
    sub xs i = some (xs.getD i.toNat d) := by
  unfold sub
  have h3 : (xs.length : Int) < 2 ^ 64 := by exact_mod_cast h2
  rw [toSizeT_of_nonneg i h0 (by omega)]
  have h4 : i.toNat < xs.length := by omega
  simp [List.getD, List.getElem?_eq_getElem h4]

theorem wrapInt_of_range (x : Int) (h0 : -2 ^ 31 ≤ x) (h1 : x < 2 ^ 31) : wrapInt x = x := by
  unfold wrapInt
  omega

theorem prefixSum_length (o : Int) (counts : List Int) :
    (indexesOffsetPrefixSum o counts).length = counts.length := by
  induction counts generalizing o with
  | nil => rfl
  | cons c cs ih => simp [indexesOffsetPrefixSum, ih]

theorem prefixSum_getD (o : Int) (counts : List Int) (f : Nat) (hf : f < counts.length)
    (hc : ∀ c ∈ counts, 0 ≤ c) (ho : 0 ≤ o) (hs : o + counts.sum < 2 ^ 31) :
    (indexesOffsetPrefixSum o counts).getD f 0 = o + (counts.take f).sum := by
  induction counts generalizing o f with
  | nil => simp at hf
  | cons c cs ih =>
    have hc0 : 0 ≤ c := hc c (by simp)
    have hcs : ∀ x ∈ cs, 0 ≤ x := fun x hx => hc x (by simp [hx])
    have hsum : 0 ≤ cs.sum := List.sum_nonneg hcs
    rw [List.sum_cons] at hs
    have hw : wrapInt (o + c) = o + c := wrapInt_of_range _ (by omega) (by omega)
    cases f with
    | zero => simp [indexesOffsetPrefixSum]
    | succ k =>
      simp only [List.length_cons, Nat.succ_lt_succ_iff] at hf
      have := ih (o + c) k hf hcs (by omega) (by omega)
      simp only [indexesOffsetPrefixSum, List.getD_cons_succ, List.take_succ_cons, List.sum_cons,
        hw]
      rw [this]; ring

/-- Past `2 ^ 31` corners the running `int offset` of line 354 wraps. -/
theorem prefixSum_wraps :
    indexesOffsetPrefixSum 0 [2 ^ 30, 2 ^ 30, 4] = [0, 2 ^ 30, -2 ^ 31] := by
  decide

theorem take_sum_add_le (counts : List Int) (h : ∀ c ∈ counts, 0 ≤ c) (f : Nat)
    (hf : f < counts.length) :
    0 ≤ (counts.take f).sum ∧ (counts.take f).sum + counts.getD f 0 ≤ counts.sum := by
  induction counts generalizing f with
  | nil => simp at hf
  | cons c cs ih =>
    have hc : 0 ≤ c := h c (by simp)
    have hcs : ∀ x ∈ cs, 0 ≤ x := fun x hx => h x (by simp [hx])
    cases f with
    | zero =>
      simp only [List.take_zero, List.sum_nil, List.getD_cons_zero, List.sum_cons, zero_add,
        le_refl, true_and]
      have : 0 ≤ cs.sum := List.sum_nonneg hcs
      omega
    | succ k =>
      simp only [List.length_cons, Nat.succ_lt_succ_iff] at hf
      have := ih hcs k hf
      simp only [List.take_succ_cons, List.sum_cons, List.getD_cons_succ]
      omega

theorem extendArrays_nil (st : MeshState) (acc : SubsetArrays) :
    extendArrays st acc [] [] = acc := by
  cases acc
  simp [extendArrays]

theorem extendArrays_extendArrays (st : MeshState) (acc : SubsetArrays)
    (c1 c2 : List Int) (n1 n2 : List Int) :
    extendArrays st (extendArrays st acc c1 n1) c2 n2 = extendArrays st acc (c1 ++ c2) (n1 ++ n2) := by
  simp only [extendArrays, List.map_append, List.append_assoc, List.length_append,
    List.range_add, List.map_map, Nat.cast_add, SubsetArrays.mk.injEq, true_and]
  refine ⟨?_, ?_, ?_, ?_⟩
  · split <;> simp
  · split <;> simp
  · congr 2
    apply List.map_congr_left
    intro k _
    simp; ring
  · ring

theorem getD_mem {α : Type} (xs : List α) (k : Nat) (d : α) (h : k < xs.length) :
    xs.getD k d ∈ xs := by
  rw [List.getD_eq_getElem _ _ h]
  exact List.getElem_mem h

theorem pushCorner_eq (st : MeshState) (hwf : WellFormed st) (off : Int) (acc : SubsetArrays)
    (i : Nat) (h0 : 0 ≤ off + (i : Int))
    (h1 : off + (i : Int) < (st.m_faceVertexIndices.length : Int))
    (h2 : off + (i : Int) < 2 ^ 31) (hc0 : 0 ≤ acc.count) (hc1 : acc.count + 1 < 2 ^ 31) :
    pushCorner st off acc i = some (extendArrays st acc [off + (i : Int)] []) := by
  obtain ⟨_, ⟨hfl, hfr⟩, hn, hu, _, hs2, hs3, hs4, hs5⟩ := hwf
  have hw : wrapInt (off + (i : Int)) = off + (i : Int) :=
    wrapInt_of_range _ (by omega) h2
  have hw2 : wrapInt (acc.count + 1) = acc.count + 1 :=
    wrapInt_of_range _ (by omega) hc1
  have hp : (off + (i : Int)).toNat < st.m_faceVertexIndices.length := by omega
  have hpi := hfr _ (getD_mem st.m_faceVertexIndices _ 0 hp)
  have e1 : sub st.m_faceVertexIndices (off + i) = some (specPointIndex st (off + i)) :=
    sub_eq_getD _ _ 0 h0 h1 hs2
  have e2 : sub st.m_points (specPointIndex st (off + i)) = some (specCornerPoint st (off + i)) :=
    sub_eq_getD _ _ (0, 0, 0) hpi.1 hpi.2 hs3
  have e3 : st.m_normals.isEmpty = false →
      sub st.m_normals (specNormalIndex st (off + i)) = some (specCornerNormal st (off + i)) := by
    intro hne
    have hn2 := hn hne
    unfold specCornerNormal
    apply sub_eq_getD _ _ (0, 0, 0) _ _ hs4
    · unfold specNormalIndex
      split
      · rename_i he; rw [if_pos he] at hn2
        exact (hn2.2 _ (getD_mem st.m_faceVertexIndices _ 0 hp)).1
      · rename_i he; rw [if_neg he] at hn2
        exact (hn2.2 _ (getD_mem st.m_normalIndices _ 0 (by rw [hn2.1]; exact hp))).1
    · unfold specNormalIndex
      split
      · rename_i he; rw [if_pos he] at hn2
        exact (hn2.2 _ (getD_mem st.m_faceVertexIndices _ 0 hp)).2
      · rename_i he; rw [if_neg he] at hn2
        exact (hn2.2 _ (getD_mem st.m_normalIndices _ 0 (by rw [hn2.1]; exact hp))).2
  have e4 : st.m_normals.isEmpty = false → st.m_normalIndices.isEmpty = false →
      sub st.m_normalIndices (off + i) = some (st.m_normalIndices.getD (off + i).toNat 0) := by
    intro hne he
    have hn2 := hn hne
    rw [he] at hn2
    simp only [Bool.false_eq_true, if_false] at hn2
    exact sub_eq_getD _ _ 0 h0 (by rw [hn2.1]; exact h1) (by rw [hn2.1]; exact hs2)
  have e5 : st.m_uvs.isEmpty = false →
      sub st.m_uvs (specUvIndex st (off + i)) = some (specCornerUv st (off + i)) := by
    intro hne
    have hu2 := hu hne
    unfold specCornerUv
    apply sub_eq_getD _ _ (0, 0) _ _ hs5
    · unfold specUvIndex
      split
      · rename_i he; rw [if_pos he] at hu2
        exact (hu2.2 _ (getD_mem st.m_faceVertexIndices _ 0 hp)).1
      · rename_i he; rw [if_neg he] at hu2
        exact (hu2.2 _ (getD_mem st.m_uvIndices _ 0 (by rw [hu2.1]; exact hp))).1
    · unfold specUvIndex
      split
      · rename_i he; rw [if_pos he] at hu2
        exact (hu2.2 _ (getD_mem st.m_faceVertexIndices _ 0 hp)).2
      · rename_i he; rw [if_neg he] at hu2
        exact (hu2.2 _ (getD_mem st.m_uvIndices _ 0 (by rw [hu2.1]; exact hp))).2
  have e6 : st.m_uvs.isEmpty = false → st.m_uvIndices.isEmpty = false →
      sub st.m_uvIndices (off + i) = some (st.m_uvIndices.getD (off + i).toNat 0) := by
    intro hne he
    have hu2 := hu hne
    rw [he] at hu2
    simp only [Bool.false_eq_true, if_false] at hu2
    exact sub_eq_getD _ _ 0 h0 (by rw [hu2.1]; exact h1) (by rw [hu2.1]; exact hs2)
  unfold pushCorner extendArrays
  simp only [hw, hw2, e1, e2, Option.bind_eq_bind, Option.some_bind, Option.pure_def]
  clear hw hw2 h2 hc0 hc1
  cases hN : st.m_normals.isEmpty <;> cases hU : st.m_uvs.isEmpty <;>
    cases hNI : st.m_normalIndices.isEmpty <;> cases hUI : st.m_uvIndices.isEmpty <;>
    simp_all [specNormalIndex, specUvIndex, List.range_succ]

theorem pushCorners_eq (st : MeshState) (hwf : WellFormed st) (off : Int) (n : Nat)
    (acc : SubsetArrays) (h0 : 0 ≤ off)
    (h1 : off + (n : Int) ≤ (st.m_faceVertexIndices.length : Int))
    (h2 : off + (n : Int) ≤ 2 ^ 31) (hc0 : 0 ≤ acc.count)
    (hc1 : acc.count + (n : Int) < 2 ^ 31) :
    (List.range n).foldlM (pushCorner st off) acc =
      some (extendArrays st acc ((List.range n).map fun (i : Nat) => off + (i : Int)) []) := by
  induction n with
  | zero => simp [extendArrays_nil]
  | succ k ih =>
    push_cast at h1 h2 hc1
    rw [List.range_succ, List.foldlM_append, ih (by omega) (by omega) (by omega)]
    simp only [Option.bind_eq_bind, Option.some_bind, List.foldlM_cons, List.foldlM_nil,
      Option.pure_def, Option.bind_some]
    rw [pushCorner_eq st hwf off _ k (by omega) (by omega) (by omega)
      (by simp only [extendArrays, List.length_map, List.length_range]; omega)
      (by simp only [extendArrays, List.length_map, List.length_range]; omega),
      extendArrays_extendArrays]
    simp

theorem pushFace_eq (st : MeshState) (hwf : WellFormed st) (acc : SubsetArrays) (f : Int)
    (h0 : 0 ≤ f) (h1 : f < (st.m_faceVertexCounts.length : Int))
    (hs : st.m_faceVertexCounts.sum < 2 ^ 31) (hc0 : 0 ≤ acc.count)
    (hc1 : acc.count + specCount st f < 2 ^ 31) :
    pushFace st (indexesOffsetPrefixSum 0 st.m_faceVertexCounts) acc f =
      some (extendArrays st acc (specFaceCorners st f) [specCount st f]) := by
  have hf : f.toNat < st.m_faceVertexCounts.length := by omega
  have e1 : sub st.m_faceVertexCounts f = some (specCount st f) :=
    sub_eq_getD _ _ 0 h0 h1 hwf.2.2.2.2.1
  have e2 : sub (indexesOffsetPrefixSum 0 st.m_faceVertexCounts) f = some (specOffset st f) := by
    rw [sub_eq_getD _ _ 0 h0 (by rw [prefixSum_length]; exact h1)
      (by rw [prefixSum_length]; exact hwf.2.2.2.2.1),
      prefixSum_getD _ _ _ hf hwf.1 (le_refl 0) (by omega)]
    simp [specOffset]
  have hsum := take_sum_add_le st.m_faceVertexCounts hwf.1 f.toNat hf
  have hcnt : 0 ≤ specCount st f := hwf.1 _ (getD_mem _ _ 0 hf)
  have hlen : (st.m_faceVertexIndices.length : Int) = st.m_faceVertexCounts.sum := by
    rw [hwf.2.1.1]
    exact Int.toNat_of_nonneg (List.sum_nonneg hwf.1)
  have hoff : specOffset st f + specCount st f ≤ st.m_faceVertexCounts.sum := hsum.2
  unfold pushFace
  simp only [e1, e2, Option.bind_eq_bind, Option.some_bind]
  rw [pushCorners_eq st hwf (specOffset st f) _ _ hsum.1
    (by rw [Int.toNat_of_nonneg hcnt, hlen]; exact hsum.2)
    (by rw [Int.toNat_of_nonneg hcnt]; omega) (by exact hc0)
    (by rw [Int.toNat_of_nonneg hcnt]; exact hc1)]
  have hx : ({ acc with subsetVertexPerFace := acc.subsetVertexPerFace ++ [specCount st f] }
      : SubsetArrays) = extendArrays st acc [] [specCount st f] := by
    cases acc
    simp [extendArrays]
  rw [hx, extendArrays_extendArrays]
  simp [specFaceCorners]

theorem length_specFaceCorners (st : MeshState) (f : Int) (h : 0 ≤ specCount st f) :
    ((specFaceCorners st f).length : Int) = specCount st f := by
  simp [specFaceCorners, Int.toNat_of_nonneg h]

theorem pushFaces_eq (st : MeshState) (hwf : WellFormed st) (faces : List Int)
    (acc : SubsetArrays)
    (hin : ∀ f ∈ faces, 0 ≤ f ∧ f < (st.m_faceVertexCounts.length : Int))
    (hs : st.m_faceVertexCounts.sum < 2 ^ 31) (hc0 : 0 ≤ acc.count)
    (hc1 : acc.count + (faces.map (specCount st)).sum < 2 ^ 31) :
    faces.foldlM (pushFace st (indexesOffsetPrefixSum 0 st.m_faceVertexCounts)) acc =
      some (extendArrays st acc (specCorners st faces) (faces.map (specCount st))) := by
  induction faces generalizing acc with
  | nil => simp [specCorners, extendArrays_nil]
  | cons f rest ih =>
    have hf := hin f (by simp)
    have hcnt : 0 ≤ specCount st f :=
      hwf.1 _ (getD_mem _ _ 0 (by omega))
    have hrest : 0 ≤ (rest.map (specCount st)).sum := by
      apply List.sum_nonneg
      intro x hx
      obtain ⟨g, hg, rfl⟩ := List.mem_map.mp hx
      exact hwf.1 _ (getD_mem _ _ 0 (by have := hin g (by simp [hg]); omega))
    rw [List.map_cons, List.sum_cons] at hc1
    rw [List.foldlM_cons, pushFace_eq st hwf acc f hf.1 hf.2 hs hc0 (by omega)]
    simp only [Option.bind_eq_bind, Option.some_bind]
    have hlen := length_specFaceCorners st f hcnt
    rw [ih _ (fun g hg => hin g (by simp [hg]))
      (by simp only [extendArrays]; omega)
      (by simp only [extendArrays]; omega), extendArrays_extendArrays]
    simp [specCorners]

theorem subsetMeshArgs_eq (st : MeshState) (hwf : WellFormed st) (subset : HdGeomSubset)
    (hin : ∀ f ∈ subset.indices, 0 ≤ f ∧ f < (st.m_faceVertexCounts.length : Int))
    (hs : st.m_faceVertexCounts.sum < 2 ^ 31)
    (hc : (subset.indices.map (specCount st)).sum < 2 ^ 31) :
    subsetMeshArgs st subset = some (specSubsetArgs st subset) := by
  unfold subsetMeshArgs buildSubsetArrays
  rw [pushFaces_eq st hwf _ _ hin hs (le_refl 0) (by simpa using hc)]
  simp only [Option.map_some', extendArrays, specSubsetArgs, List.nil_append, zero_add]
  rfl

theorem groupByCounts_flatMap {α β : Type} (fs : List β) (g : β → List α) (c : β → Int)
    (h : ∀ f ∈ fs, (c f).toNat = (g f).length) :
    groupByCounts (fs.map c) (fs.flatMap g) = fs.map g := by
  induction fs with
  | nil => rfl
  | cons f rest ih =>
    have hf := h f (by simp)
    simp only [List.map_cons, List.flatMap_cons, groupByCounts, hf, List.take_left',
      List.drop_left', List.cons.injEq, true_and]
    exact ih (fun x hx => h x (by simp [hx]))

theorem toSizeT_eq_iff (i : Int) (j : Nat) (hi : -2 ^ 31 ≤ i ∧ i < 2 ^ 31) (hj : j < 2 ^ 31) :
    toSizeT i = j ↔ i = (j : Int) := by
  constructor
  · intro h
    by_cases h0 : 0 ≤ i
    · rw [toSizeT_of_nonneg i h0 (by omega)] at h
      omega
    · exfalso
      unfold toSizeT at h
      have h1 : i % 2 ^ 64 = i + 2 ^ 64 := by
        rw [← Int.add_emod_self]
        exact Int.emod_eq_of_lt (by omega) (by omega)
      rw [h1] at h
      omega
  · intro h
    subst h
    exact toSizeT_natCast j (by omega)

theorem unusedFaces_eq_unreferenced (numFaces : Nat) (subsets : List HdGeomSubset)
    (hN : numFaces < 2 ^ 31)
    (hint : ∀ s ∈ subsets, ∀ i ∈ s.indices, -2 ^ 31 ≤ i ∧ i < 2 ^ 31) :
    unusedFaces numFaces (subsets.flatMap HdGeomSubset.indices) =
      (List.range numFaces).filter fun j => decide (Unreferenced subsets j) := by
  unfold unusedFaces
  apply List.filter_congr
  intro j hj
  have hj2 : j < 2 ^ 31 := lt_trans (List.mem_range.mp hj) hN
  rw [decide_eq_decide]
  unfold Unreferenced
  constructor
  · intro h s hs hmem
    exact h (j : Int) (List.mem_flatMap.mpr ⟨s, hs, hmem⟩) (toSizeT_natCast j (by omega))
  · intro h i hi heq
    obtain ⟨s, hs, his⟩ := List.mem_flatMap.mp hi
    have := (toSizeT_eq_iff i j (hint s hs i his) hj2).mp heq
    subst this
    exact h s hs his

/-! ## The phases of Sync -/

theorem pullComputedPoints_backend (scene : Scene) (d : DirtyBits) (f : Frame) :
    (pullComputedPoints scene d f).1.backend = f.backend := by
  unfold pullComputedPoints
  split
  · split <;> rfl
  · rfl

theorem pullPoints_backend (scene : Scene) (d : DirtyBits) (p : Frame × Bool) :
    (pullPoints scene d p).backend = p.1.backend := by
  unfold pullPoints
  split <;> rfl

theorem pullTopology_backend (scene : Scene) (d : DirtyBits) (f : Frame) :
    (pullTopology scene d f).backend = f.backend := by
  unfold pullTopology
  split <;> rfl

theorem pullNormals_backend (scene : Scene) (d : DirtyBits) (f : Frame) :
    (pullNormals scene d f).backend = f.backend := by
  unfold pullNormals
  split <;> rfl

theorem pullUvs_backend (scene : Scene) (d : DirtyBits) (f : Frame) :
    (pullUvs scene d f).backend = f.backend := by
  unfold pullUvs
  split <;> rfl

theorem pullFlags_backend (scene : Scene) (d : DirtyBits) (f : Frame) :
    (pullFlags scene d f).backend = f.backend := by
  unfold pullFlags
  cases d.materialId <;> cases d.visibility <;> cases d.doubleSided <;> rfl

theorem resolveDisplayStyle_backend (scene : Scene) (d : DirtyBits) (f : Frame) :
    (resolveDisplayStyle scene d f).backend = f.backend := by
  unfold resolveDisplayStyle
  split
  · split <;> rfl
  · rfl

theorem resolveSubdivisionLevel_backend (scene : Scene) (d : DirtyBits) (f : Frame) :
    (resolveSubdivisionLevel scene d f).backend = f.backend := by
  unfold resolveSubdivisionLevel
  split
  · split
    · split <;> rfl
    · rfl
  · rfl

theorem buildAdjacency_backend (lib : Lib) (f : Frame) :
    (buildAdjacency lib f).backend = f.backend := by
  unfold buildAdjacency
  split <;> rfl

theorem computeNormals_backend (lib : Lib) (f : Frame) :
    (computeNormals lib f).backend = f.backend := by
  unfold computeNormals
  split <;> rfl

theorem resolveSmoothNormals_backend (lib : Lib) (f : Frame) :
    (resolveSmoothNormals lib f).backend = f.backend := by
  unfold resolveSmoothNormals
  simp only []
  split
  · rw [computeNormals_backend, buildAdjacency_backend]; rfl
  · rfl

theorem resolveTransform_backend (scene : Scene) (d : DirtyBits) (f : Frame) :
    (resolveTransform scene d f).backend = f.backend := by
  unfold resolveTransform
  split <;> rfl

theorem resolve_backend (lib : Lib) (scene : Scene) (d : DirtyBits) (f : Frame) :
    (resolve lib scene d f).backend = f.backend := by
  unfold resolve
  rw [resolveTransform_backend, resolveSmoothNormals_backend, resolveSubdivisionLevel_backend,
    resolveDisplayStyle_backend, pullFlags_backend, pullUvs_backend, pullNormals_backend,
    pullTopology_backend, pullPoints_backend, pullComputedPoints_backend]

theorem sameCache_refl (a : MeshState) : SameCache a a := by
  cases a; rfl

theorem sameCache_trans {a b c : MeshState} (h1 : SameCache a b) (h2 : SameCache b c) :
    SameCache a c := by
  unfold SameCache at *
  rw [h2, h1]

theorem sameCache_smoothInv {a b : MeshState} (h : SameCache a b) (hi : SmoothInv a) :
    SmoothInv b := by
  unfold SameCache at h
  rw [h]
  exact hi

theorem smoothInv_init (id : SdfPath) : SmoothInv (MeshState.init id) := by
  unfold SmoothInv MeshState.init
  simp

theorem resolveSmoothNormals_smoothInv (lib : Lib) (f : Frame) :
    SmoothInv (resolveSmoothNormals lib f).st := by
  unfold resolveSmoothNormals SmoothInv
  simp only []
  split
  · rename_i h
    unfold computeNormals buildAdjacency
    cases hA : f.st.m_adjacencyValid <;> cases hN : f.st.m_normalsValid <;> simp_all
  · rename_i h
    refine ⟨rfl, ?_⟩
    intro h1 h2
    exfalso
    apply h
    dsimp only at h1 h2 ⊢
    rw [h1, h2]
    rfl

theorem resolveTransform_smoothInv (scene : Scene) (d : DirtyBits) (f : Frame)
    (h : SmoothInv f.st) : SmoothInv (resolveTransform scene d f).st := by
  unfold resolveTransform
  split
  · exact h
  · exact h

theorem resolve_smoothInv (lib : Lib) (scene : Scene) (d : DirtyBits) (f : Frame) :
    SmoothInv (resolve lib scene d f).st := by
  unfold resolve
  exact resolveTransform_smoothInv _ _ _ (resolveSmoothNormals_smoothInv _ _)

theorem createRprMeshes_sameCache (scene : Scene) (f g : Frame)
    (h : createRprMeshes scene f = some g) : SameCache f.st g.st := by
  unfold createRprMeshes at h
  split at h
  · split at h
    · cases h; rfl
    · split at h
      · cases h
      · cases h; rfl
  · cases h; exact sameCache_refl _

theorem updateSubdivTags_st (scene : Scene) (d : DirtyBits) (f : Frame) :
    (updateSubdivTags scene d f).st = f.st := by
  unfold updateSubdivTags; split <;> rfl

theorem updateRefineLevel_st (f : Frame) : (updateRefineLevel f).st = f.st := by
  unfold updateRefineLevel; split <;> rfl

theorem updateVisibility_st (d : DirtyBits) (f : Frame) : (updateVisibility d f).st = f.st := by
  unfold updateVisibility; split <;> rfl

theorem updateTransforms_st (f : Frame) : (updateTransforms f).st = f.st := by
  unfold updateTransforms; split <;> rfl

theorem updateMaterial_sameCache (lib : Lib) (scene : Scene) (d : DirtyBits) (f : Frame) :
    SameCache f.st (updateMaterial lib scene d f).st := by
  unfold updateMaterial
  split
  · split
    · rfl
    · split
      · rfl
      · exact sameCache_refl _
  · exact sameCache_refl _

theorem updateInstancer_sameCache (lib : Lib) (scene : Scene) (d : DirtyBits) (f : Frame) :
    SameCache f.st (updateInstancer lib scene d f).st := by
  unfold updateInstancer
  split
  · split
    · exact sameCache_refl _
    · split
      · rfl
      · rfl
  · exact sameCache_refl _

theorem updateRprMeshes_sameCache (lib : Lib) (scene : Scene) (d : DirtyBits) (f : Frame) :
    SameCache f.st (updateRprMeshes lib scene d f).st := by
  unfold updateRprMeshes
  split
  · exact sameCache_refl _
  · rw [updateTransforms_st]
    refine sameCache_trans ?_ (updateInstancer_sameCache _ _ _ _)
    refine sameCache_trans ?_ (updateMaterial_sameCache _ _ _ _)
    rw [updateVisibility_st, updateRefineLevel_st, updateSubdivTags_st]
    exact sameCache_refl _

/-- A defined `Sync`, taken apart: the frame after the rebuild phase. -/
theorem sync_eq_some (lib : Lib) (scene : Scene) (d : DirtyBits) (st : MeshState) (api : Api)
    (r : MeshState × Api) (h : Sync lib scene d st api = some r) :
    ∃ g, createRprMeshes scene (resolve lib scene d (Frame.start st api.next)) = some g ∧
      r = ((updateRprMeshes lib scene d g).st,
        { next := (updateRprMeshes lib scene d g).next,
          log := api.log ++ (updateRprMeshes lib scene d g).calls }) := by
  unfold Sync syncFrame at h
  cases hc : createRprMeshes scene (resolve lib scene d (Frame.start st api.next)) with
  | none => rw [hc] at h; simp at h
  | some g =>
    rw [hc] at h
    simp only [Option.map_some', Option.some.injEq] at h
    exact ⟨g, rfl, h.symm⟩

theorem sync_smoothInv (lib : Lib) (scene : Scene) (d : DirtyBits) (st : MeshState) (api : Api)
    (r : MeshState × Api) (h : Sync lib scene d st api = some r) : SmoothInv r.1 := by
  obtain ⟨g, hg, rfl⟩ := sync_eq_some lib scene d st api r h
  exact sameCache_smoothInv (updateRprMeshes_sameCache _ _ _ _)
    (sameCache_smoothInv (createRprMeshes_sameCache _ _ _ hg) (resolve_smoothInv _ _ _ _))

theorem runSyncs_smoothInv (lib : Lib) (inputs : List SyncInput) (s r : MeshState × Api)
    (hs : SmoothInv s.1) (h : runSyncs lib inputs s = some r) : SmoothInv r.1 := by
  induction inputs generalizing s with
  | nil => simp only [runSyncs, Option.some.injEq] at h; subst h; exact hs
  | cons i rest ih =>
    simp only [runSyncs] at h
    split at h
    · cases h
    · rename_i s1 hs1
      exact ih s1 (sync_smoothInv _ _ _ _ _ _ hs1) h

theorem reachable_smoothInv (lib : Lib) (s : MeshState × Api) (h : Reachable lib s) :
    SmoothInv s.1 := by
  obtain ⟨id, inputs, hr⟩ := h
  exact runSyncs_smoothInv lib inputs _ s (smoothInv_init id) hr

/-! ## A Sync with nothing dirty -/

theorem resolve_clean (lib : Lib) (scene : Scene) (st : MeshState) (next : Nat)
    (h : SmoothInv st) :
    resolve lib scene DirtyBits.clean (Frame.start st next) = Frame.start st next := by
  have e1 : pullComputedPoints scene DirtyBits.clean (Frame.start st next) =
      (Frame.start st next, false) := by
    simp [pullComputedPoints, IsPrimvarDirty, DirtyBits.clean]
  have e2 : pullPoints scene DirtyBits.clean (Frame.start st next, false) =
      Frame.start st next := by
    simp [pullPoints, IsPrimvarDirty, DirtyBits.clean]
  have e3 : pullTopology scene DirtyBits.clean (Frame.start st next) = Frame.start st next := by
    simp [pullTopology, DirtyBits.clean]
  have e4 : pullNormals scene DirtyBits.clean (Frame.start st next) = Frame.start st next := by
    simp [pullNormals, IsPrimvarDirty, DirtyBits.clean]
  have e5 : pullUvs scene DirtyBits.clean (Frame.start st next) = Frame.start st next := by
    simp [pullUvs, IsPrimvarDirty, DirtyBits.clean]
  have e6 : pullFlags scene DirtyBits.clean (Frame.start st next) = Frame.start st next := by
    simp [pullFlags, DirtyBits.clean]
  have e7 : resolveDisplayStyle scene DirtyBits.clean (Frame.start st next) =
      Frame.start st next := by
    simp [resolveDisplayStyle, DirtyBits.clean]
  have e8 : resolveSubdivisionLevel scene DirtyBits.clean (Frame.start st next) =
      Frame.start st next := by
    simp [resolveSubdivisionLevel, DirtyBits.clean]
  have e9 : resolveSmoothNormals lib (Frame.start st next) = Frame.start st next := by
    obtain ⟨h1, h2⟩ := h
    have hst : ({ st with m_smoothNormals := st.m_smoothNormals } : MeshState) = st := rfl
    unfold resolveSmoothNormals
    simp only [Frame.start, ← h1, hst]
    split
    · rename_i hc
      simp only [Bool.and_eq_true, Bool.not_eq_true'] at hc
      obtain ⟨ha, hn⟩ := h2 hc.1 hc.2
      simp [computeNormals, buildAdjacency, ha, hn]
    · rfl
  have e10 : resolveTransform scene DirtyBits.clean (Frame.start st next) =
      Frame.start st next := by
    simp [resolveTransform, DirtyBits.clean, Frame.start]
  unfold resolve
  rw [e1, e2, e3, e4, e5, e6, e7, e8, e9, e10]

theorem updateRprMeshes_clean (lib : Lib) (scene : Scene) (st : MeshState) (next : Nat) :
    updateRprMeshes lib scene DirtyBits.clean (Frame.start st next) = Frame.start st next := by
  unfold updateRprMeshes
  split
  · rfl
  · simp [updateTransforms, updateInstancer, updateMaterial, updateVisibility, updateRefineLevel,
      updateSubdivTags, Frame.start, DirtyBits.clean]

theorem syncFrame_clean (lib : Lib) (scene : Scene) (st : MeshState) (next : Nat)
    (h : SmoothInv st) :
    syncFrame lib scene DirtyBits.clean st next = some (Frame.start st next) := by
  unfold syncFrame
  rw [resolve_clean lib scene st next h]
  have : createRprMeshes scene (Frame.start st next) = some (Frame.start st next) := by
    simp [createRprMeshes, Frame.start]
  rw [this]
  simp only [Option.map_some', updateRprMeshes_clean]

theorem sync_clean (lib : Lib) (scene : Scene) (st : MeshState) (api : Api)
    (h : SmoothInv st) : Sync lib scene DirtyBits.clean st api = some (st, api) := by
  unfold Sync
  rw [syncFrame_clean lib scene st api.next h]
  simp [Frame.start]

theorem quadSynced_reachable : Reachable exampleLib quadSynced :=
  ⟨1, [{ scene := quadScene, dirtyBits := allDirty }], rfl⟩

/-! ## The ledger of created and released handles -/

theorem created_append (a b : List Call) : created (a ++ b) = created a ++ created b := by
  simp [created]

theorem released_append (a b : List Call) : released (a ++ b) = released a ++ released b := by
  simp [released]

theorem created_of_quiet (calls : List Call) (h : ∀ c ∈ calls, c.touchesHandles = false) :
    created calls = [] := by
  induction calls with
  | nil => rfl
  | cons c cs ih =>
    have hc := h c (by simp)
    have := ih (fun x hx => h x (by simp [hx]))
    cases c <;> simp_all [created, Call.created, Call.touchesHandles]

theorem released_of_quiet (calls : List Call) (h : ∀ c ∈ calls, c.touchesHandles = false) :
    released calls = [] := by
  induction calls with
  | nil => rfl
  | cons c cs ih =>
    have hc := h c (by simp)
    have := ih (fun x hx => h x (by simp [hx]))
    cases c <;> simp_all [released, Call.released, Call.touchesHandles]

theorem released_map_release (hs : List Handle) : released (hs.map Call.release) = hs := by
  induction hs with
  | nil => rfl
  | cons h t ih =>
    simp only [released, List.map_cons, List.flatMap_cons, Call.released] at ih ⊢
    rw [ih]; rfl

theorem created_map_release (hs : List Handle) : created (hs.map Call.release) = [] := by
  induction hs with
  | nil => rfl
  | cons h t ih =>
    simp only [created, List.map_cons, List.flatMap_cons, Call.created] at ih ⊢
    rw [ih]; rfl

theorem released_releaseAll (st : MeshState) : released (releaseAll st) = tracked st := by
  unfold releaseAll tracked
  rw [released_append, released_map_release, released_map_release]

theorem created_releaseAll (st : MeshState) : created (releaseAll st) = [] := by
  unfold releaseAll
  rw [created_append, created_map_release, created_map_release]
  rfl

/-- What the loop of lines 357-403 returns. -/
theorem createSubsetMeshes_spec (st : MeshState) (ok : Nat → Bool) (subs : List HdGeomSubset)
    (next : Nat) (kept : List HdGeomSubset) (meshes : List Handle) (next1 : Nat)
    (calls : List Call)
    (h : createSubsetMeshes st ok subs next = some (kept, meshes, next1, calls)) :
    next ≤ next1 ∧ created calls = meshes ∧ released calls = [] ∧
      (∀ m ∈ meshes, next ≤ m ∧ m < next1) ∧ meshes.Nodup ∧ kept.length = meshes.length ∧
      (∀ c ∈ calls, c.isCreateMesh = true) := by
  induction subs generalizing next kept meshes next1 calls with
  | nil =>
    simp only [createSubsetMeshes, Option.some.injEq, Prod.mk.injEq] at h
    obtain ⟨rfl, rfl, rfl, rfl⟩ := h
    simp [created, released]
  | cons s rest ih =>
    simp only [createSubsetMeshes] at h
    split at h
    · exact ih next kept meshes next1 calls h
    · split at h
      · cases h
      · rename_i args hargs
        split at h
        · cases h
        · rename_i kept1 meshes1 next2 calls1 hrec
          obtain ⟨h1, h2, h3, h4, h5, h6, h7⟩ := ih (next + 1) kept1 meshes1 next2 calls1 hrec
          split at h
          · simp only [Option.some.injEq, Prod.mk.injEq] at h
            obtain ⟨rfl, rfl, rfl, rfl⟩ := h
            refine ⟨by omega, ?_, ?_, ?_, ?_, ?_, ?_⟩
            · simp only [created, List.flatMap_cons, Call.created] at h2 ⊢
              rw [h2]; rfl
            · simp only [released, List.flatMap_cons, Call.released] at h3 ⊢
              rw [h3]; rfl
            · intro m hm
              rcases List.mem_cons.mp hm with rfl | hm
              · exact ⟨le_refl _, Nat.lt_of_succ_le h1⟩
              · have := h4 m hm
                exact ⟨by omega, this.2⟩
            · rw [List.nodup_cons]
              refine ⟨?_, h5⟩
              intro hm
              have := h4 _ hm
              omega
            · simp [h6]
            · intro c hc
              rcases List.mem_cons.mp hc with rfl | hc
              · rfl
              · exact h7 c hc
          · simp only [Option.some.injEq, Prod.mk.injEq] at h
            obtain ⟨rfl, rfl, rfl, rfl⟩ := h
            refine ⟨by omega, ?_, ?_, ?_, h5, h6, ?_⟩
            · simp only [created, List.flatMap_cons, Call.created] at h2 ⊢
              rw [h2]; rfl
            · simp only [released, List.flatMap_cons, Call.released] at h3 ⊢
              rw [h3]; rfl
            · intro m hm
              have := h4 m hm
              exact ⟨by omega, this.2⟩
            · intro c hc
              rcases List.mem_cons.mp hc with rfl | hc
              · rfl
              · exact h7 c hc

theorem ledger_quiet (log : List Call) (f g : Frame) (h : Ledger f.st f.next (log ++ f.calls))
    (hq : QuietStep f g) : Ledger g.st g.next (log ++ g.calls) := by
  obtain ⟨q1, q2, q3, extra, q4, q5⟩ := hq
  obtain ⟨h1, h2, h3, h4⟩ := h
  have hc : created (log ++ g.calls) = created (log ++ f.calls) := by
    rw [q4, ← List.append_assoc, created_append, created_of_quiet _ q5, List.append_nil]
  have hr : released (log ++ g.calls) = released (log ++ f.calls) := by
    rw [q4, ← List.append_assoc, released_append, released_of_quiet _ q5, List.append_nil]
  have ht : tracked g.st = tracked f.st := by
    unfold tracked; rw [q1, q2]
  refine ⟨?_, ?_, ?_, ?_⟩
  · rw [hc, hr, ht]; exact h1
  · rw [hc]; exact h2
  · rw [hc]; intro x hx; exact lt_of_lt_of_le (h3 x hx) q3
  · rw [q1, q2]; exact h4

/-- The ledger after the tracked handles are released and replaced by newly
created meshes. -/
theorem ledger_replace (st st2 : MeshState) (n n2 : Nat) (log extra : List Call)
    (new : List Handle) (h : Ledger st n log) (hn : n ≤ n2)
    (hnew : ∀ x ∈ new, n ≤ x ∧ x < n2) (hnd : new.Nodup) (hc : created extra = new)
    (hr : released extra = []) (hm : st2.m_rprMeshes = new) (hi : st2.m_rprMeshInstances = []) :
    Ledger st2 n2 (log ++ (releaseAll st ++ extra)) := by
  obtain ⟨h1, h2, h3, _⟩ := h
  have ec : created (log ++ (releaseAll st ++ extra)) = created log ++ new := by
    rw [created_append, created_append, created_releaseAll, hc, List.nil_append]
  have er : released (log ++ (releaseAll st ++ extra)) = released log ++ tracked st := by
    rw [released_append, released_append, released_releaseAll, hr, List.append_nil]
  have et : tracked st2 = new := by
    unfold tracked; rw [hm, hi]; simp
  refine ⟨?_, ?_, ?_, Or.inl hi⟩
  · rw [ec, er, et]
    rw [← Multiset.coe_eq_coe] at h1 ⊢
    simp only [← Multiset.coe_add] at h1 ⊢
    rw [← h1]
    abel
  · rw [ec, List.nodup_append]
    refine ⟨h2, hnd, ?_⟩
    intro x hx hx2
    have a := h3 x hx
    have b := (hnew x hx2).1
    exact absurd a (not_lt.mpr b)
  · rw [ec]
    intro x hx
    rcases List.mem_append.mp hx with h | h
    · exact lt_of_lt_of_le (h3 x h) hn
    · exact (hnew x h).2

theorem createRprMeshes_ledger (scene : Scene) (log : List Call) (f g : Frame)
    (h : Ledger f.st f.next (log ++ f.calls)) (hg : createRprMeshes scene f = some g) :
    Ledger g.st g.next (log ++ g.calls) := by
  unfold createRprMeshes at hg
  split at hg
  · split at hg
    · simp only [Option.some.injEq] at hg
      subst hg
      dsimp only
      rw [List.append_assoc, ← List.append_assoc log]
      by_cases hok : scene.createMeshOk f.next = true
      · simp only [hok, if_true]
        refine ledger_replace f.st _ f.next (f.next + 1) _ _ [f.next] h (Nat.le_succ _)
          ?_ (List.nodup_singleton _) rfl rfl rfl rfl
        intro x hx
        rw [List.mem_singleton] at hx
        subst hx
        exact ⟨le_refl _, Nat.lt_succ_self _⟩
      · simp only [hok]
        exact ledger_replace f.st _ f.next (f.next + 1) _ _ [] h (Nat.le_succ _)
          (by simp) List.nodup_nil rfl rfl rfl rfl
    · split at hg
      · cases hg
      · rename_i kept meshes next1 calls hrec
        simp only [Option.some.injEq] at hg
        subst hg
        dsimp only
        obtain ⟨s1, s2, s3, s4, s5, _, _⟩ := createSubsetMeshes_spec _ _ _ _ _ _ _ _ hrec
        rw [List.append_assoc, ← List.append_assoc log]
        exact ledger_replace f.st _ f.next next1 _ _ meshes h s1 s4 s5 s2 s3 rfl rfl
  · simp only [Option.some.injEq] at hg
    subst hg
    exact h

/-! ## The instance synchroniser -/

theorem freshHandles_add (next a b : Nat) :
    freshHandles next (a + b) = freshHandles next a ++ freshHandles (next + a) b := by
  simp [freshHandles, List.range_add, List.map_map, Function.comp_def, Nat.add_assoc]

theorem mem_freshHandles (next n h : Nat) :
    h ∈ freshHandles next n ↔ next ≤ h ∧ h < next + n := by
  simp only [freshHandles, List.mem_map, List.mem_range]
  constructor
  · rintro ⟨k, hk, rfl⟩
    omega
  · intro hh
    exact ⟨h - next, by omega, by omega⟩

theorem freshHandles_nodup (next n : Nat) : (freshHandles next n).Nodup := by
  unfold freshHandles
  apply List.Nodup.map _ (List.nodup_range n)
  intro a b hab
  simpa using hab

theorem created_map_createMeshInstance (mesh : Handle) (hs : List Handle) :
    created (hs.map fun inst => Call.createMeshInstance mesh inst) = hs := by
  induction hs with
  | nil => rfl
  | cons h t ih =>
    simp only [created, List.map_cons, List.flatMap_cons, Call.created] at ih ⊢
    rw [ih]; rfl

theorem released_map_createMeshInstance (mesh : Handle) (hs : List Handle) :
    released (hs.map fun inst => Call.createMeshInstance mesh inst) = [] := by
  induction hs with
  | nil => rfl
  | cons h t ih =>
    simp only [released, List.map_cons, List.flatMap_cons, Call.released] at ih ⊢
    rw [ih]; rfl

/-- What lines 506-517 do to one instance list. -/
theorem resizeMeshInstances_spec (mesh : Handle) (l : List Handle) (T next : Nat) :
    resizeMeshInstances mesh l T next =
      (l.take T ++ freshHandles next (T - l.length), next + (T - l.length),
        if l.length ≤ T then
          (freshHandles next (T - l.length)).map fun inst => Call.createMeshInstance mesh inst
        else (l.drop T).map Call.release) := by
  unfold resizeMeshInstances
  by_cases h1 : l.length = T
  · subst h1
    simp [freshHandles]
  · by_cases h2 : l.length > T
    · have h3 : T - l.length = 0 := by omega
      have h4 : ¬ l.length ≤ T := by omega
      simp [h1, h2, h3, h4, freshHandles]
    · have h4 : l.length ≤ T := by omega
      simp [h1, h2, h4, freshHandles, List.take_of_length_le h4]

theorem zipWith_setTransform_quiet (a : List Handle) (b : List GfMatrix4) :
    ∀ c ∈ List.zipWith Call.setTransform a b, c.touchesHandles = false := by
  intro c hc
  induction a generalizing b with
  | nil => simp at hc
  | cons x xs ih =>
    cases b with
    | nil => simp at hc
    | cons y ys =>
      simp only [List.zipWith_cons_cons, List.mem_cons] at hc
      rcases hc with rfl | hc
      · rfl
      · exact ih ys hc

theorem touchesHandles_of_isCreateMesh (c : Call) (h : c.touchesHandles = false) :
    c.isCreateMesh = false := by
  cases c <;> simp_all [Call.touchesHandles, Call.isCreateMesh]

theorem resize_calls_created (mesh : Handle) (l : List Handle) (T next : Nat) :
    created (resizeMeshInstances mesh l T next).2.2 = freshHandles next (T - l.length) := by
  rw [resizeMeshInstances_spec]
  simp only []
  split
  · exact created_map_createMeshInstance _ _
  · rename_i h
    rw [created_map_release]
    have : T - l.length = 0 := by omega
    simp [this, freshHandles]

theorem resize_calls_released (mesh : Handle) (l : List Handle) (T next : Nat) :
    released (resizeMeshInstances mesh l T next).2.2 = l.drop T := by
  rw [resizeMeshInstances_spec]
  simp only []
  split
  · rename_i h
    rw [released_map_createMeshInstance, List.drop_of_length_le h]
  · exact released_map_release _

theorem resize_calls_noCreateMesh (mesh : Handle) (l : List Handle) (T next : Nat) :
    ∀ c ∈ (resizeMeshInstances mesh l T next).2.2, c.isCreateMesh = false := by
  rw [resizeMeshInstances_spec]
  simp only []
  intro c hc
  split at hc
  · obtain ⟨x, _, rfl⟩ := List.mem_map.mp hc; rfl
  · obtain ⟨x, _, rfl⟩ := List.mem_map.mp hc; rfl

theorem syncMeshInstances_nil_right (transforms : List GfMatrix4) (meshes : List Handle)
    (next : Nat) : syncMeshInstances transforms meshes [] next = ([], next, []) := by
  cases meshes <;> rfl

theorem syncMeshInstances_cons (transforms : List GfMatrix4) (mesh : Handle)
    (meshes : List Handle) (l : List Handle) (lists : List (List Handle)) (next : Nat) :
    syncMeshInstances transforms (mesh :: meshes) (l :: lists) next =
      ((resizeMeshInstances mesh l transforms.length next).1 ::
          (syncMeshInstances transforms meshes lists
            (resizeMeshInstances mesh l transforms.length next).2.1).1,
        (syncMeshInstances transforms meshes lists
            (resizeMeshInstances mesh l transforms.length next).2.1).2.1,
        (resizeMeshInstances mesh l transforms.length next).2.2 ++
          List.zipWith Call.setTransform (resizeMeshInstances mesh l transforms.length next).1
            transforms ++
          Call.setMeshVisibility mesh false ::
            (syncMeshInstances transforms meshes lists
              (resizeMeshInstances mesh l transforms.length next).2.1).2.2) := rfl

/-- What the loop of lines 504-525 returns. -/
theorem syncMeshInstances_spec (transforms : List GfMatrix4) (meshes : List Handle)
    (lists : List (List Handle)) (next : Nat) (hlen : lists.length = meshes.length) :
    (syncMeshInstances transforms meshes lists next).1.length = meshes.length ∧
      (∀ l ∈ (syncMeshInstances transforms meshes lists next).1, l.length = transforms.length) ∧
      next ≤ (syncMeshInstances transforms meshes lists next).2.1 ∧
      created (syncMeshInstances transforms meshes lists next).2.2 =
        freshHandles next ((syncMeshInstances transforms meshes lists next).2.1 - next) ∧
      released (syncMeshInstances transforms meshes lists next).2.2 =
        lists.flatMap (List.drop transforms.length) ∧
      (syncMeshInstances transforms meshes lists next).1.flatten.Perm
        (lists.flatMap (List.take transforms.length) ++
          created (syncMeshInstances transforms meshes lists next).2.2) ∧
      (∀ c ∈ (syncMeshInstances transforms meshes lists next).2.2, c.isCreateMesh = false) := by
  induction meshes generalizing lists next with
  | nil =>
    cases lists with
    | nil => simp [syncMeshInstances, created, released, freshHandles]
    | cons l ls => simp at hlen
  | cons mesh meshes ih =>
    cases lists with
    | nil => simp at hlen
    | cons l lists =>
      simp only [List.length_cons, Nat.succ.injEq, add_left_inj] at hlen
      rw [syncMeshInstances_cons]
      have hr := resizeMeshInstances_spec mesh l transforms.length next
      have hc := resize_calls_created mesh l transforms.length next
      have hrl := resize_calls_released mesh l transforms.length next
      have hn := resize_calls_noCreateMesh mesh l transforms.length next
      have hq := zipWith_setTransform_quiet
        (resizeMeshInstances mesh l transforms.length next).1 transforms
      have hi := ih lists (resizeMeshInstances mesh l transforms.length next).2.1 hlen
      generalize resizeMeshInstances mesh l transforms.length next = R at *
      obtain ⟨l1, n1, c1⟩ := R
      simp only [Prod.mk.injEq] at hr
      obtain ⟨hl1, hnext, -⟩ := hr
      dsimp only at hc hrl hn hq hi ⊢
      generalize syncMeshInstances transforms meshes lists n1 = S at *
      obtain ⟨ls, n2, c2⟩ := S
      dsimp only at hi ⊢
      obtain ⟨i1, i2, i3, i4, i5, i6, i7⟩ := hi
      have hv : ∀ cs : List Call, created (Call.setMeshVisibility mesh false :: cs) = created cs :=
        fun _ => rfl
      have hv2 : ∀ cs : List Call,
          released (Call.setMeshVisibility mesh false :: cs) = released cs := fun _ => rfl
      have hcr : created (c1 ++ List.zipWith Call.setTransform l1 transforms ++
          Call.setMeshVisibility mesh false :: c2) =
          freshHandles next (transforms.length - l.length) ++ created c2 := by
        simp only [created_append, hc, created_of_quiet _ hq, List.append_nil, hv]
      refine ⟨by simp [i1], ?_, by omega, ?_, ?_, ?_, ?_⟩
      · intro x hx
        rcases List.mem_cons.mp hx with rfl | hx
        · rw [hl1]
          simp only [List.length_append, List.length_take, freshHandles, List.length_map,
            List.length_range]
          omega
        · exact i2 x hx
      · rw [hcr, i4, hnext, ← freshHandles_add]
        congr 1
        omega
      · simp only [released_append, hrl, released_of_quiet _ hq, List.append_nil, hv2, i5,
          List.flatMap_cons]
      · rw [hcr, List.flatten_cons, hl1, List.flatMap_cons]
        have := i6
        rw [← Multiset.coe_eq_coe] at this ⊢
        simp only [← Multiset.coe_add] at this ⊢
        rw [this]
        abel
      · intro c hc2
        simp only [List.mem_append, List.mem_cons] at hc2
        rcases hc2 with (h1 | h1) | rfl | h1
        · exact hn c h1
        · exact touchesHandles_of_isCreateMesh c (hq c h1)
        · rfl
        · exact i7 c h1

theorem quietStep_refl (f : Frame) : QuietStep f f :=
  ⟨rfl, rfl, le_refl _, [], by simp, by simp⟩

theorem quietStep_trans {f g h : Frame} (h1 : QuietStep f g) (h2 : QuietStep g h) :
    QuietStep f h := by
  obtain ⟨a1, a2, a3, e1, a4, a5⟩ := h1
  obtain ⟨b1, b2, b3, e2, b4, b5⟩ := h2
  refine ⟨b1.trans a1, b2.trans a2, le_trans a3 b3, e1 ++ e2, ?_, ?_⟩
  · rw [b4, a4, List.append_assoc]
  · intro c hc
    rcases List.mem_append.mp hc with h | h
    · exact a5 c h
    · exact b5 c h

theorem quietStep_of_setters (f : Frame) (extra : List Call)
    (h : ∀ c ∈ extra, c.touchesHandles = false) :
    QuietStep f { f with calls := f.calls ++ extra } :=
  ⟨rfl, rfl, le_refl _, extra, rfl, h⟩

theorem resolve_quiet (lib : Lib) (scene : Scene) (d : DirtyBits) (f : Frame) :
    QuietStep f (resolve lib scene d f) := by
  have h := resolve_backend lib scene d f
  simp only [Frame.backend, Prod.mk.injEq] at h
  obtain ⟨h1, h2, _, _, h5, h6⟩ := h
  exact ⟨h1, h2, le_of_eq h5.symm, [], by simp [h6], by simp⟩

theorem updateSubdivTags_quiet (scene : Scene) (d : DirtyBits) (f : Frame) :
    QuietStep f (updateSubdivTags scene d f) := by
  unfold updateSubdivTags
  split
  · apply quietStep_of_setters
    intro c hc
    obtain ⟨x, _, rfl⟩ := List.mem_map.mp hc
    rfl
  · exact quietStep_refl f

theorem updateRefineLevel_quiet (f : Frame) : QuietStep f (updateRefineLevel f) := by
  unfold updateRefineLevel
  split
  · apply quietStep_of_setters
    intro c hc
    obtain ⟨x, _, rfl⟩ := List.mem_map.mp hc
    rfl
  · exact quietStep_refl f

theorem updateVisibility_quiet (d : DirtyBits) (f : Frame) :
    QuietStep f (updateVisibility d f) := by
  unfold updateVisibility
  split
  · apply quietStep_of_setters
    intro c hc
    obtain ⟨x, _, rfl⟩ := List.mem_map.mp hc
    rfl
  · exact quietStep_refl f

theorem updateTransforms_quiet (f : Frame) : QuietStep f (updateTransforms f) := by
  unfold updateTransforms
  split
  · apply quietStep_of_setters
    intro c hc
    obtain ⟨x, _, rfl⟩ := List.mem_map.mp hc
    rfl
  · exact quietStep_refl f

theorem GetFallbackMaterial_quiet (lib : Lib) (scene : Scene) (d : DirtyBits)
    (fallback : Option Handle) (next : Nat) :
    next ≤ (GetFallbackMaterial lib scene d fallback next).2.2.1 ∧
      ∀ c ∈ (GetFallbackMaterial lib scene d fallback next).2.2.2, c.touchesHandles = false := by
  unfold GetFallbackMaterial
  dsimp only
  split
  · refine ⟨le_refl _, ?_⟩
    intro c hc
    split at hc
    · rw [List.mem_singleton] at hc; subst hc; rfl
    · simp at hc
  · refine ⟨Nat.le_succ _, ?_⟩
    intro c hc
    rcases List.mem_append.mp hc with h | h
    · split at h
      · rw [List.mem_singleton] at h; subst h; rfl
      · simp at h
    · rw [List.mem_singleton] at h; subst h; rfl

theorem getMeshMaterial_quiet (lib : Lib) (scene : Scene) (d : DirtyBits) (materialId : SdfPath)
    (fallback : Option Handle) (next : Nat) :
    next ≤ (getMeshMaterial lib scene d materialId fallback next).2.2.1 ∧
      ∀ c ∈ (getMeshMaterial lib scene d materialId fallback next).2.2.2,
        c.touchesHandles = false := by
  unfold getMeshMaterial
  split
  · exact ⟨le_refl _, by simp⟩
  · exact GetFallbackMaterial_quiet lib scene d fallback next

theorem setSubsetMaterials_quiet (lib : Lib) (scene : Scene) (d : DirtyBits) (ds de : Bool)
    (subsets : List HdGeomSubset) (meshes : List Handle) (fallback : Option Handle)
    (next : Nat) :
    next ≤ (setSubsetMaterials lib scene d ds de subsets meshes fallback next).2.1 ∧
      ∀ c ∈ (setSubsetMaterials lib scene d ds de subsets meshes fallback next).2.2,
        c.touchesHandles = false := by
  induction subsets generalizing meshes fallback next with
  | nil => simp [setSubsetMaterials]
  | cons s rest ih =>
    cases meshes with
    | nil => simp [setSubsetMaterials]
    | cons m ms =>
      simp only [setSubsetMaterials]
      have h1 := getMeshMaterial_quiet lib scene d s.materialId fallback next
      have h2 := ih ms (getMeshMaterial lib scene d s.materialId fallback next).2.1
        (getMeshMaterial lib scene d s.materialId fallback next).2.2.1
      refine ⟨le_trans h1.1 h2.1, ?_⟩
      intro c hc
      simp only [List.mem_append, List.mem_cons] at hc
      rcases hc with h | rfl | h
      · exact h1.2 c h
      · rfl
      · exact h2.2 c h

theorem updateMaterial_quiet (lib : Lib) (scene : Scene) (d : DirtyBits) (f : Frame) :
    QuietStep f (updateMaterial lib scene d f) := by
  unfold updateMaterial
  split
  · split
    · have h := getMeshMaterial_quiet lib scene d f.st.m_cachedMaterialId
        f.st.m_fallbackMaterial f.next
      refine ⟨rfl, rfl, h.1, _, List.append_assoc _ _ _, ?_⟩
      intro c hc
      rcases List.mem_append.mp hc with h1 | h1
      · exact h.2 c h1
      · obtain ⟨x, _, rfl⟩ := List.mem_map.mp h1
        rfl
    · split
      · have h := setSubsetMaterials_quiet lib scene d f.st.m_doublesided
          f.st.m_displayStyle.displacementEnabled f.st.m_geomSubsets f.st.m_rprMeshes
          f.st.m_fallbackMaterial f.next
        exact ⟨rfl, rfl, h.1, _, rfl, h.2⟩
      · exact quietStep_refl f
  · exact quietStep_refl f


/-- Lines 408-471 together. -/
theorem updatePhases_quiet (lib : Lib) (scene : Scene) (d : DirtyBits) (f : Frame) :
    QuietStep f (updateMaterial lib scene d (updateVisibility d (updateRefineLevel
      (updateSubdivTags scene d f)))) :=
  quietStep_trans
    (quietStep_trans (updateSubdivTags_quiet scene d f) (updateRefineLevel_quiet _))
    (quietStep_trans (updateVisibility_quiet d _) (updateMaterial_quiet lib scene d _))

/-! ## The instance synchroniser keeps the ledger -/

theorem updateInstancer_skip (lib : Lib) (scene : Scene) (d : DirtyBits) (f : Frame)
    (h : (f.newMesh || d.instancer) = false ∨ scene.instancer = none) :
    updateInstancer lib scene d f = f := by
  unfold updateInstancer
  rcases h with h | h
  · rw [h]; rfl
  · rw [h]; simp

theorem updateInstancer_empty (lib : Lib) (scene : Scene) (d : DirtyBits) (f : Frame)
    (h : (f.newMesh || d.instancer) = true) (hi : scene.instancer = some []) :
    updateInstancer lib scene d f =
      { f with st := { f.st with m_rprMeshInstances := [] },
               calls := f.calls ++ f.st.m_rprMeshInstances.flatten.map Call.release ++
                 f.st.m_rprMeshes.map fun mesh => Call.setMeshVisibility mesh f.st.visible } := by
  unfold updateInstancer
  rw [h, hi]
  rfl

theorem updateInstancer_some (lib : Lib) (scene : Scene) (d : DirtyBits) (f : Frame)
    (transforms : List GfMatrix4) (h : (f.newMesh || d.instancer) = true)
    (hi : scene.instancer = some transforms) (hne : transforms ≠ []) :
    updateInstancer lib scene d f =
      { f with
        st := { f.st with m_rprMeshInstances :=
          (syncMeshInstances (transforms.map fun t => lib.matMul f.st.m_transform t)
            f.st.m_rprMeshes
            (resizeInstanceLists f.st.m_rprMeshInstances f.st.m_rprMeshes.length) f.next).1 },
        next := (syncMeshInstances (transforms.map fun t => lib.matMul f.st.m_transform t)
            f.st.m_rprMeshes
            (resizeInstanceLists f.st.m_rprMeshInstances f.st.m_rprMeshes.length) f.next).2.1,
        calls := f.calls ++
          ((f.st.m_rprMeshInstances.drop f.st.m_rprMeshes.length).flatten.map Call.release) ++
          (syncMeshInstances (transforms.map fun t => lib.matMul f.st.m_transform t)
            f.st.m_rprMeshes
            (resizeInstanceLists f.st.m_rprMeshInstances f.st.m_rprMeshes.length) f.next).2.2,
        updateTransform := false } := by
  unfold updateInstancer
  rw [h, hi]
  have : transforms.isEmpty = false := by
    cases transforms with
    | nil => exact absurd rfl hne
    | cons _ _ => rfl
  simp only [if_true, this, Bool.false_eq_true, if_false]

theorem resizeInstanceLists_length (lists : List (List Handle)) (n : Nat) :
    (resizeInstanceLists lists n).length = n := by
  simp only [resizeInstanceLists, List.length_append, List.length_take, List.length_replicate]
  omega

theorem resizeInstanceLists_flatten (lists : List (List Handle)) (n : Nat) :
    (resizeInstanceLists lists n).flatten = (lists.take n).flatten := by
  simp only [resizeInstanceLists, List.flatten_append]
  have : ∀ k, (List.replicate k ([] : List Handle)).flatten = [] := by
    intro k
    induction k with
    | zero => rfl
    | succ j ih => simp [List.replicate_succ, ih]
  rw [this, List.append_nil]

theorem flatten_perm_take_drop (lists : List (List Handle)) (T : Nat) :
    lists.flatten.Perm (lists.flatMap (List.take T) ++ lists.flatMap (List.drop T)) := by
  induction lists with
  | nil => simp
  | cons l ls ih =>
    simp only [List.flatten_cons, List.flatMap_cons]
    rw [← Multiset.coe_eq_coe] at ih ⊢
    simp only [← Multiset.coe_add] at ih ⊢
    rw [ih]
    conv_lhs => rw [← List.take_append_drop T l]
    simp only [← Multiset.coe_add]
    abel

theorem updateInstancer_ledger (lib : Lib) (scene : Scene) (d : DirtyBits) (log : List Call)
    (f : Frame) (h : Ledger f.st f.next (log ++ f.calls)) :
    Ledger (updateInstancer lib scene d f).st (updateInstancer lib scene d f).next
      (log ++ (updateInstancer lib scene d f).calls) := by
  by_cases hp : (f.newMesh || d.instancer) = true
  · cases hi : scene.instancer with
    | none => rw [updateInstancer_skip _ _ _ _ (Or.inr hi)]; exact h
    | some transforms =>
      obtain ⟨h1, h2, h3, h4⟩ := h
      by_cases hne : transforms = []
      · subst hne
        rw [updateInstancer_empty _ _ _ _ hp hi]
        dsimp only
        have hq : ∀ c ∈ (f.st.m_rprMeshes.map fun mesh =>
            Call.setMeshVisibility mesh f.st.visible), c.touchesHandles = false := by
          intro c hc
          obtain ⟨x, _, rfl⟩ := List.mem_map.mp hc
          rfl
        have ec : created (log ++ (f.calls ++ f.st.m_rprMeshInstances.flatten.map Call.release ++
            f.st.m_rprMeshes.map fun mesh => Call.setMeshVisibility mesh f.st.visible)) =
            created (log ++ f.calls) := by
          simp only [created_append, created_map_release, created_of_quiet _ hq, List.append_nil]
        have er : released (log ++ (f.calls ++
            f.st.m_rprMeshInstances.flatten.map Call.release ++
            f.st.m_rprMeshes.map fun mesh => Call.setMeshVisibility mesh f.st.visible)) =
            released (log ++ f.calls) ++ f.st.m_rprMeshInstances.flatten := by
          simp only [released_append, released_map_release, released_of_quiet _ hq,
            List.append_nil, List.append_assoc]
        refine ⟨?_, ?_, ?_, Or.inl rfl⟩
        · rw [ec, er]
          unfold tracked at h1 ⊢
          dsimp only
          rw [← Multiset.coe_eq_coe] at h1 ⊢
          simp only [← Multiset.coe_add, List.flatten_nil] at h1 ⊢
          rw [← h1]
          simp only [Multiset.coe_nil, add_zero]
          abel
        · rw [ec]; exact h2
        · rw [ec]; exact h3
      · rw [updateInstancer_some _ _ _ _ transforms hp hi hne]
        dsimp only
        have hlen := resizeInstanceLists_length f.st.m_rprMeshInstances f.st.m_rprMeshes.length
        obtain ⟨s1, s2, s3, s4, s5, s6, s7⟩ := syncMeshInstances_spec
          (transforms.map fun t => lib.matMul f.st.m_transform t) f.st.m_rprMeshes
          (resizeInstanceLists f.st.m_rprMeshInstances f.st.m_rprMeshes.length) f.next hlen
        generalize syncMeshInstances (transforms.map fun t => lib.matMul f.st.m_transform t)
          f.st.m_rprMeshes
          (resizeInstanceLists f.st.m_rprMeshInstances f.st.m_rprMeshes.length) f.next = S at *
        obtain ⟨ls, n2, c2⟩ := S
        dsimp only at s1 s2 s3 s4 s5 s6 s7 ⊢
        have ec : created (log ++ (f.calls ++
            (f.st.m_rprMeshInstances.drop f.st.m_rprMeshes.length).flatten.map Call.release ++
            c2)) = created (log ++ f.calls) ++ created c2 := by
          simp only [created_append, created_map_release, List.append_nil, List.append_assoc,
            List.nil_append]
        have er : released (log ++ (f.calls ++
            (f.st.m_rprMeshInstances.drop f.st.m_rprMeshes.length).flatten.map Call.release ++
            c2)) = released (log ++ f.calls) ++
              ((f.st.m_rprMeshInstances.drop f.st.m_rprMeshes.length).flatten ++
                released c2) := by
          simp only [released_append, released_map_release, List.append_assoc]
        have hfl : f.st.m_rprMeshInstances.flatten =
            (resizeInstanceLists f.st.m_rprMeshInstances f.st.m_rprMeshes.length).flatten ++
              (f.st.m_rprMeshInstances.drop f.st.m_rprMeshes.length).flatten := by
          rw [resizeInstanceLists_flatten, ← List.flatten_append, List.take_append_drop]
        have hpm := flatten_perm_take_drop
          (resizeInstanceLists f.st.m_rprMeshInstances f.st.m_rprMeshes.length)
          (transforms.map fun t => lib.matMul f.st.m_transform t).length
        refine ⟨?_, ?_, ?_, Or.inr s1⟩
        · rw [ec, er, s5]
          unfold tracked at h1 ⊢
          dsimp only
          rw [hfl] at h1
          rw [← Multiset.coe_eq_coe] at h1 s6 hpm ⊢
          simp only [← Multiset.coe_add] at h1 s6 hpm ⊢
          rw [← h1, s6, hpm]
          abel
        · rw [ec, List.nodup_append]
          refine ⟨h2, ?_, ?_⟩
          · rw [s4]; exact freshHandles_nodup _ _
          · intro x hx hx2
            rw [s4, mem_freshHandles] at hx2
            exact absurd (h3 x hx) (not_lt.mpr hx2.1)
        · rw [ec]
          intro x hx
          rcases List.mem_append.mp hx with hx | hx
          · exact lt_of_lt_of_le (h3 x hx) s3
          · rw [s4, mem_freshHandles] at hx
            have hx2 : x < f.next + (n2 - f.next) := hx.2
            have hx3 : f.next + (n2 - f.next) = n2 := Nat.add_sub_cancel' s3
            rw [hx3] at hx2
            exact hx2
  · rw [updateInstancer_skip _ _ _ _ (Or.inl (by simpa using hp))]
    exact h

/-! ## Every Sync keeps the ledger -/

theorem updateRprMeshes_ledger (lib : Lib) (scene : Scene) (d : DirtyBits) (log : List Call)
    (f : Frame) (h : Ledger f.st f.next (log ++ f.calls)) :
    Ledger (updateRprMeshes lib scene d f).st (updateRprMeshes lib scene d f).next
      (log ++ (updateRprMeshes lib scene d f).calls) := by
  unfold updateRprMeshes
  split
  · exact h
  · apply ledger_quiet log _ _ _ (updateTransforms_quiet _)
    apply updateInstancer_ledger
    apply ledger_quiet log _ _ _ (updateMaterial_quiet lib scene d _)
    apply ledger_quiet log _ _ _ (updateVisibility_quiet d _)
    apply ledger_quiet log _ _ _ (updateRefineLevel_quiet _)
    exact ledger_quiet log _ _ h (updateSubdivTags_quiet scene d f)

theorem sync_ledger (lib : Lib) (scene : Scene) (d : DirtyBits) (st : MeshState) (api : Api)
    (r : MeshState × Api) (h : Ledger st api.next api.log)
    (hs : Sync lib scene d st api = some r) : Ledger r.1 r.2.next r.2.log := by
  obtain ⟨g, hg, rfl⟩ := sync_eq_some lib scene d st api r hs
  dsimp only
  apply updateRprMeshes_ledger
  apply createRprMeshes_ledger scene api.log _ g _ hg
  apply ledger_quiet api.log (Frame.start st api.next) _ _ (resolve_quiet lib scene d _)
  simpa [Frame.start] using h

theorem ledger_init (id : SdfPath) : Ledger (MeshState.init id) Api.init.next Api.init.log := by
  simp [Ledger, MeshState.init, Api.init, tracked, created, released]

theorem runSyncs_ledger (lib : Lib) (inputs : List SyncInput) (s r : MeshState × Api)
    (hs : Ledger s.1 s.2.next s.2.log) (h : runSyncs lib inputs s = some r) :
    Ledger r.1 r.2.next r.2.log := by
  induction inputs generalizing s with
  | nil => simp only [runSyncs, Option.some.injEq] at h; subst h; exact hs
  | cons i rest ih =>
    simp only [runSyncs] at h
    split at h
    · cases h
    · rename_i s1 hs1
      exact ih s1 (sync_ledger _ _ _ _ _ _ hs hs1) h

theorem reachable_ledger (lib : Lib) (s : MeshState × Api) (h : Reachable lib s) :
    Ledger s.1 s.2.next s.2.log := by
  obtain ⟨id, inputs, hr⟩ := h
  exact runSyncs_ledger lib inputs _ s (ledger_init id) hr

theorem ledger_tracked_nodup (st : MeshState) (n : Nat) (log : List Call) (h : Ledger st n log) :
    (tracked st).Nodup ∧ ∀ x ∈ tracked st, x ∉ released log ∧ x < n := by
  obtain ⟨h1, h2, h3, _⟩ := h
  have hnd : (tracked st ++ released log).Nodup := h1.nodup_iff.mpr h2
  rw [List.nodup_append] at hnd
  refine ⟨hnd.1, fun x hx => ⟨fun hr => hnd.2.2 hx hr, ?_⟩⟩
  exact h3 x (h1.subset (List.mem_append_left _ hx))

/-! ## Syncs that do not rebuild -/

theorem resolveSmoothNormals_newMesh (lib : Lib) (f : Frame) :
    (resolveSmoothNormals lib f).newMesh = (f.newMesh || synthesizes f) := by
  unfold resolveSmoothNormals synthesizes computeNormals buildAdjacency
  dsimp only
  generalize (f.st.m_displayStyle.flatShadingEnabled &&
      !(f.st.m_enableSubdiv && decide (f.st.m_refineLevel > 0))) = smooth
  cases hA : f.st.m_authoredNormals <;> cases smooth <;>
    cases hAV : f.st.m_adjacencyValid <;> cases hNV : f.st.m_normalsValid <;> simp

theorem resolveTransform_newMesh (scene : Scene) (d : DirtyBits) (f : Frame) :
    (resolveTransform scene d f).newMesh = f.newMesh := by
  unfold resolveTransform
  split <;> rfl

theorem resolve_patch_only (lib : Lib) (scene : Scene) (d : DirtyBits) (st : MeshState)
    (next : Nat) (hinv : SmoothInv st)
    (hp : d.points = false) (ht : d.topology = false) (hn : d.normals = false)
    (hv : d.primvar = false)
    (hds : d.displayStyle = true →
      st.m_authoredNormals = true ∨ scene.displayStyle.flatShadingEnabled = false ∨
        (st.m_enableSubdiv = true ∧ 0 < scene.displayStyle.refineLevel) ∨
        (st.m_adjacencyValid = true ∧ st.m_normalsValid = true)) :
    (resolve lib scene d (Frame.start st next)).newMesh = false := by
  have e1 : pullComputedPoints scene d (Frame.start st next) = (Frame.start st next, false) := by
    simp [pullComputedPoints, IsPrimvarDirty, hp]
  have e2 : pullPoints scene d (Frame.start st next, false) = Frame.start st next := by
    simp [pullPoints, IsPrimvarDirty, hp]
  have e3 : pullTopology scene d (Frame.start st next) = Frame.start st next := by
    simp [pullTopology, ht]
  have e4 : pullNormals scene d (Frame.start st next) = Frame.start st next := by
    simp [pullNormals, IsPrimvarDirty, hn]
  have e5 : pullUvs scene d (Frame.start st next) = Frame.start st next := by
    simp [pullUvs, IsPrimvarDirty, hv]
  have e8 : ∀ f, resolveSubdivisionLevel scene d f = f := by
    intro f; simp [resolveSubdivisionLevel, hv]
  unfold resolve
  rw [e1, e2, e3, e4, e5, e8, resolveTransform_newMesh, resolveSmoothNormals_newMesh]
  obtain ⟨i1, i2⟩ := hinv
  -- the frame after the flags and the display style are pulled
  have hf : ∀ g : Frame, g = resolveDisplayStyle scene d (pullFlags scene d (Frame.start st next)) →
      g.newMesh = false ∧ g.st.m_authoredNormals = st.m_authoredNormals ∧
      g.st.m_adjacencyValid = st.m_adjacencyValid ∧ g.st.m_normalsValid = st.m_normalsValid ∧
      g.st.m_enableSubdiv = st.m_enableSubdiv ∧
      g.st.m_displayStyle = (if d.displayStyle then scene.displayStyle else st.m_displayStyle) ∧
      g.st.m_refineLevel =
        (if d.displayStyle then scene.displayStyle.refineLevel else st.m_refineLevel) := by
    intro g hg
    subst hg
    unfold resolveDisplayStyle pullFlags
    cases d.displayStyle <;> cases d.materialId <;> cases d.visibility <;>
      cases d.doubleSided <;>
      by_cases hR : st.m_refineLevel = scene.displayStyle.refineLevel <;>
      simp [Frame.start, hR]
  obtain ⟨g1, g2, g3, g4, g5, g6, g7⟩ := hf _ rfl
  rw [g1, Bool.false_or]
  unfold synthesizes
  rw [g2, g3, g4, g5, g6, g7]
  cases hd : d.displayStyle
  · simp only [Bool.false_eq_true, if_false]
    rw [← i1]
    cases hA : st.m_authoredNormals
    · cases hS : st.m_smoothNormals
      · rfl
      · obtain ⟨a, b⟩ := i2 hA hS
        rw [a, b]; rfl
    · rfl
  · simp only [if_true]
    rcases hds hd with h | h | h | h
    · rw [h]; rfl
    · rw [h]; simp
    · rw [h.1]
      have : decide (scene.displayStyle.refineLevel > 0) = true := by simpa using h.2
      rw [this]; simp
    · rw [h.1, h.2]; simp

theorem mem_released_of_release (h : Handle) (calls : List Call)
    (hc : Call.release h ∈ calls) : h ∈ released calls := by
  unfold released
  rw [List.mem_flatMap]
  exact ⟨_, hc, by simp [Call.released]⟩

theorem not_release_of_quiet (c : Call) (hq : c.touchesHandles = false) (h : Handle) :
    c ≠ Call.release h := by
  intro hc
  subst hc
  simp [Call.touchesHandles] at hq

theorem quietStep_meshKeeping {f g h : Frame} (h1 : QuietStep f g) (h2 : MeshKeepingStep g h) :
    MeshKeepingStep f h := by
  obtain ⟨a1, a2, _, e1, a4, a5⟩ := h1
  obtain ⟨b1, e2, b4, b5⟩ := h2
  refine ⟨b1.trans a1, e1 ++ e2, by rw [b4, a4, List.append_assoc], ?_⟩
  intro c hc
  rcases List.mem_append.mp hc with hc | hc
  · exact ⟨touchesHandles_of_isCreateMesh c (a5 c hc),
      fun x hx => absurd hx (not_release_of_quiet c (a5 c hc) x)⟩
  · rw [← a2]
    exact b5 c hc

theorem meshKeepingStep_quiet {f g h : Frame} (h1 : MeshKeepingStep f g) (h2 : QuietStep g h) :
    MeshKeepingStep f h := by
  obtain ⟨a1, e1, a4, a5⟩ := h1
  obtain ⟨b1, _, _, e2, b4, b5⟩ := h2
  refine ⟨b1.trans a1, e1 ++ e2, by rw [b4, a4, List.append_assoc], ?_⟩
  intro c hc
  rcases List.mem_append.mp hc with hc | hc
  · exact a5 c hc
  · exact ⟨touchesHandles_of_isCreateMesh c (b5 c hc),
      fun x hx => absurd hx (not_release_of_quiet c (b5 c hc) x)⟩

theorem updateInstancer_meshKeeping (lib : Lib) (scene : Scene) (d : DirtyBits) (f : Frame) :
    MeshKeepingStep f (updateInstancer lib scene d f) := by
  by_cases hp : (f.newMesh || d.instancer) = true
  · cases hi : scene.instancer with
    | none =>
      rw [updateInstancer_skip _ _ _ _ (Or.inr hi)]
      exact ⟨rfl, [], by simp, by simp⟩
    | some transforms =>
      by_cases hne : transforms = []
      · subst hne
        rw [updateInstancer_empty _ _ _ _ hp hi]
        refine ⟨rfl, _, List.append_assoc _ _ _, ?_⟩
        intro c hc
        rcases List.mem_append.mp hc with hc | hc
        · obtain ⟨x, hx, rfl⟩ := List.mem_map.mp hc
          refine ⟨rfl, ?_⟩
          intro h hh
          cases hh
          exact hx
        · obtain ⟨x, hx, rfl⟩ := List.mem_map.mp hc
          exact ⟨rfl, fun h hh => by cases hh⟩
      · rw [updateInstancer_some _ _ _ _ transforms hp hi hne]
        have hlen := resizeInstanceLists_length f.st.m_rprMeshInstances f.st.m_rprMeshes.length
        obtain ⟨_, _, _, _, s5, _, s7⟩ := syncMeshInstances_spec
          (transforms.map fun t => lib.matMul f.st.m_transform t) f.st.m_rprMeshes
          (resizeInstanceLists f.st.m_rprMeshInstances f.st.m_rprMeshes.length) f.next hlen
        refine ⟨rfl, _, List.append_assoc _ _ _, ?_⟩
        intro c hc
        rcases List.mem_append.mp hc with hc | hc
        · obtain ⟨x, hx, rfl⟩ := List.mem_map.mp hc
          refine ⟨rfl, ?_⟩
          intro h hh
          cases hh
          obtain ⟨l, hl, hxl⟩ := List.mem_flatten.mp hx
          exact List.mem_flatten.mpr ⟨l, List.mem_of_mem_drop hl, hxl⟩
        · refine ⟨s7 c hc, ?_⟩
          intro h hh
          subst hh
          have := mem_released_of_release h _ hc
          rw [s5, List.mem_flatMap] at this
          obtain ⟨l, hl, hxl⟩ := this
          have hx : h ∈ (resizeInstanceLists f.st.m_rprMeshInstances
              f.st.m_rprMeshes.length).flatten :=
            List.mem_flatten.mpr ⟨l, hl, List.mem_of_mem_drop hxl⟩
          rw [resizeInstanceLists_flatten] at hx
          obtain ⟨l2, hl2, hxl2⟩ := List.mem_flatten.mp hx
          exact List.mem_flatten.mpr ⟨l2, List.mem_of_mem_take hl2, hxl2⟩
  · rw [updateInstancer_skip _ _ _ _ (Or.inl (by simpa using hp))]
    exact ⟨rfl, [], by simp, by simp⟩

theorem updateRprMeshes_meshKeeping (lib : Lib) (scene : Scene) (d : DirtyBits) (f : Frame) :
    MeshKeepingStep f (updateRprMeshes lib scene d f) := by
  unfold updateRprMeshes
  split
  · exact ⟨rfl, [], by simp, by simp⟩
  · exact meshKeepingStep_quiet
      (quietStep_meshKeeping (updatePhases_quiet lib scene d f)
        (updateInstancer_meshKeeping lib scene d _))
      (updateTransforms_quiet _)


theorem createRprMeshes_of_not_newMesh (scene : Scene) (f : Frame) (h : f.newMesh = false) :
    createRprMeshes scene f = some f := by
  unfold createRprMeshes
  rw [h]
  rfl

/-! ## Instance convergence -/

theorem createRprMeshes_cases (scene : Scene) (f g : Frame)
    (h : createRprMeshes scene f = some g) :
    (f.newMesh = false ∧ g = f) ∨
      (f.newMesh = true ∧ g.newMesh = true ∧ g.st.m_rprMeshInstances = [] ∧
        (∀ m ∈ g.st.m_rprMeshes, f.next ≤ m) ∧
        ∃ creates, g.calls = f.calls ++ (releaseAll f.st ++ creates) ∧
          ∀ c ∈ creates, c.isCreateMesh = true) := by
  unfold createRprMeshes at h
  split at h
  · rename_i hnm
    right
    split at h
    · simp only [Option.some.injEq] at h
      subst h
      refine ⟨hnm, hnm, rfl, ?_, _, List.append_assoc _ _ _, ?_⟩
      · intro m hm
        dsimp only at hm
        split at hm
        · rw [List.mem_singleton] at hm; exact le_of_eq hm.symm
        · simp at hm
      · intro c hc
        rw [List.mem_singleton] at hc
        subst hc
        rfl
    · split at h
      · cases h
      · rename_i kept meshes next1 calls hrec
        simp only [Option.some.injEq] at h
        subst h
        obtain ⟨_, _, _, s4, _, _, s7⟩ := createSubsetMeshes_spec _ _ _ _ _ _ _ _ hrec
        exact ⟨hnm, hnm, rfl, fun m hm => (s4 m hm).1, _, List.append_assoc _ _ _, s7⟩
  · rename_i hnm
    left
    simp only [Option.some.injEq] at h
    exact ⟨by simpa using hnm, h.symm⟩

theorem updateSubdivTags_newMesh (scene : Scene) (d : DirtyBits) (f : Frame) :
    (updateSubdivTags scene d f).newMesh = f.newMesh := by
  unfold updateSubdivTags; split <;> rfl

theorem updateRefineLevel_newMesh (f : Frame) : (updateRefineLevel f).newMesh = f.newMesh := by
  unfold updateRefineLevel; split <;> rfl

theorem updateVisibility_newMesh (d : DirtyBits) (f : Frame) :
    (updateVisibility d f).newMesh = f.newMesh := by
  unfold updateVisibility; split <;> rfl

theorem updateMaterial_newMesh (lib : Lib) (scene : Scene) (d : DirtyBits) (f : Frame) :
    (updateMaterial lib scene d f).newMesh = f.newMesh := by
  unfold updateMaterial
  split
  · split
    · rfl
    · split <;> rfl
  · rfl

theorem callsStep_refl (P : Call → Prop) (f : Frame) : CallsStep P f f :=
  ⟨[], by simp, by simp⟩

theorem callsStep_trans {P : Call → Prop} {f g h : Frame} (h1 : CallsStep P f g)
    (h2 : CallsStep P g h) : CallsStep P f h := by
  obtain ⟨e1, a1, a2⟩ := h1
  obtain ⟨e2, b1, b2⟩ := h2
  refine ⟨e1 ++ e2, by rw [b1, a1, List.append_assoc], ?_⟩
  intro c hc
  rcases List.mem_append.mp hc with h | h
  · exact a2 c h
  · exact b2 c h

theorem callsStep_mono {P Q : Call → Prop} {f g : Frame} (hpq : ∀ c, P c → Q c)
    (h : CallsStep P f g) : CallsStep Q f g := by
  obtain ⟨e, a1, a2⟩ := h
  exact ⟨e, a1, fun c hc => hpq c (a2 c hc)⟩

theorem callsStep_of_append (P : Call → Prop) (f : Frame) (extra : List Call)
    (h : ∀ c ∈ extra, P c) : CallsStep P f { f with calls := f.calls ++ extra } :=
  ⟨extra, rfl, h⟩

theorem createRprMeshes_kinds (scene : Scene) (f g : Frame)
    (h : createRprMeshes scene f = some g) :
    CallsStep (fun c => c.kind = CallKind.release ∨ c.kind = CallKind.createMesh) f g := by
  rcases createRprMeshes_cases scene f g h with ⟨_, h2⟩ | ⟨_, _, _, _, creates, h5, h6⟩
  · rw [h2]; exact callsStep_refl _ _
  · refine ⟨_, h5, ?_⟩
    intro c hc
    rcases List.mem_append.mp hc with h | h
    · left
      unfold releaseAll at h
      rcases List.mem_append.mp h with h | h
      · obtain ⟨x, _, rfl⟩ := List.mem_map.mp h; rfl
      · obtain ⟨x, _, rfl⟩ := List.mem_map.mp h; rfl
    · right
      have := h6 c h
      cases c <;> simp_all [Call.isCreateMesh, Call.kind]

theorem updateSubdivTags_kinds (scene : Scene) (d : DirtyBits) (f : Frame) :
    CallsStep (fun c => c.kind = CallKind.setMeshVertexInterpolationRule) f
      (updateSubdivTags scene d f) := by
  unfold updateSubdivTags
  split
  · apply callsStep_of_append
    intro c hc
    obtain ⟨x, _, rfl⟩ := List.mem_map.mp hc
    rfl
  · exact callsStep_refl _ _

theorem updateVisibility_kinds (d : DirtyBits) (f : Frame) :
    CallsStep (fun c => c.kind = CallKind.setMeshVisibility) f (updateVisibility d f) := by
  unfold updateVisibility
  split
  · apply callsStep_of_append
    intro c hc
    obtain ⟨x, _, rfl⟩ := List.mem_map.mp hc
    rfl
  · exact callsStep_refl _ _

theorem updateTransforms_kinds (f : Frame) :
    CallsStep (fun c => c.kind = CallKind.setTransform) f (updateTransforms f) := by
  unfold updateTransforms
  split
  · apply callsStep_of_append
    intro c hc
    obtain ⟨x, _, rfl⟩ := List.mem_map.mp hc
    rfl
  · exact callsStep_refl _ _

theorem updateRefineLevel_calls (f : Frame) :
    (updateRefineLevel f).calls = f.calls ++
      (if (f.newMesh || f.isRefineLevelDirty) = true then
        f.st.m_rprMeshes.map fun rprMesh =>
          Call.setMeshRefineLevel rprMesh
            (if f.st.m_enableSubdiv then f.st.m_refineLevel else 0)
      else []) := by
  unfold updateRefineLevel
  split <;> simp

theorem GetFallbackMaterial_kinds (lib : Lib) (scene : Scene) (d : DirtyBits)
    (fallback : Option Handle) (next : Nat) :
    ∀ c ∈ (GetFallbackMaterial lib scene d fallback next).2.2.2,
      c.kind = CallKind.releaseMaterial ∨ c.kind = CallKind.createMaterial := by
  unfold GetFallbackMaterial
  dsimp only
  split
  · intro c hc
    split at hc
    · rw [List.mem_singleton] at hc; subst hc; left; rfl
    · simp at hc
  · intro c hc
    rcases List.mem_append.mp hc with h | h
    · split at h
      · rw [List.mem_singleton] at h; subst h; left; rfl
      · simp at h
    · rw [List.mem_singleton] at h; subst h; right; rfl

theorem getMeshMaterial_kinds (lib : Lib) (scene : Scene) (d : DirtyBits) (materialId : SdfPath)
    (fallback : Option Handle) (next : Nat) :
    ∀ c ∈ (getMeshMaterial lib scene d materialId fallback next).2.2.2,
      c.kind = CallKind.releaseMaterial ∨ c.kind = CallKind.createMaterial := by
  unfold getMeshMaterial
  split
  · simp
  · exact GetFallbackMaterial_kinds lib scene d fallback next

theorem setSubsetMaterials_kinds (lib : Lib) (scene : Scene) (d : DirtyBits) (ds de : Bool)
    (subsets : List HdGeomSubset) (meshes : List Handle) (fallback : Option Handle)
    (next : Nat) :
    ∀ c ∈ (setSubsetMaterials lib scene d ds de subsets meshes fallback next).2.2,
      c.kind = CallKind.releaseMaterial ∨ c.kind = CallKind.createMaterial ∨
        c.kind = CallKind.setMeshMaterial := by
  induction subsets generalizing meshes fallback next with
  | nil => simp [setSubsetMaterials]
  | cons s rest ih =>
    cases meshes with
    | nil => simp [setSubsetMaterials]
    | cons m ms =>
      simp only [setSubsetMaterials]
      intro c hc
      simp only [List.mem_append, List.mem_cons] at hc
      rcases hc with h | rfl | h
      · rcases getMeshMaterial_kinds lib scene d s.materialId fallback next c h with h | h
        · exact Or.inl h
        · exact Or.inr (Or.inl h)
      · right; right; rfl
      · exact ih ms _ _ c h

theorem updateMaterial_kinds (lib : Lib) (scene : Scene) (d : DirtyBits) (f : Frame) :
    CallsStep (fun c => c.kind = CallKind.releaseMaterial ∨ c.kind = CallKind.createMaterial ∨
      c.kind = CallKind.setMeshMaterial) f (updateMaterial lib scene d f) := by
  unfold updateMaterial
  split
  · split
    · refine ⟨_, List.append_assoc _ _ _, ?_⟩
      intro c hc
      rcases List.mem_append.mp hc with h | h
      · rcases getMeshMaterial_kinds lib scene d _ _ _ c h with h | h
        · exact Or.inl h
        · exact Or.inr (Or.inl h)
      · obtain ⟨x, _, rfl⟩ := List.mem_map.mp h
        right; right; rfl
    · split
      · exact ⟨_, rfl, setSubsetMaterials_kinds lib scene d _ _ _ _ _ _⟩
      · exact callsStep_refl _ _
  · exact callsStep_refl _ _

theorem resizeMeshInstances_kinds (mesh : Handle) (l : List Handle) (T next : Nat) :
    ∀ c ∈ (resizeMeshInstances mesh l T next).2.2,
      c.kind = CallKind.release ∨ c.kind = CallKind.createMeshInstance := by
  rw [resizeMeshInstances_spec]
  dsimp only
  intro c hc
  split at hc
  · obtain ⟨x, _, rfl⟩ := List.mem_map.mp hc; right; rfl
  · obtain ⟨x, _, rfl⟩ := List.mem_map.mp hc; left; rfl

theorem zipWith_setTransform_kinds (a : List Handle) (b : List GfMatrix4) :
    ∀ c ∈ List.zipWith Call.setTransform a b, c.kind = CallKind.setTransform := by
  intro c hc
  induction a generalizing b with
  | nil => simp at hc
  | cons x xs ih =>
    cases b with
    | nil => simp at hc
    | cons y ys =>
      simp only [List.zipWith_cons_cons, List.mem_cons] at hc
      rcases hc with rfl | hc
      · rfl
      · exact ih ys hc

theorem syncMeshInstances_kinds (transforms : List GfMatrix4) (meshes : List Handle)
    (lists : List (List Handle)) (next : Nat) :
    ∀ c ∈ (syncMeshInstances transforms meshes lists next).2.2,
      c.kind = CallKind.release ∨ c.kind = CallKind.createMeshInstance ∨
        c.kind = CallKind.setTransform ∨ c = Call.setMeshVisibility
          (match c with | Call.setMeshVisibility m _ => m | _ => 0) false := by
  induction meshes generalizing lists next with
  | nil => cases lists <;> simp [syncMeshInstances]
  | cons mesh meshes ih =>
    cases lists with
    | nil => simp [syncMeshInstances]
    | cons l lists =>
      rw [syncMeshInstances_cons]
      dsimp only
      intro c hc
      simp only [List.mem_append, List.mem_cons] at hc
      rcases hc with (h | h) | rfl | h
      · rcases resizeMeshInstances_kinds mesh l _ next c h with h | h
        · exact Or.inl h
        · exact Or.inr (Or.inl h)
      · exact Or.inr (Or.inr (Or.inl (zipWith_setTransform_kinds _ _ c h)))
      · right; right; right; rfl
      · exact ih lists _ c h

theorem updateInstancer_kinds (lib : Lib) (scene : Scene) (d : DirtyBits) (f : Frame) :
    CallsStep (fun c => c.kind = CallKind.release ∨ c.kind = CallKind.createMeshInstance ∨
      c.kind = CallKind.setTransform ∨ c.kind = CallKind.setMeshVisibility) f
      (updateInstancer lib scene d f) := by
  unfold updateInstancer
  split
  · split
    · exact callsStep_refl _ _
    · split
      · refine ⟨_, List.append_assoc _ _ _, ?_⟩
        intro c hc
        rcases List.mem_append.mp hc with h | h
        · obtain ⟨x, _, rfl⟩ := List.mem_map.mp h; left; rfl
        · obtain ⟨x, _, rfl⟩ := List.mem_map.mp h; right; right; right; rfl
      · refine ⟨_, List.append_assoc _ _ _, ?_⟩
        intro c hc
        rcases List.mem_append.mp hc with h | h
        · obtain ⟨x, _, rfl⟩ := List.mem_map.mp h; left; rfl
        · rcases syncMeshInstances_kinds _ _ _ _ c h with h | h | h | h
          · exact Or.inl h
          · exact Or.inr (Or.inl h)
          · exact Or.inr (Or.inr (Or.inl h))
          · right; right; right; rw [h]; rfl
  · exact callsStep_refl _ _

theorem callsStep_mem {P : Call → Prop} {f g : Frame} (h : CallsStep P f g) (c : Call)
    (hc : c ∈ f.calls) : c ∈ g.calls := by
  obtain ⟨e, h1, _⟩ := h
  rw [h1]
  exact List.mem_append_left _ hc

theorem callsStep_of_kind {P : Call → Prop} {ks : Call → Prop} {f g : Frame}
    (h : CallsStep ks f g) (hk : ∀ c, ks c → P c) : CallsStep P f g :=
  callsStep_mono hk h

/-- The refine levels `updateRprMeshes` pushes. -/
theorem updateRprMeshes_refine (lib : Lib) (scene : Scene) (d : DirtyBits) (f : Frame) :
    CallsStep (fun c => ∀ h v, c = Call.setMeshRefineLevel h v →
        v = pushedRefineLevel f.st ∧ (f.newMesh || f.isRefineLevelDirty) = true) f
      (updateRprMeshes lib scene d f) ∧
    ((f.newMesh || f.isRefineLevelDirty) = true → ∀ m ∈ f.st.m_rprMeshes,
      Call.setMeshRefineLevel m (pushedRefineLevel f.st) ∈
        (updateRprMeshes lib scene d f).calls) := by
  unfold updateRprMeshes
  split
  · rename_i he
    refine ⟨callsStep_refl _ _, ?_⟩
    intro _ m hm
    rw [List.isEmpty_iff] at he
    rw [he] at hm
    simp at hm
  · have e1 := updateSubdivTags_kinds scene d f
    have e2 : CallsStep (fun c => ∀ h v, c = Call.setMeshRefineLevel h v →
        v = pushedRefineLevel f.st ∧ (f.newMesh || f.isRefineLevelDirty) = true)
        (updateSubdivTags scene d f) (updateRefineLevel (updateSubdivTags scene d f)) := by
      refine ⟨_, updateRefineLevel_calls _, ?_⟩
      intro c hc h v hv
      rw [updateSubdivTags_newMesh, updateSubdivTags_st] at hc
      have hdirty : (updateSubdivTags scene d f).isRefineLevelDirty = f.isRefineLevelDirty := by
        unfold updateSubdivTags; split <;> rfl
      rw [hdirty] at hc
      split at hc
      · rename_i hflag
        obtain ⟨x, _, hx⟩ := List.mem_map.mp hc
        rw [hv] at hx
        simp only [Call.setMeshRefineLevel.injEq] at hx
        exact ⟨hx.2.symm, hflag⟩
      · simp at hc
    have e3 := updateVisibility_kinds d (updateRefineLevel (updateSubdivTags scene d f))
    have e4 := updateMaterial_kinds lib scene d
      (updateVisibility d (updateRefineLevel (updateSubdivTags scene d f)))
    have e5 := updateInstancer_kinds lib scene d (updateMaterial lib scene d
      (updateVisibility d (updateRefineLevel (updateSubdivTags scene d f))))
    have e6 := updateTransforms_kinds (updateInstancer lib scene d (updateMaterial lib scene d
      (updateVisibility d (updateRefineLevel (updateSubdivTags scene d f)))))
    refine ⟨?_, ?_⟩
    · refine callsStep_trans (callsStep_mono ?_ e1) (callsStep_trans e2
        (callsStep_trans (callsStep_mono ?_ e3) (callsStep_trans (callsStep_mono ?_ e4)
          (callsStep_trans (callsStep_mono ?_ e5) (callsStep_mono ?_ e6)))))
      all_goals
        intro c hk h v hv
        subst hv
        simp [Call.kind] at hk
    · intro hflag m hm
      apply callsStep_mem e6
      apply callsStep_mem e5
      apply callsStep_mem e4
      apply callsStep_mem e3
      rw [updateRefineLevel_calls, updateSubdivTags_newMesh, updateSubdivTags_st]
      have hdirty : (updateSubdivTags scene d f).isRefineLevelDirty = f.isRefineLevelDirty := by
        unfold updateSubdivTags; split <;> rfl
      rw [hdirty, if_pos hflag]
      apply List.mem_append_right
      exact List.mem_map.mpr ⟨m, hm, rfl⟩

/-! ## The subdivision flag; the calls of a Sync -/

theorem subdivInv_init (id : SdfPath) : SubdivInv (MeshState.init id) := by
  simp [SubdivInv, MeshState.init]

theorem sameCache_subdivInv {a b : MeshState} (h : SameCache a b) (hi : SubdivInv a) :
    SubdivInv b := by
  unfold SameCache at h
  rw [h]
  exact hi

theorem resolve_subdivInv (lib : Lib) (scene : Scene) (d : DirtyBits) (f : Frame)
    (h : SubdivInv f.st) : SubdivInv (resolve lib scene d f).st := by
  have a1 : SubdivInv (pullComputedPoints scene d f).1.st := by
    unfold pullComputedPoints; split
    · split <;> exact h
    · exact h
  have a2 : SubdivInv (pullPoints scene d (pullComputedPoints scene d f)).st := by
    unfold pullPoints; split <;> exact a1
  have a3 : ∀ g : Frame, SubdivInv g.st → SubdivInv (pullTopology scene d g).st := by
    intro g hg; unfold pullTopology; split
    · rfl
    · exact hg
  have a4 : ∀ g : Frame, SubdivInv g.st → SubdivInv (pullNormals scene d g).st := by
    intro g hg; unfold pullNormals; split <;> exact hg
  have a5 : ∀ g : Frame, SubdivInv g.st → SubdivInv (pullUvs scene d g).st := by
    intro g hg; unfold pullUvs; split <;> exact hg
  have a6 : ∀ g : Frame, SubdivInv g.st → SubdivInv (pullFlags scene d g).st := by
    intro g hg; unfold pullFlags; dsimp only
    split <;> split <;> split <;> exact hg
  have a7 : ∀ g : Frame, SubdivInv g.st → SubdivInv (resolveDisplayStyle scene d g).st := by
    intro g hg; unfold resolveDisplayStyle; split
    · split <;> exact hg
    · exact hg
  have a8 : ∀ g : Frame, SubdivInv g.st → SubdivInv (resolveSubdivisionLevel scene d g).st := by
    intro g hg; unfold resolveSubdivisionLevel; split
    · split
      · split <;> exact hg
      · exact hg
    · exact hg
  have a9 : ∀ g : Frame, SubdivInv g.st → SubdivInv (resolveSmoothNormals lib g).st := by
    intro g hg; unfold resolveSmoothNormals computeNormals buildAdjacency; dsimp only
    split
    · split <;> split <;> exact hg
    · exact hg
  have a10 : ∀ g : Frame, SubdivInv g.st → SubdivInv (resolveTransform scene d g).st := by
    intro g hg; unfold resolveTransform; split <;> exact hg
  unfold resolve
  exact a10 _ (a9 _ (a8 _ (a7 _ (a6 _ (a5 _ (a4 _ (a3 _ a2)))))))

theorem sync_subdivInv (lib : Lib) (scene : Scene) (d : DirtyBits) (st : MeshState) (api : Api)
    (r : MeshState × Api) (hi : SubdivInv st) (h : Sync lib scene d st api = some r) :
    SubdivInv r.1 := by
  obtain ⟨g, hg, rfl⟩ := sync_eq_some lib scene d st api r h
  exact sameCache_subdivInv (updateRprMeshes_sameCache _ _ _ _)
    (sameCache_subdivInv (createRprMeshes_sameCache _ _ _ hg) (resolve_subdivInv _ _ _ _ hi))

theorem runSyncs_subdivInv (lib : Lib) (inputs : List SyncInput) (s r : MeshState × Api)
    (hs : SubdivInv s.1) (h : runSyncs lib inputs s = some r) : SubdivInv r.1 := by
  induction inputs generalizing s with
  | nil => simp only [runSyncs, Option.some.injEq] at h; subst h; exact hs
  | cons i rest ih =>
    simp only [runSyncs] at h
    split at h
    · cases h
    · rename_i s1 hs1
      exact ih s1 (sync_subdivInv _ _ _ _ _ _ hs hs1) h

theorem reachable_subdivInv (lib : Lib) (s : MeshState × Api) (h : Reachable lib s) :
    SubdivInv s.1 := by
  obtain ⟨id, inputs, hr⟩ := h
  exact runSyncs_subdivInv lib inputs _ s (subdivInv_init id) hr

/-- The calls of a defined `Sync` are those of its frame. -/
theorem sync_delta (lib : Lib) (scene : Scene) (d : DirtyBits) (st : MeshState) (api : Api)
    (r : MeshState × Api) (h : Sync lib scene d st api = some r) :
    ∃ g, createRprMeshes scene (resolve lib scene d (Frame.start st api.next)) = some g ∧
      r.1 = (updateRprMeshes lib scene d g).st ∧
      r.2.log.drop api.log.length = (updateRprMeshes lib scene d g).calls := by
  obtain ⟨g, hg, rfl⟩ := sync_eq_some lib scene d st api r h
  exact ⟨g, hg, rfl, by simp⟩

theorem resolve_calls (lib : Lib) (scene : Scene) (d : DirtyBits) (st : MeshState) (next : Nat) :
    (resolve lib scene d (Frame.start st next)).calls = [] := by
  have h := resolve_backend lib scene d (Frame.start st next)
  have h2 := congrArg (fun x => x.2.2.2.2.2) h
  exact h2

/-! ## The library events of a Sync -/

theorem resolve_eq (lib : Lib) (scene : Scene) (d : DirtyBits) (f : Frame) :
    resolve lib scene d f =
      resolveTransform scene d (resolveSmoothNormals lib (resolveAttributes scene d f)) := rfl

theorem resolveTransform_events (scene : Scene) (d : DirtyBits) (f : Frame) :
    (resolveTransform scene d f).events = f.events := by
  unfold resolveTransform; split <;> rfl

/-- The events of lines 272-289. -/
theorem resolveSmoothNormals_events (lib : Lib) (f : Frame) :
    (resolveSmoothNormals lib f).events = f.events ++
      ((if (wantsSmoothNormals f.st && !f.st.m_adjacencyValid) = true then
          [Event.buildAdjacencyTable] else []) ++
        (if synthesizes f = true then [Event.computeSmoothNormals] else [])) := by
  unfold resolveSmoothNormals computeNormals buildAdjacency wantsSmoothNormals synthesizes
  dsimp only
  generalize decide (f.st.m_refineLevel > 0) = b
  cases f.st.m_authoredNormals <;> cases f.st.m_displayStyle.flatShadingEnabled <;>
    cases f.st.m_enableSubdiv <;> cases f.st.m_adjacencyValid <;>
    cases f.st.m_normalsValid <;> cases b <;> simp

/-- What lines 272-289 leave alone. -/
theorem resolveSmoothNormals_fields (lib : Lib) (f : Frame) :
    (resolveSmoothNormals lib f).st.m_enableSubdiv = f.st.m_enableSubdiv ∧
      (resolveSmoothNormals lib f).st.m_refineLevel = f.st.m_refineLevel ∧
      (resolveSmoothNormals lib f).st.m_authoredNormals = f.st.m_authoredNormals ∧
      (resolveSmoothNormals lib f).st.m_displayStyle = f.st.m_displayStyle ∧
      (resolveSmoothNormals lib f).st.m_points = f.st.m_points ∧
      (resolveSmoothNormals lib f).st.m_topology = f.st.m_topology ∧
      (resolveSmoothNormals lib f).st.m_normalIndices = f.st.m_normalIndices ∧
      (resolveSmoothNormals lib f).isRefineLevelDirty = f.isRefineLevelDirty := by
  unfold resolveSmoothNormals computeNormals buildAdjacency
  dsimp only
  split
  · split <;> split <;> simp
  · simp

theorem resolveTransform_fields (scene : Scene) (d : DirtyBits) (f : Frame) :
    (resolveTransform scene d f).st = { f.st with
        m_transform := (resolveTransform scene d f).st.m_transform } ∧
      (resolveTransform scene d f).isRefineLevelDirty = f.isRefineLevelDirty := by
  unfold resolveTransform; split <;> exact ⟨rfl, rfl⟩

theorem createRprMeshes_events (scene : Scene) (f g : Frame)
    (h : createRprMeshes scene f = some g) :
    g.events = f.events ∧ g.isRefineLevelDirty = f.isRefineLevelDirty ∧
      g.updateTransform = f.updateTransform := by
  unfold createRprMeshes at h
  split at h
  · split at h
    · cases h; exact ⟨rfl, rfl, rfl⟩
    · split at h
      · cases h
      · cases h; exact ⟨rfl, rfl, rfl⟩
  · cases h; exact ⟨rfl, rfl, rfl⟩

theorem updateRprMeshes_events (lib : Lib) (scene : Scene) (d : DirtyBits) (f : Frame) :
    (updateRprMeshes lib scene d f).events = f.events := by
  have a1 : ∀ g : Frame, (updateSubdivTags scene d g).events = g.events := by
    intro g; unfold updateSubdivTags; split <;> rfl
  have a2 : ∀ g : Frame, (updateRefineLevel g).events = g.events := by
    intro g; unfold updateRefineLevel; split <;> rfl
  have a3 : ∀ g : Frame, (updateVisibility d g).events = g.events := by
    intro g; unfold updateVisibility; split <;> rfl
  have a4 : ∀ g : Frame, (updateMaterial lib scene d g).events = g.events := by
    intro g; unfold updateMaterial; split
    · split
      · rfl
      · split <;> rfl
    · rfl
  have a5 : ∀ g : Frame, (updateInstancer lib scene d g).events = g.events := by
    intro g; unfold updateInstancer; split
    · split
      · rfl
      · split <;> rfl
    · rfl
  have a6 : ∀ g : Frame, (updateTransforms g).events = g.events := by
    intro g; unfold updateTransforms; split <;> rfl
  unfold updateRprMeshes
  split
  · rfl
  · rw [a6, a5, a4, a3, a2, a1]

/-- A defined `Sync` frame has the events and the cached scene data of the
resolved frame. -/
theorem syncFrame_resolved (lib : Lib) (scene : Scene) (d : DirtyBits) (st : MeshState)
    (next : Nat) (g : Frame) (h : syncFrame lib scene d st next = some g) :
    g.events = (resolve lib scene d (Frame.start st next)).events ∧
      SameCache (resolve lib scene d (Frame.start st next)).st g.st := by
  unfold syncFrame at h
  cases hc : createRprMeshes scene (resolve lib scene d (Frame.start st next)) with
  | none => rw [hc] at h; simp at h
  | some g1 =>
    rw [hc] at h
    simp only [Option.map_some', Option.some.injEq] at h
    subst h
    refine ⟨?_, sameCache_trans (createRprMeshes_sameCache _ _ _ hc)
      (updateRprMeshes_sameCache _ _ _ _)⟩
    rw [updateRprMeshes_events, (createRprMeshes_events _ _ _ hc).1]

/-- Lines 163-192: where the cached points come from. -/
theorem pullPoints_spec (scene : Scene) (d : DirtyBits) (f : Frame) :
    (pullPoints scene d (pullComputedPoints scene d f)) =
      if d.points = true then
        { f with
          st := { f.st with
            m_points :=
              if Token.points ∈ scene.extComputationDescs ∧ scene.computedPoints.isSome = true
              then (scene.computedPoints.getD VtValue.other).getVec3fArray
              else (scene.get Token.points).getVec3fArray,
            m_normalsValid := false },
          events := f.events ++
            ((if Token.points ∈ scene.extComputationDescs then [Event.getComputedPrimvarValues]
              else []) ++
            (if Token.points ∈ scene.extComputationDescs ∧ scene.computedPoints.isSome = true
              then [] else [Event.getPoints])),
          newMesh := true }
      else f := by
  unfold pullPoints pullComputedPoints IsPrimvarDirty
  cases hp : d.points
  · simp
  · by_cases hx : Token.points ∈ scene.extComputationDescs
    · cases hc : scene.computedPoints <;> simp [hx]
    · simp [hx]

/-- Lines 194-270 keep the points and the events, and clear the validity flags
exactly when the topology is dirty. -/
theorem attributes_tail (scene : Scene) (d : DirtyBits) (g : Frame) :
    let t := resolveSubdivisionLevel scene d (resolveDisplayStyle scene d (pullFlags scene d
      (pullUvs scene d (pullNormals scene d (pullTopology scene d g)))))
    t.st.m_points = g.st.m_points ∧ t.events = g.events ∧
      (g.newMesh = true → t.newMesh = true) ∧
      t.st.m_normalsValid = (g.st.m_normalsValid && !d.topology) ∧
      t.st.m_adjacencyValid = (g.st.m_adjacencyValid && !d.topology) := by
  have a3 : ∀ g : Frame, (pullTopology scene d g).st.m_points = g.st.m_points ∧
      (pullTopology scene d g).events = g.events ∧
      (g.newMesh = true → (pullTopology scene d g).newMesh = true) ∧
      (pullTopology scene d g).st.m_normalsValid = (g.st.m_normalsValid && !d.topology) ∧
      (pullTopology scene d g).st.m_adjacencyValid = (g.st.m_adjacencyValid && !d.topology) := by
    intro g; unfold pullTopology; split
    · rename_i h; simp [h]
    · rename_i h; simp [h]
  have a4 : ∀ g : Frame, (pullNormals scene d g).st.m_points = g.st.m_points ∧
      (pullNormals scene d g).events = g.events ∧
      (g.newMesh = true → (pullNormals scene d g).newMesh = true) ∧
      (pullNormals scene d g).st.m_normalsValid = g.st.m_normalsValid ∧
      (pullNormals scene d g).st.m_adjacencyValid = g.st.m_adjacencyValid := by
    intro g; unfold pullNormals; split <;> simp
  have a5 : ∀ g : Frame, (pullUvs scene d g).st.m_points = g.st.m_points ∧
      (pullUvs scene d g).events = g.events ∧
      (g.newMesh = true → (pullUvs scene d g).newMesh = true) ∧
      (pullUvs scene d g).st.m_normalsValid = g.st.m_normalsValid ∧
      (pullUvs scene d g).st.m_adjacencyValid = g.st.m_adjacencyValid := by
    intro g; unfold pullUvs; split <;> simp
  have a6 : ∀ g : Frame, (pullFlags scene d g).st.m_points = g.st.m_points ∧
      (pullFlags scene d g).events = g.events ∧
      (g.newMesh = true → (pullFlags scene d g).newMesh = true) ∧
      (pullFlags scene d g).st.m_normalsValid = g.st.m_normalsValid ∧
      (pullFlags scene d g).st.m_adjacencyValid = g.st.m_adjacencyValid := by
    intro g; unfold pullFlags
    cases d.materialId <;> cases d.visibility <;> cases d.doubleSided <;> simp
  have a7 : ∀ g : Frame, (resolveDisplayStyle scene d g).st.m_points = g.st.m_points ∧
      (resolveDisplayStyle scene d g).events = g.events ∧
      (g.newMesh = true → (resolveDisplayStyle scene d g).newMesh = true) ∧
      (resolveDisplayStyle scene d g).st.m_normalsValid = g.st.m_normalsValid ∧
      (resolveDisplayStyle scene d g).st.m_adjacencyValid = g.st.m_adjacencyValid := by
    intro g; unfold resolveDisplayStyle; split
    · split <;> simp
    · simp
  have a8 : ∀ g : Frame, (resolveSubdivisionLevel scene d g).st.m_points = g.st.m_points ∧
      (resolveSubdivisionLevel scene d g).events = g.events ∧
      (g.newMesh = true → (resolveSubdivisionLevel scene d g).newMesh = true) ∧
      (resolveSubdivisionLevel scene d g).st.m_normalsValid = g.st.m_normalsValid ∧
      (resolveSubdivisionLevel scene d g).st.m_adjacencyValid = g.st.m_adjacencyValid := by
    intro g; unfold resolveSubdivisionLevel; split
    · split
      · split <;> simp
      · simp
    · simp
  intro t
  obtain ⟨p3, e3, n3, v3, w3⟩ := a3 g
  obtain ⟨p4, e4, n4, v4, w4⟩ := a4 (pullTopology scene d g)
  obtain ⟨p5, e5, n5, v5, w5⟩ := a5 (pullNormals scene d (pullTopology scene d g))
  obtain ⟨p6, e6, n6, v6, w6⟩ := a6 (pullUvs scene d (pullNormals scene d (pullTopology scene d g)))
  obtain ⟨p7, e7, n7, v7, w7⟩ := a7 (pullFlags scene d
    (pullUvs scene d (pullNormals scene d (pullTopology scene d g))))
  obtain ⟨p8, e8, n8, v8, w8⟩ := a8 (resolveDisplayStyle scene d (pullFlags scene d
    (pullUvs scene d (pullNormals scene d (pullTopology scene d g)))))
  refine ⟨?_, ?_, ?_, ?_, ?_⟩
  · rw [p8, p7, p6, p5, p4, p3]
  · rw [e8, e7, e6, e5, e4, e3]
  · intro h; exact n8 (n7 (n6 (n5 (n4 (n3 h)))))
  · rw [v8, v7, v6, v5, v4, v3]
  · rw [w8, w7, w6, w5, w4, w3]

/-- Lines 161-270: the points, the events and the validity flags after them. -/
theorem resolveAttributes_spec (scene : Scene) (d : DirtyBits) (f : Frame) :
    (resolveAttributes scene d f).st.m_points =
        (pullPoints scene d (pullComputedPoints scene d f)).st.m_points ∧
      (resolveAttributes scene d f).events =
        (pullPoints scene d (pullComputedPoints scene d f)).events ∧
      (d.points = true → (resolveAttributes scene d f).newMesh = true) ∧
      (resolveAttributes scene d f).st.m_normalsValid =
        (f.st.m_normalsValid && !d.points && !d.topology) ∧
      (resolveAttributes scene d f).st.m_adjacencyValid =
        (f.st.m_adjacencyValid && !d.topology) := by
  obtain ⟨h1, h2, h3, h4, h5⟩ :=
    attributes_tail scene d (pullPoints scene d (pullComputedPoints scene d f))
  refine ⟨h1, h2, ?_, ?_, ?_⟩
  · intro hp
    apply h3
    rw [pullPoints_spec, if_pos hp]
  · unfold resolveAttributes
    rw [h4, pullPoints_spec]
    cases hp : d.points <;> simp
  · unfold resolveAttributes
    rw [h5, pullPoints_spec]
    cases hp : d.points <;> simp

/-- The events of phases 1 and 2 of a `Sync`. -/
theorem resolve_events (lib : Lib) (scene : Scene) (d : DirtyBits) (st : MeshState) (next : Nat) :
    (resolve lib scene d (Frame.start st next)).events =
      (if d.points = true then
        (if Token.points ∈ scene.extComputationDescs then [Event.getComputedPrimvarValues]
          else []) ++
        (if Token.points ∈ scene.extComputationDescs ∧ scene.computedPoints.isSome = true
          then [] else [Event.getPoints])
      else []) ++
      ((if (wantsSmoothNormals (resolveAttributes scene d (Frame.start st next)).st &&
            !(resolveAttributes scene d (Frame.start st next)).st.m_adjacencyValid) = true then
          [Event.buildAdjacencyTable] else []) ++
        (if synthesizes (resolveAttributes scene d (Frame.start st next)) = true then
          [Event.computeSmoothNormals] else [])) := by
  rw [resolve_eq, resolveTransform_events, resolveSmoothNormals_events,
    (resolveAttributes_spec scene d _).2.1, pullPoints_spec]
  cases hp : d.points <;> simp [Frame.start]

theorem resolve_events_mem (lib : Lib) (scene : Scene) (d : DirtyBits) (st : MeshState)
    (next : Nat) :
    (Event.computeSmoothNormals ∈ (resolve lib scene d (Frame.start st next)).events ↔
        synthesizes (resolveAttributes scene d (Frame.start st next)) = true) ∧
      (Event.buildAdjacencyTable ∈ (resolve lib scene d (Frame.start st next)).events ↔
        (wantsSmoothNormals (resolveAttributes scene d (Frame.start st next)).st &&
          !(resolveAttributes scene d (Frame.start st next)).st.m_adjacencyValid) = true) ∧
      (Event.getPoints ∈ (resolve lib scene d (Frame.start st next)).events ↔
        (d.points = true ∧
          ¬(Token.points ∈ scene.extComputationDescs ∧ scene.computedPoints.isSome = true))) ∧
      (resolve lib scene d (Frame.start st next)).events.count Event.computeSmoothNormals ≤ 1 := by
  rw [resolve_events]
  generalize synthesizes (resolveAttributes scene d (Frame.start st next)) = b1
  generalize (wantsSmoothNormals (resolveAttributes scene d (Frame.start st next)).st &&
          !(resolveAttributes scene d (Frame.start st next)).st.m_adjacencyValid) = b2
  by_cases hx : Token.points ∈ scene.extComputationDescs <;>
    cases hc : scene.computedPoints.isSome <;>
    cases hp : d.points <;> cases b1 <;> cases b2 <;> simp [hx]

/-- What lines 272-289 do to the validity flags and the normals. -/
theorem resolveSmoothNormals_valid (lib : Lib) (f : Frame) :
    (resolveSmoothNormals lib f).st.m_normalsValid =
        (wantsSmoothNormals f.st || f.st.m_normalsValid) ∧
      (resolveSmoothNormals lib f).st.m_adjacencyValid =
        (wantsSmoothNormals f.st || f.st.m_adjacencyValid) ∧
      (synthesizes f = true →
        (resolveSmoothNormals lib f).st.m_normals =
          lib.ComputeSmoothNormals (resolveSmoothNormals lib f).st.m_adjacency
            f.st.m_points.length f.st.m_points) ∧
      (synthesizes f = false → (resolveSmoothNormals lib f).st.m_normals = f.st.m_normals) := by
  unfold resolveSmoothNormals computeNormals buildAdjacency wantsSmoothNormals synthesizes
  dsimp only
  generalize decide (f.st.m_refineLevel > 0) = b
  cases f.st.m_authoredNormals <;> cases f.st.m_displayStyle.flatShadingEnabled <;>
    cases f.st.m_enableSubdiv <;> cases f.st.m_adjacencyValid <;>
    cases f.st.m_normalsValid <;> cases b <;> simp

/-- A `Sync` that asks for a rebuild starts its calls by releasing every
tracked handle. -/
theorem syncFrame_rebuild (lib : Lib) (scene : Scene) (d : DirtyBits) (st : MeshState)
    (next : Nat) (g : Frame) (h : syncFrame lib scene d st next = some g)
    (hn : (resolve lib scene d (Frame.start st next)).newMesh = true) :
    releaseAll st <+: g.calls := by
  unfold syncFrame at h
  cases hc : createRprMeshes scene (resolve lib scene d (Frame.start st next)) with
  | none => rw [hc] at h; simp at h
  | some g1 =>
    rw [hc] at h
    simp only [Option.map_some', Option.some.injEq] at h
    subst h
    obtain ⟨⟨e2, hc2, _⟩, _⟩ := updateRprMeshes_refine lib scene d g1
    rcases createRprMeshes_cases scene _ g1 hc with ⟨h1, _⟩ | ⟨_, _, _, _, creates, h5, _⟩
    · rw [hn] at h1; cases h1
    · rw [resolve_calls, List.nil_append] at h5
      have hb := resolve_backend lib scene d (Frame.start st next)
      have hm : (resolve lib scene d (Frame.start st next)).st.m_rprMeshes = st.m_rprMeshes :=
        congrArg (fun x => x.1) hb
      have hi : (resolve lib scene d (Frame.start st next)).st.m_rprMeshInstances =
          st.m_rprMeshInstances := congrArg (fun x => x.2.1) hb
      have hr : releaseAll (resolve lib scene d (Frame.start st next)).st = releaseAll st := by
        unfold releaseAll; rw [hm, hi]
      rw [hc2, h5, hr, List.append_assoc]
      exact List.prefix_append _ _

/-- The points, the validity of the normals and the rebuild flag after phases
1 and 2. -/
theorem resolve_points (lib : Lib) (scene : Scene) (d : DirtyBits) (f : Frame) :
    (resolve lib scene d f).st.m_points = (resolveAttributes scene d f).st.m_points ∧
      (resolve lib scene d f).st.m_normalsValid =
        (wantsSmoothNormals (resolveAttributes scene d f).st ||
          (resolveAttributes scene d f).st.m_normalsValid) ∧
      (resolve lib scene d f).st.m_adjacencyValid =
        (wantsSmoothNormals (resolveAttributes scene d f).st ||
          (resolveAttributes scene d f).st.m_adjacencyValid) ∧
      (resolve lib scene d f).newMesh =
        ((resolveAttributes scene d f).newMesh || synthesizes (resolveAttributes scene d f)) := by
  rw [resolve_eq]
  obtain ⟨h1, _⟩ := resolveTransform_fields scene d
    (resolveSmoothNormals lib (resolveAttributes scene d f))
  obtain ⟨v1, v2, _, _⟩ := resolveSmoothNormals_valid lib (resolveAttributes scene d f)
  refine ⟨?_, ?_, ?_, ?_⟩
  · rw [h1]; exact (resolveSmoothNormals_fields lib _).2.2.2.2.1
  · rw [h1]; exact v1
  · rw [h1]; exact v2
  · rw [resolveTransform_newMesh, resolveSmoothNormals_newMesh]

/-! ## The cached and the pushed refine level -/

/-- The refine levels a defined `Sync` pushes. -/
theorem sync_refine_calls (lib : Lib) (scene : Scene) (d : DirtyBits) (st : MeshState)
    (api : Api) (r : MeshState × Api) (hsync : Sync lib scene d st api = some r)
    (h : Handle) (v : Int)
    (hcall : Call.setMeshRefineLevel h v ∈ r.2.log.drop api.log.length) :
    v = pushedRefineLevel r.1 ∧
      ∀ m ∈ r.1.m_rprMeshes, Call.setMeshRefineLevel m v ∈ r.2.log.drop api.log.length := by
  obtain ⟨g, hg, hst, hlog⟩ := sync_delta lib scene d st api r hsync
  rw [hlog] at hcall ⊢
  obtain ⟨e1, hc1, hk1⟩ := createRprMeshes_kinds scene _ g hg
  rw [resolve_calls, List.nil_append] at hc1
  obtain ⟨⟨e2, hc2, hk2⟩, hall⟩ := updateRprMeshes_refine lib scene d g
  have hsc := updateRprMeshes_sameCache lib scene d g
  have hmesh : r.1.m_rprMeshes = g.st.m_rprMeshes := by
    rw [hst]; exact (updateRprMeshes_meshKeeping lib scene d g).1
  have hpush : pushedRefineLevel r.1 = pushedRefineLevel g.st := by
    rw [hst]; unfold SameCache at hsc; rw [hsc]; rfl
  have hmem : Call.setMeshRefineLevel h v ∈ e2 := by
    rw [hc2, hc1] at hcall
    rcases List.mem_append.mp hcall with hm | hm
    · have := hk1 _ hm
      simp [Call.kind] at this
    · exact hm
  obtain ⟨hv, hflag⟩ := hk2 _ hmem h v rfl
  refine ⟨hv.trans hpush.symm, ?_⟩
  intro m hm
  rw [hmesh] at hm
  rw [hv]
  exact hall hflag m hm

/-- The cached refine level after lines 161-270. -/
theorem resolveAttributes_refineLevel (scene : Scene) (d : DirtyBits) (f : Frame) :
    (resolveAttributes scene d f).st.m_refineLevel =
      (overrideLevel scene d).getD
        (if d.displayStyle = true then scene.displayStyle.refineLevel
          else f.st.m_refineLevel) := by
  have a1 : (pullComputedPoints scene d f).1.st.m_refineLevel = f.st.m_refineLevel := by
    unfold pullComputedPoints; split
    · split <;> rfl
    · rfl
  have a2 : ∀ p : Frame × Bool, (pullPoints scene d p).st.m_refineLevel =
      p.1.st.m_refineLevel := by
    intro p; unfold pullPoints; split <;> rfl
  have a3 : ∀ g : Frame, (pullTopology scene d g).st.m_refineLevel = g.st.m_refineLevel := by
    intro g; unfold pullTopology; split <;> rfl
  have a4 : ∀ g : Frame, (pullNormals scene d g).st.m_refineLevel = g.st.m_refineLevel := by
    intro g; unfold pullNormals; split <;> rfl
  have a5 : ∀ g : Frame, (pullUvs scene d g).st.m_refineLevel = g.st.m_refineLevel := by
    intro g; unfold pullUvs; split <;> rfl
  have a6 : ∀ g : Frame, (pullFlags scene d g).st.m_refineLevel = g.st.m_refineLevel := by
    intro g; unfold pullFlags
    cases d.materialId <;> cases d.visibility <;> cases d.doubleSided <;> rfl
  have a7 : ∀ g : Frame, (resolveDisplayStyle scene d g).st.m_refineLevel =
      (if d.displayStyle = true then scene.displayStyle.refineLevel
        else g.st.m_refineLevel) := by
    intro g; unfold resolveDisplayStyle; split
    · split
      · rfl
      · rename_i h; simpa using h
    · rfl
  have a8 : ∀ g : Frame, (resolveSubdivisionLevel scene d g).st.m_refineLevel =
      (overrideLevel scene d).getD g.st.m_refineLevel := by
    intro g; unfold resolveSubdivisionLevel overrideLevel
    by_cases hc : d.primvar = true ∧
        Token.subdivisionLevel ∈ scene.primvarDescriptors HdInterpolation.constant
    · rw [if_pos hc, if_pos hc]
      cases hv : scene.get Token.subdivisionLevel with
      | int v =>
        by_cases hne : g.st.m_refineLevel = v
        · simp [hne]
        · simp [hne]
      | vec3fArray a => rfl
      | vec2fArray a => rfl
      | other => rfl
    · rw [if_neg hc, if_neg hc]; rfl
  unfold resolveAttributes
  rw [a8, a7, a6, a5, a4, a3, a2, a1]

/-- The cached refine level at the end of a defined `Sync`. -/
theorem sync_refineLevel (lib : Lib) (scene : Scene) (d : DirtyBits) (st : MeshState)
    (api : Api) (r : MeshState × Api) (hsync : Sync lib scene d st api = some r) :
    r.1.m_refineLevel = (overrideLevel scene d).getD
      (if d.displayStyle = true then scene.displayStyle.refineLevel else st.m_refineLevel) := by
  obtain ⟨g, hg, rfl⟩ := sync_eq_some lib scene d st api r hsync
  have h1 := updateRprMeshes_sameCache lib scene d g
  have h2 := createRprMeshes_sameCache _ _ _ hg
  unfold SameCache at h1 h2
  have e : (updateRprMeshes lib scene d g).st.m_refineLevel =
      (resolve lib scene d (Frame.start st api.next)).st.m_refineLevel := by
    rw [h1, h2]
  rw [e, resolve_eq, (resolveTransform_fields scene d _).1]
  exact ((resolveSmoothNormals_fields lib _).2.1).trans
    (resolveAttributes_refineLevel scene d (Frame.start st api.next))

/-! ## The instancer without transforms -/

theorem released_of_isCreateMesh (calls : List Call) (h : ∀ c ∈ calls, c.isCreateMesh = true) :
    released calls = [] := by
  induction calls with
  | nil => rfl
  | cons c cs ih =>
    have hc := h c (by simp)
    have := ih (fun x hx => h x (by simp [hx]))
    cases c <;> simp_all [released, Call.released, Call.isCreateMesh]

theorem kind_of_quiet (c : Call) (h : c.touchesHandles = false) :
    c.kind ≠ CallKind.createMeshInstance := by
  cases c <;> simp_all [Call.touchesHandles, Call.kind]

/-- Lines 407-535 when the instancer is processed and reports no transform. -/
theorem updateRprMeshes_reset (lib : Lib) (scene : Scene) (d : DirtyBits) (g : Frame)
    (hproc : (g.newMesh || d.instancer) = true) (hinst : scene.instancer = some [])
    (hL : g.st.m_rprMeshInstances = [] ∨
      g.st.m_rprMeshInstances.length = g.st.m_rprMeshes.length) :
    (updateRprMeshes lib scene d g).st.m_rprMeshInstances = [] ∧
      (updateRprMeshes lib scene d g).st.m_rprMeshes = g.st.m_rprMeshes ∧
      (updateRprMeshes lib scene d g).st.visible = g.st.visible ∧
      ∃ extra, (updateRprMeshes lib scene d g).calls = g.calls ++ extra ∧
        released extra = g.st.m_rprMeshInstances.flatten ∧
        (∀ c ∈ extra, c.kind ≠ CallKind.createMeshInstance) ∧
        ∀ m ∈ g.st.m_rprMeshes, Call.setMeshVisibility m g.st.visible ∈ extra := by
  unfold updateRprMeshes
  split
  · rename_i he
    rw [List.isEmpty_iff] at he
    have hnil : g.st.m_rprMeshInstances = [] := by
      rcases hL with h | h
      · exact h
      · rw [he] at h; exact List.length_eq_zero.mp h
    refine ⟨hnil, rfl, rfl, [], by simp, by rw [hnil]; rfl, by simp, ?_⟩
    intro m hm; rw [he] at hm; simp at hm
  · obtain ⟨q1, q2, _, e1, hc1, hq1⟩ := updatePhases_quiet lib scene d g
    have hnew : (updateMaterial lib scene d (updateVisibility d (updateRefineLevel
        (updateSubdivTags scene d g)))).newMesh = g.newMesh := by
      rw [updateMaterial_newMesh, updateVisibility_newMesh, updateRefineLevel_newMesh,
        updateSubdivTags_newMesh]
    have hvis : (updateMaterial lib scene d (updateVisibility d (updateRefineLevel
        (updateSubdivTags scene d g)))).st.visible = g.st.visible := by
      have hs := updateMaterial_sameCache lib scene d (updateVisibility d (updateRefineLevel
        (updateSubdivTags scene d g)))
      unfold SameCache at hs
      rw [hs, updateVisibility_st, updateRefineLevel_st, updateSubdivTags_st]
    have hproc2 : ((updateMaterial lib scene d (updateVisibility d (updateRefineLevel
        (updateSubdivTags scene d g)))).newMesh || d.instancer) = true := by
      rw [hnew]; exact hproc
    generalize updateMaterial lib scene d (updateVisibility d (updateRefineLevel
        (updateSubdivTags scene d g))) = P at q1 q2 hc1 hnew hvis hproc2 ⊢
    rw [updateInstancer_empty lib scene d P hproc2 hinst]
    obtain ⟨t1, t2, _, e3, hc3, hq3⟩ := updateTransforms_quiet
      { P with st := { P.st with m_rprMeshInstances := [] },
               calls := P.calls ++ P.st.m_rprMeshInstances.flatten.map Call.release ++
                 P.st.m_rprMeshes.map fun mesh => Call.setMeshVisibility mesh P.st.visible }
    refine ⟨by rw [updateTransforms_st], by rw [updateTransforms_st]; exact q1, ?_,
      e1 ++ (g.st.m_rprMeshInstances.flatten.map Call.release ++
      (g.st.m_rprMeshes.map fun mesh => Call.setMeshVisibility mesh g.st.visible)) ++ e3,
      ?_, ?_, ?_, ?_⟩
    · rw [updateTransforms_st]
      exact hvis
    · rw [hc3]
      dsimp only
      rw [q1, q2, hvis, hc1]
      simp only [List.append_assoc]
    · rw [released_append, released_append, released_append, released_of_quiet e1 hq1,
        released_of_quiet e3 hq3, released_map_release]
      have : released (g.st.m_rprMeshes.map fun mesh =>
          Call.setMeshVisibility mesh g.st.visible) = [] := by
        apply released_of_quiet
        intro c hc
        obtain ⟨x, _, rfl⟩ := List.mem_map.mp hc
        rfl
      rw [this]; simp
    · intro c hc
      simp only [List.mem_append] at hc
      rcases hc with (h | h | h) | h
      · exact kind_of_quiet c (hq1 c h)
      · obtain ⟨x, _, rfl⟩ := List.mem_map.mp h; simp [Call.kind]
      · obtain ⟨x, _, rfl⟩ := List.mem_map.mp h; simp [Call.kind]
      · exact kind_of_quiet c (hq3 c h)
    · intro m hm
      simp only [List.mem_append]
      left; right; right
      exact List.mem_map.mpr ⟨m, hm, rfl⟩

theorem runSyncs_append (lib : Lib) (a b : List SyncInput) (s : MeshState × Api) :
    runSyncs lib (a ++ b) s = (runSyncs lib a s).bind (runSyncs lib b) := by
  induction a generalizing s with
  | nil => rfl
  | cons i rest ih =>
    simp only [List.cons_append, runSyncs]
    cases Sync lib i.scene i.dirtyBits s.1 s.2 with
    | none => rfl
    | some s1 => exact ih s1

/-- A defined `Sync` leads from a reachable state to a reachable state. -/
theorem reachable_sync (lib : Lib) (s r : MeshState × Api) (scene : Scene) (d : DirtyBits)
    (hs : Reachable lib s) (h : Sync lib scene d s.1 s.2 = some r) : Reachable lib r := by
  obtain ⟨id, inputs, hr⟩ := hs
  refine ⟨id, inputs ++ [{ scene := scene, dirtyBits := d }], ?_⟩
  rw [runSyncs_append, hr]
  simp only [Option.some_bind, runSyncs, h]

/-! ## Subsets and renderer meshes after a rebuild -/

/-- The loop of lines 357-403: what survives, and which calls it makes. -/
theorem createSubsetMeshes_kept (st : MeshState) (ok : Nat → Bool) (subs : List HdGeomSubset)
    (next : Nat) (kept : List HdGeomSubset) (meshes : List Handle) (next1 : Nat)
    (calls : List Call)
    (h : createSubsetMeshes st ok subs next = some (kept, meshes, next1, calls)) :
    kept.Sublist subs ∧
      calls.countP Call.createdMesh = meshes.length ∧
      List.Forall₂ (fun sub m => ∃ args, subsetMeshArgs st sub = some args ∧
        Call.createMesh args (some m) ∈ calls) kept meshes ∧
      List.Forall₂ (fun sub c => ∃ args res, subsetMeshArgs st sub = some args ∧
        c = Call.createMesh args res) (faceSets subs) calls ∧
      ((∀ n, ok n = true) → (∀ s ∈ subs, s.type = SubsetType.TypeFaceSet) → kept = subs) := by
  induction subs generalizing next kept meshes next1 calls with
  | nil =>
    simp only [createSubsetMeshes, Option.some.injEq, Prod.mk.injEq] at h
    obtain ⟨rfl, rfl, _, rfl⟩ := h
    exact ⟨List.Sublist.refl _, rfl, List.Forall₂.nil, List.Forall₂.nil, fun _ _ => rfl⟩
  | cons s rest ih =>
    rw [createSubsetMeshes] at h
    split at h
    · rename_i hty
      obtain ⟨i1, i2, i3, i4, i5⟩ := ih next kept meshes next1 calls h
      refine ⟨i1.cons _, i2, i3, ?_, ?_⟩
      · have : faceSets (s :: rest) = faceSets rest := by
          unfold faceSets
          rw [List.filter_cons_of_neg]
          simpa using hty
        rw [this]; exact i4
      · intro _ hall
        exact absurd (hall s (by simp)) hty
    · rename_i hty
      have hty2 : s.type = SubsetType.TypeFaceSet := by simpa using hty
      have hfs : faceSets (s :: rest) = s :: faceSets rest := by
        unfold faceSets
        rw [List.filter_cons_of_pos]
        simpa using hty2
      split at h
      · cases h
      · rename_i args hargs
        split at h
        · cases h
        · rename_i kept0 meshes0 next0 calls0 hrec
          obtain ⟨i1, i2, i3, i4, i5⟩ := ih (next + 1) kept0 meshes0 next0 calls0 hrec
          split at h
          · rename_i hok
            simp only [Option.some.injEq, Prod.mk.injEq] at h
            obtain ⟨rfl, rfl, rfl, rfl⟩ := h
            refine ⟨i1.cons₂ _, ?_, ?_, ?_, ?_⟩
            · rw [List.countP_cons_of_pos _ _ (by rfl), i2]; rfl
            · refine List.Forall₂.cons ⟨args, hargs, by simp⟩ ?_
              exact i3.imp (fun a b ⟨x, hx1, hx2⟩ => ⟨x, hx1, List.mem_cons_of_mem _ hx2⟩)
            · rw [hfs]
              exact List.Forall₂.cons ⟨args, _, hargs, rfl⟩ i4
            · intro hall hfa
              rw [i5 hall (fun x hx => hfa x (List.mem_cons_of_mem _ hx))]
          · rename_i hok
            simp only [Option.some.injEq, Prod.mk.injEq] at h
            obtain ⟨rfl, rfl, rfl, rfl⟩ := h
            refine ⟨i1.cons _, ?_, ?_, ?_, ?_⟩
            · rw [List.countP_cons_of_neg _ _ (by simp [Call.createdMesh]), i2]
            · exact i3.imp (fun a b ⟨x, hx1, hx2⟩ => ⟨x, hx1, List.mem_cons_of_mem _ hx2⟩)
            · rw [hfs]
              exact List.Forall₂.cons ⟨args, _, hargs, rfl⟩ i4
            · intro hall _
              exact absurd (hall next) hok

/-- Lines 300-405 when a rebuild is asked for. -/
theorem createRprMeshes_rebuild (scene : Scene) (f g : Frame)
    (h : createRprMeshes scene f = some g) (hn : f.newMesh = true) :
    g.st.m_rprMeshInstances = [] ∧
    ((f.st.m_topology.geomSubsets = [] ∧ g.st.m_geomSubsets = [] ∧
        g.st.m_rprMeshes = (if scene.createMeshOk f.next = true then [f.next] else []) ∧
        g.calls = f.calls ++ releaseAll f.st ++
          [Call.createMesh (wholeMeshArgs f.st)
            (if scene.createMeshOk f.next = true then some f.next else none)]) ∨
      (f.st.m_topology.geomSubsets ≠ [] ∧
        ∃ creates, createSubsetMeshes f.st scene.createMeshOk
            (appendUnusedSubset f.st f.st.m_topology.geomSubsets) f.next =
              some (g.st.m_geomSubsets, g.st.m_rprMeshes, g.next, creates) ∧
          g.calls = f.calls ++ releaseAll f.st ++ creates)) := by
  unfold createRprMeshes at h
  rw [if_pos hn] at h
  split at h
  · rename_i he
    rw [List.isEmpty_iff] at he
    simp only [Option.some.injEq] at h
    subst h
    exact ⟨rfl, Or.inl ⟨he, rfl, rfl, rfl⟩⟩
  · rename_i he
    have hne : f.st.m_topology.geomSubsets ≠ [] := by
      intro h0; rw [h0] at he; simp at he
    split at h
    · cases h
    · rename_i kept meshes next1 calls hrec
      simp only [Option.some.injEq] at h
      subst h
      exact ⟨rfl, Or.inr ⟨hne, calls, hrec, rfl⟩⟩

theorem updateRprMeshes_geomSubsets (lib : Lib) (scene : Scene) (d : DirtyBits) (f : Frame) :
    (updateRprMeshes lib scene d f).st.m_geomSubsets = f.st.m_geomSubsets := by
  have a4 : ∀ g : Frame, (updateMaterial lib scene d g).st.m_geomSubsets =
      g.st.m_geomSubsets := by
    intro g; unfold updateMaterial; split
    · split
      · rfl
      · split <;> rfl
    · rfl
  have a5 : ∀ g : Frame, (updateInstancer lib scene d g).st.m_geomSubsets =
      g.st.m_geomSubsets := by
    intro g; unfold updateInstancer; split
    · split
      · rfl
      · split <;> rfl
    · rfl
  unfold updateRprMeshes
  split
  · rfl
  · rw [updateTransforms_st, a5, a4, updateVisibility_st, updateRefineLevel_st,
      updateSubdivTags_st]

theorem countP_createdMesh_zero (l : List Call) (h : ∀ c ∈ l, c.isCreateMesh = false) :
    l.countP Call.createdMesh = 0 := by
  rw [List.countP_eq_zero]
  intro c hc
  have := h c hc
  cases c <;> simp_all [Call.isCreateMesh, Call.createdMesh]

theorem countP_createdMesh_releaseAll (st : MeshState) :
    (releaseAll st).countP Call.createdMesh = 0 := by
  apply countP_createdMesh_zero
  intro c hc
  unfold releaseAll at hc
  rcases List.mem_append.mp hc with h | h
  · obtain ⟨x, _, rfl⟩ := List.mem_map.mp h; rfl
  · obtain ⟨x, _, rfl⟩ := List.mem_map.mp h; rfl

theorem appendUnusedSubset_sameCache (a b : MeshState) (h : SameCache a b)
    (subs : List HdGeomSubset) : appendUnusedSubset b subs = appendUnusedSubset a subs := by
  unfold SameCache at h
  rw [h]
  rfl

theorem appendUnusedSubset_faceSets (st : MeshState) (subs : List HdGeomSubset)
    (h : ∀ s ∈ subs, s.type = SubsetType.TypeFaceSet) :
    ∀ s ∈ appendUnusedSubset st subs, s.type = SubsetType.TypeFaceSet := by
  unfold appendUnusedSubset
  dsimp only
  split
  · intro s hs
    rcases List.mem_append.mp hs with h1 | h1
    · exact h s h1
    · rw [List.mem_singleton] at h1; subst h1; rfl
  · exact h

theorem appendUnusedSubset_ne_nil (st : MeshState) (subs : List HdGeomSubset)
    (h : subs ≠ []) : appendUnusedSubset st subs ≠ [] := by
  unfold appendUnusedSubset
  dsimp only
  split
  · simp
  · exact h

theorem subsetMeshArgs_congr (a b : MeshState) (h : b.geometry = a.geometry) :
    subsetMeshArgs b = subsetMeshArgs a := by
  simp only [MeshState.geometry, Prod.mk.injEq] at h
  obtain ⟨h1, h2, h3, h4, h5, h6, h7, h8⟩ := h
  have hc : pushCorner b = pushCorner a := by
    funext o acc i
    unfold pushCorner
    rw [h1, h4, h5, h6, h7, h8]
  have hf : pushFace b = pushFace a := by
    funext ps acc fi
    unfold pushFace
    rw [h3, hc]
  funext s
  unfold subsetMeshArgs buildSubsetArrays
  rw [hf, h3, h2]

theorem sameCache_geometry {a b : MeshState} (h : SameCache a b) : b.geometry = a.geometry := by
  unfold SameCache at h
  rw [h]
  rfl

theorem corr_step {a b : MeshState} {log log2 : List Call} (h : Corr a log)
    (hg : b.geometry = a.geometry) (hm : b.m_rprMeshes = a.m_rprMeshes)
    (hs : b.m_geomSubsets = a.m_geomSubsets) (hl : ∀ c ∈ log, c ∈ log2) : Corr b log2 := by
  intro h1 h2
  rw [hm] at h1 ⊢
  rw [hs] at h2 ⊢
  refine (h h1 h2).imp ?_
  intro sub m ⟨args, ha, hc⟩
  exact ⟨args, by rw [subsetMeshArgs_congr a b hg]; exact ha, hl _ hc⟩

/-- Phases 1 and 2 change the cached mesh data only when they ask for a
rebuild. -/
theorem resolve_geometry (lib : Lib) (scene : Scene) (d : DirtyBits) (f : Frame)
    (h : (resolve lib scene d f).newMesh = false) :
    f.newMesh = false ∧ (resolve lib scene d f).st.geometry = f.st.geometry := by
  have a1 : ∀ g : Frame, (pullPoints scene d (pullComputedPoints scene d g)).newMesh = false →
      g.newMesh = false ∧
        (pullPoints scene d (pullComputedPoints scene d g)).st.geometry = g.st.geometry := by
    intro g; rw [pullPoints_spec]; split
    · intro h; cases h
    · intro h; exact ⟨h, rfl⟩
  have a3 : ∀ g : Frame, (pullTopology scene d g).newMesh = false →
      g.newMesh = false ∧ (pullTopology scene d g).st.geometry = g.st.geometry := by
    intro g; unfold pullTopology; split
    · intro h; cases h
    · intro h; exact ⟨h, rfl⟩
  have a4 : ∀ g : Frame, (pullNormals scene d g).newMesh = false →
      g.newMesh = false ∧ (pullNormals scene d g).st.geometry = g.st.geometry := by
    intro g; unfold pullNormals; split
    · intro h; cases h
    · intro h; exact ⟨h, rfl⟩
  have a5 : ∀ g : Frame, (pullUvs scene d g).newMesh = false →
      g.newMesh = false ∧ (pullUvs scene d g).st.geometry = g.st.geometry := by
    intro g; unfold pullUvs; split
    · intro h; cases h
    · intro h; exact ⟨h, rfl⟩
  have a6 : ∀ g : Frame, (pullFlags scene d g).newMesh = false →
      g.newMesh = false ∧ (pullFlags scene d g).st.geometry = g.st.geometry := by
    intro g; unfold pullFlags
    cases d.materialId <;> cases d.visibility <;> cases d.doubleSided <;>
      exact fun h => ⟨h, rfl⟩
  have a7 : ∀ g : Frame, (resolveDisplayStyle scene d g).newMesh = false →
      g.newMesh = false ∧ (resolveDisplayStyle scene d g).st.geometry = g.st.geometry := by
    intro g; unfold resolveDisplayStyle; split
    · split <;> exact fun h => ⟨h, rfl⟩
    · exact fun h => ⟨h, rfl⟩
  have a8 : ∀ g : Frame, (resolveSubdivisionLevel scene d g).newMesh = false →
      g.newMesh = false ∧ (resolveSubdivisionLevel scene d g).st.geometry = g.st.geometry := by
    intro g; unfold resolveSubdivisionLevel; split
    · split
      · split <;> exact fun h => ⟨h, rfl⟩
      · exact fun h => ⟨h, rfl⟩
    · exact fun h => ⟨h, rfl⟩
  have a9 : ∀ g : Frame, (resolveSmoothNormals lib g).newMesh = false →
      g.newMesh = false ∧ (resolveSmoothNormals lib g).st.geometry = g.st.geometry := by
    intro g hn
    rw [resolveSmoothNormals_newMesh] at hn
    have hn1 : g.newMesh = false := by
      cases hg : g.newMesh
      · rfl
      · rw [hg] at hn; simp at hn
    have hn2 : synthesizes g = false := by
      rw [hn1] at hn; simpa using hn
    refine ⟨hn1, ?_⟩
    obtain ⟨_, _, _, _, f5, f6, f7, _⟩ := resolveSmoothNormals_fields lib g
    have f8 := (resolveSmoothNormals_valid lib g).2.2.2 hn2
    have f9 : (resolveSmoothNormals lib g).st.m_faceVertexCounts = g.st.m_faceVertexCounts ∧
        (resolveSmoothNormals lib g).st.m_faceVertexIndices = g.st.m_faceVertexIndices ∧
        (resolveSmoothNormals lib g).st.m_uvs = g.st.m_uvs ∧
        (resolveSmoothNormals lib g).st.m_uvIndices = g.st.m_uvIndices := by
      unfold resolveSmoothNormals computeNormals buildAdjacency
      dsimp only
      split
      · split <;> split <;> simp
      · simp
    unfold MeshState.geometry
    rw [f5, f6, f7, f8, f9.1, f9.2.1, f9.2.2.1, f9.2.2.2]
  have a10 : ∀ g : Frame, (resolveTransform scene d g).newMesh = false →
      g.newMesh = false ∧ (resolveTransform scene d g).st.geometry = g.st.geometry := by
    intro g; unfold resolveTransform; split <;> exact fun h => ⟨h, rfl⟩
  unfold resolve at h ⊢
  obtain ⟨b10, c10⟩ := a10 _ h
  obtain ⟨b9, c9⟩ := a9 _ b10
  obtain ⟨b8, c8⟩ := a8 _ b9
  obtain ⟨b7, c7⟩ := a7 _ b8
  obtain ⟨b6, c6⟩ := a6 _ b7
  obtain ⟨b5, c5⟩ := a5 _ b6
  obtain ⟨b4, c4⟩ := a4 _ b5
  obtain ⟨b3, c3⟩ := a3 _ b4
  obtain ⟨b1, c1⟩ := a1 _ b3
  exact ⟨b1, by rw [c10, c9, c8, c7, c6, c5, c4, c3, c1]⟩

/-- The correspondence after phases 1 to 3 of a `Sync`. -/
theorem createRprMeshes_corr (lib : Lib) (scene : Scene) (d : DirtyBits) (st : MeshState)
    (next : Nat) (log : List Call) (g : Frame) (hc : Corr st log)
    (hg : createRprMeshes scene (resolve lib scene d (Frame.start st next)) = some g) :
    Corr g.st (log ++ g.calls) := by
  have hb := resolve_backend lib scene d (Frame.start st next)
  cases hn : (resolve lib scene d (Frame.start st next)).newMesh
  · rw [createRprMeshes_of_not_newMesh scene _ hn] at hg
    simp only [Option.some.injEq] at hg
    subst hg
    refine corr_step hc (resolve_geometry lib scene d _ hn).2 (congrArg (fun x => x.1) hb)
      (congrArg (fun x => x.2.2.1) hb) ?_
    intro c hc; exact List.mem_append_left _ hc
  · obtain ⟨_, hcase⟩ := createRprMeshes_rebuild scene _ g hg hn
    rcases hcase with ⟨_, c2, _, _⟩ | ⟨_, creates, c2, c3⟩
    · intro _ h2
      exact absurd c2 h2
    · obtain ⟨_, _, k3, _, _⟩ := createSubsetMeshes_kept _ _ _ _ _ _ _ _ c2
      intro _ _
      refine k3.imp ?_
      intro sub m ⟨args, ha, hm⟩
      refine ⟨args, ?_, ?_⟩
      · rw [subsetMeshArgs_congr _ _ (sameCache_geometry (createRprMeshes_sameCache _ _ _ hg))]
        exact ha
      · rw [c3]
        exact List.mem_append_right _ (List.mem_append_right _ hm)

theorem sync_corr (lib : Lib) (scene : Scene) (d : DirtyBits) (st : MeshState) (api : Api)
    (r : MeshState × Api) (hc : Corr st api.log) (h : Sync lib scene d st api = some r) :
    Corr r.1 r.2.log := by
  obtain ⟨g, hg, rfl⟩ := sync_eq_some lib scene d st api r h
  have h1 := createRprMeshes_corr lib scene d st api.next api.log g hc hg
  obtain ⟨hmk, extra, hcalls, _⟩ := updateRprMeshes_meshKeeping lib scene d g
  refine corr_step h1 (sameCache_geometry (updateRprMeshes_sameCache lib scene d g)) hmk
    (updateRprMeshes_geomSubsets lib scene d g) ?_
  intro c hc
  dsimp only
  rw [hcalls]
  rcases List.mem_append.mp hc with h | h
  · exact List.mem_append_left _ h
  · exact List.mem_append_right _ (List.mem_append_left _ h)

theorem corr_init (id : SdfPath) : Corr (MeshState.init id) Api.init.log := by
  intro h; exact absurd rfl h

theorem finalize_corr (st : MeshState) (api : Api) :
    Corr (Finalize st api).1 (Finalize st api).2.log := by
  intro h; exact absurd rfl h

theorem runOps_corr (lib : Lib) (ops : List Op) (s r : MeshState × Api)
    (hs : Corr s.1 s.2.log) (h : runOps lib ops s = some r) : Corr r.1 r.2.log := by
  induction ops generalizing s with
  | nil => simp only [runOps, Option.some.injEq] at h; subst h; exact hs
  | cons op rest ih =>
    cases op with
    | sync i =>
      simp only [runOps] at h
      split at h
      · cases h
      · rename_i s1 hs1
        exact ih s1 (sync_corr _ _ _ _ _ _ hs hs1) h
    | finalize =>
      simp only [runOps] at h
      exact ih _ (finalize_corr s.1 s.2) h

theorem beforeMaterial_st (scene : Scene) (d : DirtyBits) (g : Frame) :
    (beforeMaterial scene d g).st = g.st := by
  unfold beforeMaterial
  rw [updateVisibility_st, updateRefineLevel_st, updateSubdivTags_st]

theorem beforeMaterial_calls (scene : Scene) (d : DirtyBits) (g : Frame) :
    ∀ c ∈ g.calls, c ∈ (beforeMaterial scene d g).calls := by
  intro c hc
  unfold beforeMaterial
  exact callsStep_mem (updateVisibility_kinds d _)
    c (callsStep_mem ⟨_, updateRefineLevel_calls _, fun _ _ => trivial⟩ c
      (callsStep_mem (updateSubdivTags_kinds scene d g) c hc))

/-! ## When smooth normals are computed -/

theorem synthesizes_eq (f : Frame) :
    synthesizes f = (wantsSmoothNormals f.st && !normalsCurrent f.st) := rfl

/-- One `Sync` and the smooth normals: computed at most once; valid after
being computed; neither computed nor invalidated when they were valid and
neither points nor topology are dirty. -/
theorem syncFrame_synthesis (lib : Lib) (scene : Scene) (d : DirtyBits) (st : MeshState)
    (next : Nat) (g : Frame) (h : syncFrame lib scene d st next = some g) :
    g.events.count Event.computeSmoothNormals ≤ 1 ∧
      (Event.computeSmoothNormals ∈ g.events → normalsCurrent g.st = true) ∧
      (normalsCurrent st = true → d.points = false → d.topology = false →
        Event.computeSmoothNormals ∉ g.events ∧ normalsCurrent g.st = true) := by
  obtain ⟨h1, h2⟩ := syncFrame_resolved lib scene d st next g h
  obtain ⟨e1, _, _, e4⟩ := resolve_events_mem lib scene d st next
  obtain ⟨_, r2, r3, _⟩ := resolve_points lib scene d (Frame.start st next)
  obtain ⟨_, _, _, a4, a5⟩ := resolveAttributes_spec scene d (Frame.start st next)
  have hcur : normalsCurrent g.st =
      ((wantsSmoothNormals (resolveAttributes scene d (Frame.start st next)).st ||
          (resolveAttributes scene d (Frame.start st next)).st.m_adjacencyValid) &&
        (wantsSmoothNormals (resolveAttributes scene d (Frame.start st next)).st ||
          (resolveAttributes scene d (Frame.start st next)).st.m_normalsValid)) := by
    unfold SameCache at h2
    rw [h2]
    unfold normalsCurrent
    dsimp only
    rw [r2, r3]
  rw [h1]
  refine ⟨e4, ?_, ?_⟩
  · intro hc
    have hs := e1.mp hc
    rw [synthesizes_eq] at hs
    rw [hcur]
    cases hw : wantsSmoothNormals (resolveAttributes scene d (Frame.start st next)).st
    · rw [hw] at hs; simp at hs
    · simp
  · intro hv hp ht
    have hv2 : st.m_adjacencyValid = true ∧ st.m_normalsValid = true := by
      unfold normalsCurrent at hv
      simpa using hv
    have b4 : (resolveAttributes scene d (Frame.start st next)).st.m_normalsValid = true := by
      rw [a4, hp, ht]
      simp [Frame.start, hv2.2]
    have b5 : (resolveAttributes scene d (Frame.start st next)).st.m_adjacencyValid = true := by
      rw [a5, ht]
      simp [Frame.start, hv2.1]
    constructor
    · rw [e1, synthesizes_eq]
      unfold normalsCurrent
      rw [b4, b5]
      simp
    · rw [hcur, b4, b5]
      simp

theorem normalsInv_init (id : SdfPath) : NormalsInv (MeshState.init id) := fun _ => rfl

theorem sameCache_normalsInv {a b : MeshState} (h : SameCache a b) (hi : NormalsInv a) :
    NormalsInv b := by
  unfold SameCache at h
  rw [h]
  exact hi

theorem resolve_normalsInv (lib : Lib) (scene : Scene) (d : DirtyBits) (f : Frame)
    (h : NormalsInv f.st) : NormalsInv (resolve lib scene d f).st := by
  have a1 : NormalsInv (pullComputedPoints scene d f).1.st := by
    unfold pullComputedPoints; split
    · split <;> exact h
    · exact h
  have a2 : NormalsInv (pullPoints scene d (pullComputedPoints scene d f)).st := by
    unfold pullPoints; split <;> exact a1
  have a3 : ∀ g : Frame, NormalsInv g.st → NormalsInv (pullTopology scene d g).st := by
    intro g hg; unfold pullTopology; split <;> exact hg
  have a4 : ∀ g : Frame, NormalsInv g.st → NormalsInv (pullNormals scene d g).st := by
    intro g hg; unfold pullNormals; split
    · unfold GetPrimvarData NormalsInv
      dsimp only
      split
      · intro _; rfl
      · split
        · intro _; rfl
        · intro hf; cases hf
    · exact hg
  have a5 : ∀ g : Frame, NormalsInv g.st → NormalsInv (pullUvs scene d g).st := by
    intro g hg; unfold pullUvs; split <;> exact hg
  have a6 : ∀ g : Frame, NormalsInv g.st → NormalsInv (pullFlags scene d g).st := by
    intro g hg; unfold pullFlags; dsimp only
    split <;> split <;> split <;> exact hg
  have a7 : ∀ g : Frame, NormalsInv g.st → NormalsInv (resolveDisplayStyle scene d g).st := by
    intro g hg; unfold resolveDisplayStyle; split
    · split <;> exact hg
    · exact hg
  have a8 : ∀ g : Frame, NormalsInv g.st → NormalsInv (resolveSubdivisionLevel scene d g).st := by
    intro g hg; unfold resolveSubdivisionLevel; split
    · split
      · split <;> exact hg
      · exact hg
    · exact hg
  have a9 : ∀ g : Frame, NormalsInv g.st → NormalsInv (resolveSmoothNormals lib g).st := by
    intro g hg; unfold resolveSmoothNormals computeNormals buildAdjacency; dsimp only
    split
    · split <;> split <;> exact hg
    · exact hg
  have a10 : ∀ g : Frame, NormalsInv g.st → NormalsInv (resolveTransform scene d g).st := by
    intro g hg; unfold resolveTransform; split <;> exact hg
  unfold resolve
  exact a10 _ (a9 _ (a8 _ (a7 _ (a6 _ (a5 _ (a4 _ (a3 _ a2)))))))

theorem sync_normalsInv (lib : Lib) (scene : Scene) (d : DirtyBits) (st : MeshState) (api : Api)
    (r : MeshState × Api) (hi : NormalsInv st) (h : Sync lib scene d st api = some r) :
    NormalsInv r.1 := by
  obtain ⟨g, hg, rfl⟩ := sync_eq_some lib scene d st api r h
  exact sameCache_normalsInv (updateRprMeshes_sameCache _ _ _ _)
    (sameCache_normalsInv (createRprMeshes_sameCache _ _ _ hg) (resolve_normalsInv _ _ _ _ hi))

theorem runSyncs_normalsInv (lib : Lib) (inputs : List SyncInput) (s r : MeshState × Api)
    (hs : NormalsInv s.1) (h : runSyncs lib inputs s = some r) : NormalsInv r.1 := by
  induction inputs generalizing s with
  | nil => simp only [runSyncs, Option.some.injEq] at h; subst h; exact hs
  | cons i rest ih =>
    simp only [runSyncs] at h
    split at h
    · cases h
    · rename_i s1 hs1
      exact ih s1 (sync_normalsInv _ _ _ _ _ _ hs hs1) h

/-- A `Sync` that computes smooth normals stores them as the normals, without
normal indices, and rebuilds. -/
theorem syncFrame_stored (lib : Lib) (scene : Scene) (d : DirtyBits) (st : MeshState)
    (next : Nat) (g : Frame) (hi : NormalsInv st) (h : syncFrame lib scene d st next = some g)
    (hc : Event.computeSmoothNormals ∈ g.events) :
    g.st.m_normals = lib.ComputeSmoothNormals g.st.m_adjacency g.st.m_points.length
        g.st.m_points ∧
      g.st.m_normalIndices = [] ∧ g.st.m_authoredNormals = false ∧
      (resolve lib scene d (Frame.start st next)).newMesh = true ∧
      releaseAll st <+: g.calls := by
  obtain ⟨h1, h2⟩ := syncFrame_resolved lib scene d st next g h
  rw [h1] at hc
  have hs := (resolve_events_mem lib scene d st next).1.mp hc
  have hnew : (resolve lib scene d (Frame.start st next)).newMesh = true := by
    rw [(resolve_points lib scene d (Frame.start st next)).2.2.2, hs]
    simp
  have hinv := resolve_normalsInv lib scene d (Frame.start st next) hi
  have hauthA : (resolveAttributes scene d (Frame.start st next)).st.m_authoredNormals = false := by
    unfold synthesizes at hs
    cases ha : (resolveAttributes scene d (Frame.start st next)).st.m_authoredNormals
    · rfl
    · rw [ha] at hs; simp at hs
  obtain ⟨_, _, f3, _, f5, _, _, _⟩ :=
    resolveSmoothNormals_fields lib (resolveAttributes scene d (Frame.start st next))
  have hn := (resolveSmoothNormals_valid lib
    (resolveAttributes scene d (Frame.start st next))).2.2.1 hs
  obtain ⟨t1, _⟩ := resolveTransform_fields scene d
    (resolveSmoothNormals lib (resolveAttributes scene d (Frame.start st next)))
  have hauthR : (resolve lib scene d (Frame.start st next)).st.m_authoredNormals = false := by
    rw [resolve_eq, t1]; exact f3.trans hauthA
  have hnR : (resolve lib scene d (Frame.start st next)).st.m_normals =
      lib.ComputeSmoothNormals (resolve lib scene d (Frame.start st next)).st.m_adjacency
        (resolve lib scene d (Frame.start st next)).st.m_points.length
        (resolve lib scene d (Frame.start st next)).st.m_points := by
    rw [resolve_eq, t1]
    dsimp only
    rw [f5]
    exact hn
  unfold SameCache at h2
  refine ⟨?_, ?_, ?_, hnew, syncFrame_rebuild lib scene d st next g h hnew⟩
  · rw [h2]; exact hnR
  · rw [h2]; exact hinv hauthR
  · rw [h2]; exact hauthR

theorem sync_eq_result (lib : Lib) (scene : Scene) (d : DirtyBits) (st : MeshState) (api : Api) :
    Sync lib scene d st api = (syncFrame lib scene d st api.next).map fun f => f.result api :=
  rfl

/-- From a state with valid normals, a run computes smooth normals only at or
after a `Sync` with dirty points or topology. -/
theorem runEvents_quiet (lib : Lib) (inputs : List SyncInput) (s : MeshState × Api)
    (evs : List (List Event)) (hv : normalsCurrent s.1 = true)
    (h : runEvents lib inputs s = some evs) (j : Nat)
    (hj : Event.computeSmoothNormals ∈ evs.getD j []) :
    ∃ k, k ≤ j ∧ ∃ inp, inputs[k]? = some inp ∧
      (inp.dirtyBits.points = true ∨ inp.dirtyBits.topology = true) := by
  induction inputs generalizing s evs j with
  | nil =>
    simp only [runEvents, Option.some.injEq] at h
    subst h
    simp at hj
  | cons i rest ih =>
    simp only [runEvents] at h
    split at h
    · cases h
    · rename_i f hf
      split at h
      · cases h
      · rename_i evs1 hevs1
        simp only [Option.some.injEq] at h
        subst h
        obtain ⟨_, _, s3⟩ := syncFrame_synthesis lib i.scene i.dirtyBits s.1 s.2.next f hf
        by_cases hd : i.dirtyBits.points = true ∨ i.dirtyBits.topology = true
        · exact ⟨0, Nat.zero_le _, i, List.getElem?_cons_zero, hd⟩
        · have hp : i.dirtyBits.points = false := by
            cases hx : i.dirtyBits.points
            · rfl
            · exact absurd (Or.inl hx) hd
          have ht : i.dirtyBits.topology = false := by
            cases hx : i.dirtyBits.topology
            · rfl
            · exact absurd (Or.inr hx) hd
          obtain ⟨n1, n2⟩ := s3 hv hp ht
          cases j with
          | zero => exact absurd hj n1
          | succ j1 =>
            obtain ⟨k, hk, inp, hinp, hdirty⟩ := ih (f.result s.2) evs1 n2 hevs1 j1 hj
            exact ⟨k + 1, Nat.succ_le_succ hk, inp, List.getElem?_cons_succ.trans hinp, hdirty⟩

/-- Between two `Sync` calls of a run that compute smooth normals there is a
`Sync`, the later one included, with dirty points or topology. -/
theorem runEvents_between (lib : Lib) (inputs : List SyncInput) (s : MeshState × Api)
    (evs : List (List Event)) (h : runEvents lib inputs s = some evs) (i j : Nat) (hij : i < j)
    (hi : Event.computeSmoothNormals ∈ evs.getD i [])
    (hj : Event.computeSmoothNormals ∈ evs.getD j []) :
    ∃ k, i < k ∧ k ≤ j ∧ ∃ inp, inputs[k]? = some inp ∧
      (inp.dirtyBits.points = true ∨ inp.dirtyBits.topology = true) := by
  induction inputs generalizing s evs i j with
  | nil =>
    simp only [runEvents, Option.some.injEq] at h
    subst h
    simp at hj
  | cons x rest ih =>
    simp only [runEvents] at h
    split at h
    · cases h
    · rename_i f hf
      split at h
      · cases h
      · rename_i evs1 hevs1
        simp only [Option.some.injEq] at h
        subst h
        cases j with
        | zero => exact absurd hij (Nat.not_lt_zero _)
        | succ j1 =>
          cases i with
          | zero =>
            obtain ⟨_, s2, _⟩ := syncFrame_synthesis lib x.scene x.dirtyBits s.1 s.2.next f hf
            obtain ⟨k, hk, inp, hinp, hdirty⟩ :=
              runEvents_quiet lib rest (f.result s.2) evs1 (s2 hi) hevs1 j1 hj
            exact ⟨k + 1, Nat.succ_pos _, Nat.succ_le_succ hk, inp,
              List.getElem?_cons_succ.trans hinp, hdirty⟩
          | succ i1 =>
            obtain ⟨k, hk1, hk2, inp, hinp, hdirty⟩ :=
              ih (f.result s.2) evs1 hevs1 i1 j1 (Nat.lt_of_succ_lt_succ hij) hi hj
            exact ⟨k + 1, Nat.succ_lt_succ hk1, Nat.succ_le_succ hk2, inp,
              List.getElem?_cons_succ.trans hinp, hdirty⟩

/-- The events of a run are, `Sync` by `Sync`, those of the frames. -/
theorem runEvents_spec (lib : Lib) (inputs : List SyncInput) (s : MeshState × Api)
    (evs : List (List Event)) (h : runEvents lib inputs s = some evs) :
    evs.length = inputs.length ∧
      (∀ e ∈ evs, e.count Event.computeSmoothNormals ≤ 1) ∧
      ∀ k sk inp, runSyncs lib (inputs.take k) s = some sk → inputs[k]? = some inp →
        (syncFrame lib inp.scene inp.dirtyBits sk.1 sk.2.next).map Frame.events =
          some (evs.getD k []) := by
  induction inputs generalizing s evs with
  | nil =>
    simp only [runEvents, Option.some.injEq] at h
    subst h
    refine ⟨rfl, by simp, ?_⟩
    intro k sk inp _ hk
    simp at hk
  | cons x rest ih =>
    simp only [runEvents] at h
    split at h
    · cases h
    · rename_i f hf
      split at h
      · cases h
      · rename_i evs1 hevs1
        simp only [Option.some.injEq] at h
        subst h
        obtain ⟨i1, i2, i3⟩ := ih (f.result s.2) evs1 hevs1
        refine ⟨by simp [i1], ?_, ?_⟩
        · intro e he
          rcases List.mem_cons.mp he with rfl | he
          · exact (syncFrame_synthesis lib x.scene x.dirtyBits s.1 s.2.next f hf).1
          · exact i2 e he
        · intro k sk inp hrun hk
          cases k with
          | zero =>
            simp only [List.take_zero, runSyncs, Option.some.injEq] at hrun
            subst hrun
            simp only [List.getElem?_cons_zero, Option.some.injEq] at hk
            subst hk
            rw [hf]
            rfl
          | succ k1 =>
            simp only [List.take_succ_cons, runSyncs, sync_eq_result, hf, Option.map_some'] at hrun
            simp only [List.getElem?_cons_succ] at hk
            exact i3 k1 sk inp hrun hk

/-! ## The fallback material -/

/-- Lines 113-116 and 118-141 with the primvar bit dirty and a cached fallback
material: the cached material is released and a new one is created, at every
call. -/
theorem GetFallbackMaterial_dirty (lib : Lib) (scene : Scene) (d : DirtyBits) (m : Handle)
    (next : Nat) (hp : d.primvar = true) :
    GetFallbackMaterial lib scene d (some m) next =
      (some next, some next, next + 1,
        [Call.releaseMaterial (some m), Call.createMaterial (fallbackColor lib scene) next]) := by
  unfold GetFallbackMaterial
  simp [hp]

/-- Lines 113-141 with the primvar bit clean and a cached fallback material:
the cached material is returned and no call is made. -/
theorem GetFallbackMaterial_cached (lib : Lib) (scene : Scene) (d : DirtyBits) (m : Handle)
    (next : Nat) (hp : d.primvar = false) :
    GetFallbackMaterial lib scene d (some m) next = (some m, some m, next, []) := by
  unfold GetFallbackMaterial
  simp [hp]

/-! ## Syncs that compute no smooth normals -/

/-- Lines 161-270 ask for no rebuild when none of the points, topology,
normals and primvar bits is set. -/
theorem resolveAttributes_patch_only (scene : Scene) (d : DirtyBits) (st : MeshState)
    (next : Nat) (hp : d.points = false) (ht : d.topology = false) (hn : d.normals = false)
    (hv : d.primvar = false) :
    (resolveAttributes scene d (Frame.start st next)).newMesh = false := by
  have e1 : pullComputedPoints scene d (Frame.start st next) = (Frame.start st next, false) := by
    simp [pullComputedPoints, IsPrimvarDirty, hp]
  have e2 : pullPoints scene d (Frame.start st next, false) = Frame.start st next := by
    simp [pullPoints, IsPrimvarDirty, hp]
  have e3 : pullTopology scene d (Frame.start st next) = Frame.start st next := by
    simp [pullTopology, ht]
  have e4 : pullNormals scene d (Frame.start st next) = Frame.start st next := by
    simp [pullNormals, IsPrimvarDirty, hn]
  have e5 : pullUvs scene d (Frame.start st next) = Frame.start st next := by
    simp [pullUvs, IsPrimvarDirty, hv]
  have e6 : ∀ f : Frame, (pullFlags scene d f).newMesh = f.newMesh := by
    intro f; unfold pullFlags; rfl
  have e7 : ∀ f : Frame, (resolveDisplayStyle scene d f).newMesh = f.newMesh := by
    intro f; unfold resolveDisplayStyle; split
    · split <;> rfl
    · rfl
  have e8 : ∀ f, resolveSubdivisionLevel scene d f = f := by
    intro f; simp [resolveSubdivisionLevel, hv]
  unfold resolveAttributes
  rw [e1, e2, e3, e4, e5, e8, e7, e6]
  rfl

/-- A `Sync` with none of the points, topology, normals and primvar bits set
asks for a rebuild exactly when it computes smooth normals. -/
theorem resolve_without_synthesis (lib : Lib) (scene : Scene) (d : DirtyBits) (st : MeshState)
    (next : Nat) (hp : d.points = false) (ht : d.topology = false) (hn : d.normals = false)
    (hv : d.primvar = false)
    (hsyn : Event.computeSmoothNormals ∉ (resolve lib scene d (Frame.start st next)).events) :
    (resolve lib scene d (Frame.start st next)).newMesh = false := by
  rw [(resolve_points lib scene d (Frame.start st next)).2.2.2,
    resolveAttributes_patch_only scene d st next hp ht hn hv, Bool.false_or]
  rw [(resolve_events_mem lib scene d st next).1] at hsyn
  simpa using hsyn

/-- The state after authored normals arrived is reached from the initial
one. -/
theorem normalsAuthored_reachable : Reachable exampleLib normalsAuthored :=
  reachable_sync exampleLib flatSynced normalsAuthored authoredNormalsScene onlyNormals
    ⟨1, [{ scene := flatScene, dirtyBits := allDirty }], rfl⟩ rfl

/-! ## Claims on the subset splitter -/

/-- C1 (subset coverage). For a topology with `N` faces (`N` within the range
of the `int` face indices) and declared subsets whose face indices are in
range, duplicate-free and pairwise disjoint, the subset list after the
catch-all subset is synthesized has face lists whose lengths sum to `N`, no
face index occurs in two subsets, and none occurs twice in one. -/
theorem subset_coverage (st : MeshState) (subsets : List HdGeomSubset)
    (hN : st.m_faceVertexCounts.length < 2 ^ 31)
    (hrange : ∀ s ∈ subsets, ∀ i ∈ s.indices, 0 ≤ i ∧ i < st.m_faceVertexCounts.length)
    (hnodup : ∀ s ∈ subsets, s.indices.Nodup)
    (hdisj : subsets.Pairwise fun a b => a.indices.Disjoint b.indices) :
    ((appendUnusedSubset st subsets).map fun s => s.indices.length).sum
        = st.m_faceVertexCounts.length ∧
      ((appendUnusedSubset st subsets).Pairwise fun a b => a.indices.Disjoint b.indices) ∧
      ∀ s ∈ appendUnusedSubset st subsets, s.indices.Nodup := by
  rw [appendUnusedSubset_eq]
  set N := st.m_faceVertexCounts.length with hNdef
  set seen := subsets.flatMap HdGeomSubset.indices with hseen
  have hseen_range : ∀ i ∈ seen, 0 ≤ i ∧ i < (N : Int) := by
    intro i hi
    obtain ⟨s, hs, his⟩ := List.mem_flatMap.mp hi
    exact hrange s hs i his
  have hseen_nd : seen.Nodup := by
    rw [hseen, List.nodup_flatMap]
    exact ⟨hnodup, hdisj⟩
  have hlen := length_unusedFaces N seen hN hseen_range hseen_nd
  have hsum : (subsets.map fun s => s.indices.length).sum = seen.length := by
    rw [hseen, List.length_flatMap]
    rfl
  have hUdisj : ∀ s ∈ subsets, s.indices.Disjoint ((unusedFaces N seen).map toInt) := by
    intro s hs i his hiU
    obtain ⟨j, hj, rfl⟩ := List.mem_map.mp hiU
    have hjN := unusedFaces_lt _ _ _ hj
    have hj2 : ∀ i ∈ seen, toSizeT i ≠ j := by
      simpa [unusedFaces] using (List.mem_filter.mp hj).2
    rw [toInt_of_lt j (lt_trans hjN hN)] at his
    apply hj2 (j : Int) (List.mem_flatMap.mpr ⟨s, hs, his⟩)
    exact toSizeT_natCast j (by omega)
  have hUnd : ((unusedFaces N seen).map toInt).Nodup := by
    rw [unusedFaces_map_toInt N seen hN]
    exact (unusedFaces_nodup N seen).map Int.ofNat_injective
  split
  · refine ⟨?_, ?_, ?_⟩
    · simp only [List.map_append, List.sum_append, List.map_cons, List.map_nil, List.sum_cons,
        List.sum_nil, List.length_map, hsum]
      omega
    · rw [List.pairwise_append]
      refine ⟨hdisj, List.pairwise_singleton _ _, ?_⟩
      intro a ha b hb
      rw [List.mem_singleton] at hb
      subst hb
      exact hUdisj a ha
    · intro s hs
      rcases List.mem_append.mp hs with h | h
      · exact hnodup s h
      · rw [List.mem_singleton] at h
        subst h
        exact hUnd
  · rename_i hnil
    have hnil2 : unusedFaces N seen = [] := by simpa using hnil
    rw [hnil2] at hlen
    refine ⟨?_, hdisj, hnodup⟩
    rw [hsum]
    simpa using hlen


/-- C1, at the grid of four quads with the subset over faces 0 and 1. -/
theorem subset_coverage_witness :
    ((appendUnusedSubset quadMesh [subsetA]).map fun s => s.indices.length).sum = 4 ∧
      ((appendUnusedSubset quadMesh [subsetA]).Pairwise fun a b =>
        a.indices.Disjoint b.indices) ∧
      ∀ s ∈ appendUnusedSubset quadMesh [subsetA], s.indices.Nodup :=
  subset_coverage quadMesh [subsetA] (by decide) (by decide) (by decide)
    (List.pairwise_singleton _ _)

/-- C2 (re-indexing correctness). For a well-formed mesh and a subset whose
face indices are in range, both within the range of `int` (the `int` arrays
hold `int`s; the corners of the whole mesh and the corners of the subset,
which the code adds up in an `int`, number less than `2 ^ 31`), the arguments
of the subset's `CreateMesh` call are defined and are the ones the
specification words: per-face counts `counts[f]` in subset order, points
`points[faceVertexIndices[offset(f)+i]]` over the faces and their corners,
normals and UVs (when the mesh has any) `normals[k]` with `k` from the index
array if present and the point index otherwise, empty normal and UV index
arrays, and the index array `0, 1, ..., corners - 1`. Cutting these arrays by
the per-face counts gives back, face by face, the attribute values of the
corners of the original faces. -/
theorem reindexing_correct (st : MeshState) (subset : HdGeomSubset) (hwf : WellFormed st)
    (hin : ∀ f ∈ subset.indices, 0 ≤ f ∧ f < (st.m_faceVertexCounts.length : Int))
    (hfit : FitsInt st subset) :
    subsetMeshArgs st subset = some (specSubsetArgs st subset) ∧
      groupByCounts (specSubsetArgs st subset).vpf (specSubsetArgs st subset).points =
        subset.indices.map (fun f => (specFaceCorners st f).map (specCornerPoint st)) ∧
      (st.m_normals.isEmpty = false →
        groupByCounts (specSubsetArgs st subset).vpf (specSubsetArgs st subset).normals =
          subset.indices.map (fun f => (specFaceCorners st f).map (specCornerNormal st))) ∧
      (st.m_uvs.isEmpty = false →
        groupByCounts (specSubsetArgs st subset).vpf (specSubsetArgs st subset).uvs =
          subset.indices.map (fun f => (specFaceCorners st f).map (specCornerUv st))) := by
  have hlen : ∀ {β : Type} (g : Int → β), ∀ f ∈ subset.indices,
      (specCount st f).toNat = ((specFaceCorners st f).map g).length := by
    intro β g f _
    simp [specFaceCorners]
  refine ⟨subsetMeshArgs_eq st hwf subset hin hfit.2.2.2.2.2.1 hfit.2.2.2.2.2.2, ?_, ?_, ?_⟩
  · simp only [specSubsetArgs, specCorners, List.map_flatMap]
    exact groupByCounts_flatMap _ _ _ (hlen _)
  · intro hne
    simp only [specSubsetArgs, specCorners, List.map_flatMap, hne, Bool.false_eq_true, if_false]
    exact groupByCounts_flatMap _ _ _ (hlen _)
  · intro hne
    simp only [specSubsetArgs, specCorners, List.map_flatMap, hne, Bool.false_eq_true, if_false]
    exact groupByCounts_flatMap _ _ _ (hlen _)

/-- C2, at the grid of four quads with the subset over faces 0 and 1. -/
theorem reindexing_correct_witness :
    subsetMeshArgs quadMesh subsetA = some (specSubsetArgs quadMesh subsetA) ∧
      groupByCounts (specSubsetArgs quadMesh subsetA).vpf
          (specSubsetArgs quadMesh subsetA).points =
        [[(0, 0, 0), (1, 0, 0), (1, 1, 0), (0, 1, 0)],
         [(1, 0, 0), (2, 0, 0), (2, 1, 0), (1, 1, 0)]] :=
  ⟨(reindexing_correct quadMesh subsetA (by decide) (by decide) (by decide)).1,
   (reindexing_correct quadMesh subsetA (by decide) (by decide) (by decide)).2.1.trans
     (by decide)⟩

/-- C3 (catch-all subset). For a mesh with `N` faces and declared subsets
(`N` and the indices within the range of `int`), the subset list the rebuild
works on gets a trailing face-set subset exactly when some face of `[0, N)` is
referenced by no declared subset; its face list is the unreferenced faces in
ascending order and its material is the mesh's cached material. -/
theorem catch_all_subset (st : MeshState) (subsets : List HdGeomSubset)
    (hN : st.m_faceVertexCounts.length < 2 ^ 31)
    (hint : ∀ s ∈ subsets, ∀ i ∈ s.indices, -2 ^ 31 ≤ i ∧ i < 2 ^ 31) :
    ((∃ j, j < st.m_faceVertexCounts.length ∧ Unreferenced subsets j) →
      appendUnusedSubset st subsets = subsets ++ [{
        type := SubsetType.TypeFaceSet, id := st.id,
        materialId := st.m_cachedMaterialId,
        indices := ((List.range st.m_faceVertexCounts.length).filter fun j =>
          decide (Unreferenced subsets j)).map Int.ofNat }]) ∧
    ((¬ ∃ j, j < st.m_faceVertexCounts.length ∧ Unreferenced subsets j) →
      appendUnusedSubset st subsets = subsets) := by
  have hU := unusedFaces_eq_unreferenced _ subsets hN hint
  have hmap := unusedFaces_map_toInt st.m_faceVertexCounts.length
    (subsets.flatMap HdGeomSubset.indices) hN
  rw [appendUnusedSubset_eq, hmap, hU]
  constructor
  · rintro ⟨j, hj, hun⟩
    have : (List.range st.m_faceVertexCounts.length).filter
        (fun j => decide (Unreferenced subsets j)) ≠ [] := by
      apply List.ne_nil_of_mem (a := j)
      simp [List.mem_filter, hj, hun]
    rw [if_pos this]
  · intro hno
    have : (List.range st.m_faceVertexCounts.length).filter
        (fun j => decide (Unreferenced subsets j)) = [] := by
      rw [List.filter_eq_nil_iff]
      intro j hj hun
      exact hno ⟨j, List.mem_range.mp hj, by simpa using hun⟩
    simp [this]


/-- C3, at the grid of four quads with one subset over faces 0 and 1 bound to
material 11: the catch-all subset holds faces 2 and 3 with the mesh's material
10, and the first `Sync` creates two renderer meshes, the first from faces 0
and 1 and bound to the object of material 11, the second from faces 2 and 3
and bound to the object of material 10. -/
theorem catch_all_subset_witness :
    appendUnusedSubset quadMesh [subsetA] =
        [subsetA, { type := SubsetType.TypeFaceSet, id := 1, materialId := 10,
                    indices := [2, 3] }] ∧
      (Sync exampleLib quadScene allDirty (MeshState.init 1) Api.init).map
          (fun r => (r.1.m_rprMeshes, r.1.m_geomSubsets.map fun s => s.indices,
            (r.2.log.filter Call.isCreateMesh).map fun c =>
              match c with
              | Call.createMesh args result => (args.vpf, args.points, result)
              | _ => ([], [], none),
            r.2.log.filter Call.isSetMeshMaterial)) =
        some ([0, 1], [[0, 1], [2, 3]],
          [([4, 4], [(0, 0, 0), (1, 0, 0), (1, 1, 0), (0, 1, 0),
                     (1, 0, 0), (2, 0, 0), (2, 1, 0), (1, 1, 0)], some 0),
           ([4, 4], [(0, 1, 0), (1, 1, 0), (1, 2, 0), (0, 2, 0),
                     (1, 1, 0), (2, 1, 0), (2, 2, 0), (1, 2, 0)], some 1)],
          [Call.setMeshMaterial 0 (some 1011) false true,
           Call.setMeshMaterial 1 (some 1010) false true]) :=
  ⟨((catch_all_subset quadMesh [subsetA] (by decide) (by decide)).1
      ⟨2, by decide, by decide⟩).trans (by decide), rfl⟩

/-- C7 (out-of-range subset face index), evaluated: with four faces and a
subset over the indices 0 and 7, the marking loop skips the index 7, yet the
loop that builds the subset's arrays subscripts `m_faceVertexCounts` with it
(line 374), out of bounds, so that the first `Sync` of such a scene is
undefined; the same holds for the index -1. -/
theorem out_of_range_face_index_is_subscripted :
    markIndex 4 (List.replicate 4 true, 4) 7 = (List.replicate 4 true, 4) ∧
      markIndex 4 (List.replicate 4 true, 4) (-1) = (List.replicate 4 true, 4) ∧
      sub quadMesh.m_faceVertexCounts 7 = none ∧
      sub quadMesh.m_faceVertexCounts (-1) = none ∧
      subsetMeshArgs quadMesh { subsetA with indices := [0, 7] } = none ∧
      subsetMeshArgs quadMesh { subsetA with indices := [-1, 0] } = none ∧
      (Sync exampleLib (sceneWithFaces [0, 7]) allDirty (MeshState.init 1) Api.init).isNone ∧
      (Sync exampleLib (sceneWithFaces [-1, 0]) allDirty (MeshState.init 1) Api.init).isNone ∧
      (Sync exampleLib (sceneWithFaces [0, 1]) allDirty (MeshState.init 1) Api.init).isSome := by
  decide

/-! ## Claims on the synchronisation state machine -/

/-- C5 (idempotence). In every state reached from the initial one by a run of
`Sync` calls, a `Sync` with the all-clear dirty mask makes no backend call
and returns the mesh state and the backend unchanged, whatever the scene
answers; so do two such calls in a row. -/
theorem sync_idempotent (lib : Lib) (scene scene2 : Scene) (s : MeshState × Api)
    (h : Reachable lib s) :
    (syncFrame lib scene DirtyBits.clean s.1 s.2.next).map Frame.calls = some [] ∧
      Sync lib scene DirtyBits.clean s.1 s.2 = some s ∧
      runSyncs lib [{ scene := scene, dirtyBits := DirtyBits.clean },
        { scene := scene2, dirtyBits := DirtyBits.clean }] s = some s := by
  have h1 : ∀ sc, Sync lib sc DirtyBits.clean s.1 s.2 = some s :=
    fun sc => sync_clean lib sc s.1 s.2 (reachable_smoothInv lib s h)
  refine ⟨?_, h1 scene, ?_⟩
  · rw [syncFrame_clean lib scene s.1 s.2.next (reachable_smoothInv lib s h)]
    rfl
  · simp [runSyncs, h1]

/-- C5, at the state after the first `Sync` of the grid scene (two renderer
meshes, twelve backend calls so far). -/
theorem sync_idempotent_witness :
    Sync exampleLib quadScene DirtyBits.clean quadSynced.1 quadSynced.2 = some quadSynced ∧
      quadSynced.1.m_rprMeshes = [0, 1] ∧ quadSynced.2.log.length = 12 :=
  ⟨(sync_idempotent exampleLib quadScene quadScene quadSynced quadSynced_reachable).2.1,
    by decide, by decide⟩

/-- C6 (handle conservation). Over every run of `Sync` calls from the initial
state followed by `Finalize`, every mesh or instance handle returned by a
successful creation is released exactly once; after `Finalize` the tracked
mesh and instance lists are empty; and at the end of every `Sync` of the run
no tracked handle has been released. -/
theorem handle_conservation (lib : Lib) (id : SdfPath) (inputs : List SyncInput)
    (s : MeshState × Api) (h : runSyncs lib inputs (MeshState.init id, Api.init) = some s) :
    (∀ x ∈ created (Finalize s.1 s.2).2.log, (released (Finalize s.1 s.2).2.log).count x = 1) ∧
      (Finalize s.1 s.2).1.m_rprMeshes = [] ∧ (Finalize s.1 s.2).1.m_rprMeshInstances = [] ∧
      (∀ (k : Nat) (sk : MeshState × Api),
        runSyncs lib (inputs.take k) (MeshState.init id, Api.init) = some sk →
          ∀ x ∈ tracked sk.1, x ∉ released sk.2.log) := by
  have hl := runSyncs_ledger lib inputs _ s (ledger_init id) h
  refine ⟨?_, rfl, rfl, ?_⟩
  · obtain ⟨h1, h2, _, _⟩ := hl
    have ec : created (Finalize s.1 s.2).2.log = created s.2.log := by
      have e0 : created [Call.releaseMaterial s.1.m_fallbackMaterial] = [] := rfl
      simp only [Finalize, created_append, created_releaseAll, List.append_nil, e0]
    have er : released (Finalize s.1 s.2).2.log = released s.2.log ++ tracked s.1 := by
      have e0 : released [Call.releaseMaterial s.1.m_fallbackMaterial] = [] := rfl
      simp only [Finalize, released_append, released_releaseAll, List.append_nil, e0]
    rw [ec, er]
    intro x hx
    have hp : (released s.2.log ++ tracked s.1).Perm (created s.2.log) :=
      List.perm_append_comm.trans h1
    rw [hp.count_eq]
    exact List.count_eq_one_of_mem h2 hx
  · intro k sk hk x hx
    have := runSyncs_ledger lib (inputs.take k) _ sk (ledger_init id) hk
    exact ((ledger_tracked_nodup _ _ _ this).2 x hx).1


/-- C6, on a life of the grid mesh with instances created, dropped and
rebuilt: ten handles are created and each is released once. -/
theorem handle_conservation_witness :
    (∀ x ∈ created (Finalize quadLifeEnd.1 quadLifeEnd.2).2.log,
        (released (Finalize quadLifeEnd.1 quadLifeEnd.2).2.log).count x = 1) ∧
      created quadLifeEnd.2.log = [0, 1, 2, 3, 4, 5, 6, 7, 8, 9] ∧
      tracked quadLifeEnd.1 = [6, 7, 8, 9] :=
  ⟨(handle_conservation exampleLib 1 quadLife quadLifeEnd rfl).1, by decide, by decide⟩

/-- The state after the first `Sync` of the instanced grid scene is reached
from the initial one. -/
theorem quadInstanced_reachable : Reachable exampleLib quadInstanced :=
  ⟨1, [{ scene := instancedScene, dirtyBits := allDirty }], rfl⟩

/-- C8 (handle identity under patch-only syncs), as amended. In every
reachable state, a `Sync` whose dirty mask has none of points, topology,
normals and primvar, and which does not call `ComputeSmoothNormals`, is
defined, leaves the list of renderer meshes as it was, makes no `CreateMesh`
call and releases no handle of that list. -/
theorem patch_only_keeps_handles (lib : Lib) (s : MeshState × Api) (scene : Scene)
    (d : DirtyBits) (hreach : Reachable lib s)
    (hp : d.points = false) (ht : d.topology = false) (hn : d.normals = false)
    (hv : d.primvar = false)
    (hsyn : Event.computeSmoothNormals ∉
      (resolve lib scene d (Frame.start s.1 s.2.next)).events) :
    ∃ r, Sync lib scene d s.1 s.2 = some r ∧ r.1.m_rprMeshes = s.1.m_rprMeshes ∧
      ∀ c ∈ r.2.log.drop s.2.log.length,
        c.isCreateMesh = false ∧ ∀ h ∈ s.1.m_rprMeshes, c ≠ Call.release h := by
  have hnm := resolve_without_synthesis lib scene d s.1 s.2.next hp ht hn hv hsyn
  have hb := resolve_backend lib scene d (Frame.start s.1 s.2.next)
  simp only [Frame.backend, Prod.mk.injEq] at hb
  obtain ⟨b1, b2, _, _, _, b6⟩ := hb
  change _ = s.1.m_rprMeshes at b1
  change _ = s.1.m_rprMeshInstances at b2
  change _ = ([] : List Call) at b6
  obtain ⟨k1, extra, k2, k3⟩ := updateRprMeshes_meshKeeping lib scene d
    (resolve lib scene d (Frame.start s.1 s.2.next))
  refine ⟨((updateRprMeshes lib scene d (resolve lib scene d (Frame.start s.1 s.2.next))).st,
    { next := (updateRprMeshes lib scene d (resolve lib scene d (Frame.start s.1 s.2.next))).next,
      log := s.2.log ++
        (updateRprMeshes lib scene d (resolve lib scene d (Frame.start s.1 s.2.next))).calls }),
    ?_, ?_, ?_⟩
  · unfold Sync syncFrame
    rw [createRprMeshes_of_not_newMesh _ _ hnm]
    rfl
  · exact k1.trans b1
  · dsimp only
    rw [List.drop_left, k2]
    intro c hc
    have hc' : c ∈ extra := by
      rw [b6] at hc
      simpa using hc
    refine ⟨(k3 c hc').1, ?_⟩
    intro h hh heq
    have hmem := (k3 c hc').2 h heq
    rw [b2] at hmem
    have hnd := (ledger_tracked_nodup _ _ _ (reachable_ledger lib s hreach)).1
    unfold tracked at hnd
    exact (List.nodup_append.mp hnd).2.2 hh hmem


/-- C8 as amended, at the grid with authored normals (meshes 2 and 3): a
`Sync` with only the display style dirty computes no normals, keeps both
meshes and only binds their materials again. -/
theorem patch_only_keeps_handles_witness :
    normalsAuthored.1.m_rprMeshes = [2, 3] ∧
      Event.computeSmoothNormals ∉
        (resolve exampleLib authoredNormalsScene onlyDisplayStyle
          (Frame.start normalsAuthored.1 normalsAuthored.2.next)).events ∧
      ∃ r, Sync exampleLib authoredNormalsScene onlyDisplayStyle normalsAuthored.1
          normalsAuthored.2 = some r ∧
        r.1.m_rprMeshes = normalsAuthored.1.m_rprMeshes ∧
        ∀ c ∈ r.2.log.drop normalsAuthored.2.log.length,
          c.isCreateMesh = false ∧ ∀ h ∈ normalsAuthored.1.m_rprMeshes, c ≠ Call.release h :=
  ⟨by decide, by decide,
    patch_only_keeps_handles exampleLib normalsAuthored authoredNormalsScene onlyDisplayStyle
      normalsAuthored_reachable rfl rfl rfl rfl (by decide)⟩

/-- C8 as stated fails: at the grid after its first `Sync` (meshes 0 and 1, no
authored normals, no smooth normals computed so far), a `Sync` with only the
display style dirty whose display style makes lines 272-276 ask for smooth
normals computes them and rebuilds: meshes 0 and 1 are released and meshes 2
and 3 are created. -/
theorem patch_only_display_style_rebuilds :
    Reachable exampleLib quadSynced ∧
      onlyDisplayStyle.points = false ∧ onlyDisplayStyle.topology = false ∧
      onlyDisplayStyle.normals = false ∧ onlyDisplayStyle.primvar = false ∧
      quadSynced.1.m_rprMeshes = [0, 1] ∧
      (Sync exampleLib flatScene onlyDisplayStyle quadSynced.1 quadSynced.2).map
          (fun r => (r.1.m_rprMeshes, released (r.2.log.drop quadSynced.2.log.length),
            created (r.2.log.drop quadSynced.2.log.length),
            ((r.2.log.drop quadSynced.2.log.length).filter Call.isCreateMesh).length)) =
        some ([2, 3], [0, 1], [2, 3], 2) ∧
      (syncFrame exampleLib flatScene onlyDisplayStyle quadSynced.1 quadSynced.2.next).map
          Frame.events = some [Event.buildAdjacencyTable, Event.computeSmoothNormals] :=
  ⟨quadSynced_reachable, rfl, rfl, rfl, rfl, by decide, by decide, by decide⟩

/-- C9 (prototype hidden while instanced), evaluated: at the instanced grid,
where mesh 0 owns the instances 2 and 3 and was last pushed invisible, a
`Sync` with only the visibility bit dirty pushes `true` to mesh 0 while it
still owns both instances. -/
theorem visibility_sync_shows_instanced_prototype :
    Reachable exampleLib quadInstanced ∧
      ownedBy quadInstanced.1 0 = [2, 3] ∧
      lastVisibility quadInstanced.2.log 0 = some false ∧
      (Sync exampleLib instancedScene onlyVisibility quadInstanced.1 quadInstanced.2).map
          (fun r => (ownedBy r.1 0, lastVisibility r.2.log 0,
            r.2.log.drop quadInstanced.2.log.length)) =
        some ([2, 3], some true,
          [Call.setMeshVisibility 0 true, Call.setMeshVisibility 1 true]) :=
  ⟨quadInstanced_reachable, by decide, by decide, by decide⟩

/-- C10 (transform push rule), evaluated: at the instanced grid, a `Sync` with
only the transform bit dirty calls `SetTransform` on both renderer meshes
although each owns two instances at the end of the `Sync`. -/
theorem transform_sync_pushes_to_instanced_prototype :
    Reachable exampleLib quadInstanced ∧
      (Sync exampleLib instancedScene onlyTransform quadInstanced.1 quadInstanced.2).map
          (fun r => (r.1.m_rprMeshes, r.1.m_rprMeshInstances,
            r.2.log.drop quadInstanced.2.log.length)) =
        some ([0, 1], [[2, 3], [4, 5]], [Call.setTransform 0 3, Call.setTransform 1 3]) :=
  ⟨quadInstanced_reachable, by decide⟩

/-! ## Claims on refine levels, normals and points -/

/-- C11 (refine-level clamp). In every reachable state, for every `Sync` and
every `SetMeshRefineLevel` call it makes, whatever the display-style refine
level and the override primvar of the scene are: the level passed is 0 when the
cached topology does not have the Catmull-Clark scheme and the cached refine
level when it does, and the same level is passed for every tracked renderer
mesh. -/
theorem refine_level_clamp (lib : Lib) (s r : MeshState × Api) (scene : Scene) (d : DirtyBits)
    (hreach : Reachable lib s) (hsync : Sync lib scene d s.1 s.2 = some r)
    (h : Handle) (v : Int)
    (hcall : Call.setMeshRefineLevel h v ∈ r.2.log.drop s.2.log.length) :
    (r.1.m_topology.scheme ≠ Scheme.catmullClark → v = 0) ∧
      (r.1.m_topology.scheme = Scheme.catmullClark → v = r.1.m_refineLevel) ∧
      ∀ m ∈ r.1.m_rprMeshes, Call.setMeshRefineLevel m v ∈ r.2.log.drop s.2.log.length := by
  have hinv := sync_subdivInv lib scene d s.1 s.2 r (reachable_subdivInv lib s hreach) hsync
  obtain ⟨g, hg, hst, hlog⟩ := sync_delta lib scene d s.1 s.2 r hsync
  rw [hlog] at hcall ⊢
  obtain ⟨e1, hc1, hk1⟩ := createRprMeshes_kinds scene _ g hg
  rw [resolve_calls, List.nil_append] at hc1
  obtain ⟨⟨e2, hc2, hk2⟩, hall⟩ := updateRprMeshes_refine lib scene d g
  have hsc := updateRprMeshes_sameCache lib scene d g
  have hmesh : r.1.m_rprMeshes = g.st.m_rprMeshes := by
    rw [hst]; exact (updateRprMeshes_meshKeeping lib scene d g).1
  have hsub : r.1.m_enableSubdiv = g.st.m_enableSubdiv := by
    rw [hst]; unfold SameCache at hsc; rw [hsc]
  have hlev : r.1.m_refineLevel = g.st.m_refineLevel := by
    rw [hst]; unfold SameCache at hsc; rw [hsc]
  have hmem : Call.setMeshRefineLevel h v ∈ e2 := by
    rw [hc2, hc1] at hcall
    rcases List.mem_append.mp hcall with hm | hm
    · have := hk1 _ hm
      simp [Call.kind] at this
    · exact hm
  obtain ⟨hv, hflag⟩ := hk2 _ hmem h v rfl
  unfold SubdivInv at hinv
  unfold pushedRefineLevel at hv hall
  rw [← hsub, ← hlev] at hv hall
  refine ⟨?_, ?_, ?_⟩
  · intro hne
    rw [hinv, decide_eq_false hne] at hv
    simpa using hv
  · intro he
    rw [hinv, decide_eq_true he] at hv
    simpa using hv
  · intro m hm
    rw [hmesh] at hm
    rw [hv]
    exact hall hflag m hm

/-- C11 at the grid with display-style refine level 3 and no subdivision: the
first `Sync` caches level 3 and passes 0 for both renderer meshes. -/
theorem refine_level_clamp_witness :
    refinedSynced.1.m_refineLevel = 3 ∧
      refinedSynced.1.m_topology.scheme ≠ Scheme.catmullClark ∧
      Call.setMeshRefineLevel 0 0 ∈ refinedSynced.2.log.drop Api.init.log.length ∧
      ∀ m ∈ refinedSynced.1.m_rprMeshes,
        Call.setMeshRefineLevel m 0 ∈ refinedSynced.2.log.drop Api.init.log.length :=
  ⟨by decide, by decide, by decide,
    (refine_level_clamp exampleLib (MeshState.init 1, Api.init) refinedSynced refinedScene
      allDirty ⟨1, [], rfl⟩ rfl 0 0 (by decide)).2.2⟩

/-- C12 (smooth-normal suppression). For every state, scene and dirty mask:
when after the attribute resolution of a `Sync` subdivision is enabled and the
refine level is positive, the `Sync` calls neither `BuildAdjacencyTable` nor
`ComputeSmoothNormals`, whatever the shading flag is and whether or not
normals are authored. -/
theorem smooth_normals_suppressed (lib : Lib) (scene : Scene) (d : DirtyBits) (st : MeshState)
    (next : Nat)
    (hs : (resolveAttributes scene d (Frame.start st next)).st.m_enableSubdiv = true)
    (hl : 0 < (resolveAttributes scene d (Frame.start st next)).st.m_refineLevel) :
    Event.buildAdjacencyTable ∉ (resolve lib scene d (Frame.start st next)).events ∧
      Event.computeSmoothNormals ∉ (resolve lib scene d (Frame.start st next)).events ∧
      ∀ g, syncFrame lib scene d st next = some g →
        Event.buildAdjacencyTable ∉ g.events ∧ Event.computeSmoothNormals ∉ g.events := by
  have hw : wantsSmoothNormals (resolveAttributes scene d (Frame.start st next)).st = false := by
    unfold wantsSmoothNormals
    rw [hs, decide_eq_true hl]
    simp
  have hsyn : synthesizes (resolveAttributes scene d (Frame.start st next)) = false := by
    have e : synthesizes (resolveAttributes scene d (Frame.start st next)) =
        (wantsSmoothNormals (resolveAttributes scene d (Frame.start st next)).st &&
          !((resolveAttributes scene d (Frame.start st next)).st.m_adjacencyValid &&
            (resolveAttributes scene d (Frame.start st next)).st.m_normalsValid)) := rfl
    rw [e, hw]; rfl
  obtain ⟨h1, h2, _, _⟩ := resolve_events_mem lib scene d st next
  have hb : Event.buildAdjacencyTable ∉ (resolve lib scene d (Frame.start st next)).events := by
    rw [h2, hw]; simp
  have hc : Event.computeSmoothNormals ∉ (resolve lib scene d (Frame.start st next)).events := by
    rw [h1, hsyn]; simp
  refine ⟨hb, hc, ?_⟩
  intro g hg
  rw [(syncFrame_resolved lib scene d st next g hg).1]
  exact ⟨hb, hc⟩

/-- C12 at the Catmull-Clark grid with the shading flag set and no authored
normals: with refine level 2 the first `Sync` fetches the points and computes
nothing; with refine level 0 it builds the adjacency table and the normals. -/
theorem smooth_normals_suppressed_witness :
    (syncFrame exampleLib (subdivScene 2) allDirty (MeshState.init 1) 0).map
        (fun g => (g.st.m_enableSubdiv, g.st.m_refineLevel, g.st.m_authoredNormals, g.events)) =
        some (true, 2, false, [Event.getPoints]) ∧
      (Event.buildAdjacencyTable ∉
          (resolve exampleLib (subdivScene 2) allDirty (Frame.start (MeshState.init 1) 0)).events ∧
        Event.computeSmoothNormals ∉
          (resolve exampleLib (subdivScene 2) allDirty
            (Frame.start (MeshState.init 1) 0)).events) ∧
      (syncFrame exampleLib (subdivScene 0) allDirty (MeshState.init 1) 0).map Frame.events =
        some [Event.getPoints, Event.buildAdjacencyTable, Event.computeSmoothNormals] :=
  have h := smooth_normals_suppressed exampleLib (subdivScene 2) allDirty (MeshState.init 1) 0
    rfl (by decide)
  ⟨by decide, ⟨h.1, h.2.1⟩, by decide⟩

/-- C15 (computed points take precedence). For every state and every `Sync`
whose mask has the points bit set: when the ext computations have a primvar
named `points` and it yields a value, the cached points are that value, the
authored `points` attribute is not fetched, `m_normalsValid` is false after
the attributes are resolved (and true at the end only when this `Sync`
recomputed the normals), and the `Sync` rebuilds, releasing every tracked
handle first; when no computed value is obtained, the cached points are the
authored `points` attribute. -/
theorem computed_points_precedence (lib : Lib) (scene : Scene) (d : DirtyBits) (st : MeshState)
    (next : Nat) (hd : d.points = true) :
    (∀ value, Token.points ∈ scene.extComputationDescs → scene.computedPoints = some value →
      (resolveAttributes scene d (Frame.start st next)).st.m_points = value.getVec3fArray ∧
      (resolveAttributes scene d (Frame.start st next)).st.m_normalsValid = false ∧
      (resolve lib scene d (Frame.start st next)).newMesh = true ∧
      Event.getPoints ∉ (resolve lib scene d (Frame.start st next)).events ∧
      ∀ g, syncFrame lib scene d st next = some g →
        g.st.m_points = value.getVec3fArray ∧ Event.getPoints ∉ g.events ∧
          Event.getComputedPrimvarValues ∈ g.events ∧
          (g.st.m_normalsValid = true → Event.computeSmoothNormals ∈ g.events) ∧
          releaseAll st <+: g.calls) ∧
    (¬(Token.points ∈ scene.extComputationDescs ∧ scene.computedPoints.isSome = true) →
      (resolve lib scene d (Frame.start st next)).newMesh = true ∧
      ∀ g, syncFrame lib scene d st next = some g →
        g.st.m_points = (scene.get Token.points).getVec3fArray ∧ Event.getPoints ∈ g.events) := by
  obtain ⟨a1, a2, a3, a4, _⟩ := resolveAttributes_spec scene d (Frame.start st next)
  obtain ⟨r1, r2, _, r4⟩ := resolve_points lib scene d (Frame.start st next)
  obtain ⟨e1, _, e3, _⟩ := resolve_events_mem lib scene d st next
  have hnew : (resolve lib scene d (Frame.start st next)).newMesh = true := by
    rw [r4, a3 hd]; rfl
  have hnv : (resolveAttributes scene d (Frame.start st next)).st.m_normalsValid = false := by
    rw [a4, hd]; simp
  have hsyn : synthesizes (resolveAttributes scene d (Frame.start st next)) =
      wantsSmoothNormals (resolveAttributes scene d (Frame.start st next)).st := by
    have e : synthesizes (resolveAttributes scene d (Frame.start st next)) =
        (wantsSmoothNormals (resolveAttributes scene d (Frame.start st next)).st &&
          !((resolveAttributes scene d (Frame.start st next)).st.m_adjacencyValid &&
            (resolveAttributes scene d (Frame.start st next)).st.m_normalsValid)) := rfl
    rw [e, hnv]; simp
  have hpts : ∀ g, syncFrame lib scene d st next = some g →
      g.st.m_points = (resolveAttributes scene d (Frame.start st next)).st.m_points ∧
        g.events = (resolve lib scene d (Frame.start st next)).events ∧
        g.st.m_normalsValid = (resolve lib scene d (Frame.start st next)).st.m_normalsValid := by
    intro g hg
    obtain ⟨h1, h2⟩ := syncFrame_resolved lib scene d st next g hg
    unfold SameCache at h2
    refine ⟨?_, h1, ?_⟩
    · rw [h2]; exact r1
    · rw [h2]
  constructor
  · intro value hx hv
    have hp : (resolveAttributes scene d (Frame.start st next)).st.m_points =
        value.getVec3fArray := by
      rw [a1, pullPoints_spec, if_pos hd]
      simp [hx, hv]
    have hget : Event.getPoints ∉ (resolve lib scene d (Frame.start st next)).events := by
      rw [e3]; simp [hx, hv]
    refine ⟨hp, hnv, hnew, hget, ?_⟩
    intro g hg
    obtain ⟨g1, g2, g3⟩ := hpts g hg
    refine ⟨g1.trans hp, by rw [g2]; exact hget, ?_, ?_,
      syncFrame_rebuild lib scene d st next g hg hnew⟩
    · rw [g2, resolve_events, if_pos hd, if_pos hx]
      simp
    · intro hv2
      rw [g2, e1, hsyn]
      rw [g3, r2, hnv] at hv2
      simpa using hv2
  · intro hno
    refine ⟨hnew, ?_⟩
    intro g hg
    obtain ⟨g1, g2, _⟩ := hpts g hg
    constructor
    · rw [g1, a1, pullPoints_spec, if_pos hd]
      simp only
      rw [if_neg hno]
    · rw [g2, e3]
      exact ⟨hd, hno⟩

/-- C15 at the grid: with an ext computation yielding lifted points, the first
`Sync` caches the lifted points without fetching the authored ones; with a
computation that yields nothing, it fetches and caches the authored points. -/
theorem computed_points_precedence_witness :
    (syncFrame exampleLib computedScene allDirty (MeshState.init 1) 0).map
        (fun g => (g.st.m_points, g.events, g.st.m_normalsValid)) =
        some (liftedPoints, [Event.getComputedPrimvarValues], false) ∧
      (resolve exampleLib computedScene allDirty (Frame.start (MeshState.init 1) 0)).newMesh
        = true ∧
      Event.getPoints ∉
        (resolve exampleLib computedScene allDirty (Frame.start (MeshState.init 1) 0)).events ∧
      (syncFrame exampleLib emptyComputationScene allDirty (MeshState.init 1) 0).map
        (fun g => (g.st.m_points, g.events)) =
        some (quadPoints, [Event.getComputedPrimvarValues, Event.getPoints]) :=
  have h := (computed_points_precedence exampleLib computedScene allDirty (MeshState.init 1) 0
    rfl).1 (VtValue.vec3fArray liftedPoints) (by decide) rfl
  ⟨by decide, h.2.2.1, h.2.2.2.1, by decide⟩

/-- C13 (refine-level override precedence), as amended. For every state and
every defined `Sync`: when the primvar bit is dirty and the scene has a
constant primvar `rpr:subdivisionLevel` holding an integer `v`, the cached
refine level is `v` afterwards, whatever the display style says and whether or
not its bit is dirty, and every refine level the `Sync` pushes is `v` when
subdivision is enabled and 0 otherwise; when the override holds no integer,
lines 250-270 change nothing and the cached refine level is the one the
display-style step left. -/
theorem override_precedence (lib : Lib) (scene : Scene) (d : DirtyBits) (st : MeshState)
    (api : Api) (r : MeshState × Api) (hsync : Sync lib scene d st api = some r) :
    (∀ v, d.primvar = true →
      Token.subdivisionLevel ∈ scene.primvarDescriptors HdInterpolation.constant →
      scene.get Token.subdivisionLevel = VtValue.int v →
        r.1.m_refineLevel = v ∧
          ∀ h w, Call.setMeshRefineLevel h w ∈ r.2.log.drop api.log.length →
            w = if r.1.m_enableSubdiv = true then v else 0) ∧
    ((∀ v, scene.get Token.subdivisionLevel ≠ VtValue.int v) →
      (∀ f, resolveSubdivisionLevel scene d f = f) ∧
        r.1.m_refineLevel =
          if d.displayStyle = true then scene.displayStyle.refineLevel
            else st.m_refineLevel) := by
  have hlev := sync_refineLevel lib scene d st api r hsync
  constructor
  · intro v hp hdesc hv
    have ho : overrideLevel scene d = some v := by
      unfold overrideLevel
      rw [if_pos ⟨hp, hdesc⟩, hv]
    rw [ho] at hlev
    refine ⟨hlev, ?_⟩
    intro h w hcall
    have := (sync_refine_calls lib scene d st api r hsync h w hcall).1
    rw [this]
    unfold pushedRefineLevel
    rw [show r.1.m_refineLevel = v from hlev]
  · intro hno
    have ho : overrideLevel scene d = none := by
      unfold overrideLevel
      split
      · cases hv : scene.get Token.subdivisionLevel with
        | int v => exact absurd hv (hno v)
        | vec3fArray a => rfl
        | vec2fArray a => rfl
        | other => rfl
      · rfl
    rw [ho] at hlev
    refine ⟨?_, hlev⟩
    intro f
    unfold resolveSubdivisionLevel
    split
    · cases hv : scene.get Token.subdivisionLevel with
      | int v => exact absurd hv (hno v)
      | vec3fArray a => rfl
      | vec2fArray a => rfl
      | other => rfl
    · rfl

/-- C13 as amended, at the Catmull-Clark grid with display-style refine level
0: with override 2 the first `Sync` caches 2 and pushes 2 to both meshes; with
an override holding no integer it caches the display-style level 0. -/
theorem override_precedence_witness :
    (overrideSynced.1.m_refineLevel = 2 ∧
      ∀ h w, Call.setMeshRefineLevel h w ∈ overrideSynced.2.log.drop Api.init.log.length →
        w = if overrideSynced.1.m_enableSubdiv = true then 2 else 0) ∧
      overrideSynced.2.log.filter Call.isSetMeshRefineLevel =
        [Call.setMeshRefineLevel 0 2, Call.setMeshRefineLevel 1 2] ∧
      badOverrideSynced.1.m_refineLevel =
        (if allDirty.displayStyle = true then
          (overrideScene VtValue.other).displayStyle.refineLevel
        else (MeshState.init 1).m_refineLevel) :=
  ⟨(override_precedence exampleLib (overrideScene (VtValue.int 2)) allDirty (MeshState.init 1)
      Api.init overrideSynced rfl).1 2 rfl (by decide) rfl,
    by decide,
    ((override_precedence exampleLib (overrideScene VtValue.other) allDirty (MeshState.init 1)
      Api.init badOverrideSynced rfl).2 (fun v (h : VtValue.other = VtValue.int v) => VtValue.noConfusion h)).2⟩

/-- C13 as stated fails: at the Catmull-Clark grid synced with override 2
(cached level 2), a `Sync` of the same scene with only the display style
dirty, the override still present and holding 2, caches the display-style
level 0 and pushes 0 to both meshes. -/
theorem override_lost_on_display_style_sync :
    Reachable exampleLib overrideSynced ∧
      Token.subdivisionLevel ∈
        (overrideScene (VtValue.int 2)).primvarDescriptors HdInterpolation.constant ∧
      (overrideScene (VtValue.int 2)).get Token.subdivisionLevel = VtValue.int 2 ∧
      overrideSynced.1.m_refineLevel = 2 ∧ overrideSynced.1.m_enableSubdiv = true ∧
      (Sync exampleLib (overrideScene (VtValue.int 2)) onlyDisplayStyle overrideSynced.1
          overrideSynced.2).map
          (fun r => (r.1.m_refineLevel,
            (r.2.log.drop overrideSynced.2.log.length).filter Call.isSetMeshRefineLevel)) =
        some (0, [Call.setMeshRefineLevel 0 0, Call.setMeshRefineLevel 1 0]) :=
  ⟨⟨1, [{ scene := overrideScene (VtValue.int 2), dirtyBits := allDirty }], rfl⟩,
    by decide, rfl, by decide, by decide, by decide⟩

/-- C14 (instancer reset). In every reachable state, for every `Sync` that
processes the instancer (it rebuilds or the instancer bit is dirty) and whose
instancer reports zero transforms: every instance handle tracked before the
`Sync` is released exactly once by it, the instance lists are empty
afterwards, the `Sync` makes no `CreateMeshInstance` call, and it calls
`SetMeshVisibility` with the cached visibility flag for every tracked renderer
mesh. -/
theorem instancer_reset (lib : Lib) (s r : MeshState × Api) (scene : Scene) (d : DirtyBits)
    (hreach : Reachable lib s) (hsync : Sync lib scene d s.1 s.2 = some r)
    (hproc : ((resolve lib scene d (Frame.start s.1 s.2.next)).newMesh || d.instancer) = true)
    (hinst : scene.instancer = some []) :
    (∀ x ∈ s.1.m_rprMeshInstances.flatten,
        (released (r.2.log.drop s.2.log.length)).count x = 1) ∧
      r.1.m_rprMeshInstances = [] ∧
      (∀ c ∈ r.2.log.drop s.2.log.length, c.kind ≠ CallKind.createMeshInstance) ∧
      ∀ m ∈ r.1.m_rprMeshes, Call.setMeshVisibility m r.1.visible ∈
        r.2.log.drop s.2.log.length := by
  have hled := reachable_ledger lib s hreach
  obtain ⟨hnd, _⟩ := ledger_tracked_nodup s.1 s.2.next s.2.log hled
  obtain ⟨g, hg, hst, hlog⟩ := sync_delta lib scene d s.1 s.2 r hsync
  rw [hlog, hst]
  have hb := resolve_backend lib scene d (Frame.start s.1 s.2.next)
  have hm : (resolve lib scene d (Frame.start s.1 s.2.next)).st.m_rprMeshes = s.1.m_rprMeshes :=
    congrArg (fun x => x.1) hb
  have hi : (resolve lib scene d (Frame.start s.1 s.2.next)).st.m_rprMeshInstances =
      s.1.m_rprMeshInstances := congrArg (fun x => x.2.1) hb
  rcases createRprMeshes_cases scene _ g hg with ⟨h1, h2⟩ | ⟨h1, h2, h3, _, creates, h5, h6⟩
  · have hproc2 : (g.newMesh || d.instancer) = true := by rw [h2]; exact hproc
    have hL : g.st.m_rprMeshInstances = [] ∨
        g.st.m_rprMeshInstances.length = g.st.m_rprMeshes.length := by
      rw [h2, hm, hi]; exact hled.2.2.2
    obtain ⟨r1, r2, r3, extra, r4, r5, r6, r7⟩ :=
      updateRprMeshes_reset lib scene d g hproc2 hinst hL
    have hgc : g.calls = [] := by rw [h2]; exact resolve_calls lib scene d s.1 s.2.next
    rw [hgc, List.nil_append] at r4
    rw [r4, r1, r2, r3]
    refine ⟨?_, rfl, r6, r7⟩
    intro x hx
    rw [r5, h2, hi]
    have hnd2 : s.1.m_rprMeshInstances.flatten.Nodup := by
      unfold tracked at hnd
      exact (List.nodup_append.mp hnd).2.1
    exact List.count_eq_one_of_mem hnd2 hx
  · have hproc2 : (g.newMesh || d.instancer) = true := by rw [h2]; rfl
    obtain ⟨r1, r2, r3, extra, r4, r5, r6, r7⟩ :=
      updateRprMeshes_reset lib scene d g hproc2 hinst (Or.inl h3)
    rw [resolve_calls, List.nil_append] at h5
    rw [r4, r1, r2, r3, h5]
    refine ⟨?_, rfl, ?_, ?_⟩
    · intro x hx
      rw [released_append, released_append, released_releaseAll, r5, h3,
        released_of_isCreateMesh creates h6]
      have ht : tracked (resolve lib scene d (Frame.start s.1 s.2.next)).st = tracked s.1 := by
        unfold tracked; rw [hm, hi]
      rw [ht]
      simp only [List.flatten_nil, List.append_nil]
      apply List.count_eq_one_of_mem hnd
      unfold tracked
      exact List.mem_append_right _ hx
    · intro c hc
      rcases List.mem_append.mp hc with h | h
      · rcases List.mem_append.mp h with h | h
        · unfold releaseAll at h
          rcases List.mem_append.mp h with h | h
          · obtain ⟨x, _, rfl⟩ := List.mem_map.mp h; simp [Call.kind]
          · obtain ⟨x, _, rfl⟩ := List.mem_map.mp h; simp [Call.kind]
        · have := h6 c h
          cases c <;> simp_all [Call.isCreateMesh, Call.kind]
      · exact r6 c h
    · intro m hm2
      exact List.mem_append_right _ (r7 m hm2)

/-- C14 at the instanced grid (meshes 0 and 1 with instances 2, 3 and 4, 5): a
`Sync` with only the instancer bit dirty and no transform releases the four
instances once each, empties the instance lists and shows both meshes. -/
theorem instancer_reset_witness :
    quadInstanced.1.m_rprMeshInstances = [[2, 3], [4, 5]] ∧
      quadReset.2.log.drop quadInstanced.2.log.length =
        [Call.release 2, Call.release 3, Call.release 4, Call.release 5,
          Call.setMeshVisibility 0 true, Call.setMeshVisibility 1 true] ∧
      (∀ x ∈ quadInstanced.1.m_rprMeshInstances.flatten,
        (released (quadReset.2.log.drop quadInstanced.2.log.length)).count x = 1) ∧
      quadReset.1.m_rprMeshInstances = [] :=
  have h := instancer_reset exampleLib quadInstanced quadReset resetScene onlyInstancer
    quadInstanced_reachable rfl rfl rfl
  ⟨by decide, by decide, h.1, h.2.1⟩

/-- C16 (adjacency and normal synthesis gate), evaluated: the first `Sync` of
the grid without authored normals and without subdivision builds the adjacency
table and the smooth normals when the display style has `flatShadingEnabled`
set, and builds neither when the flag is clear, which is when the claim
expects them. -/
theorem synthesis_follows_flat_shading_flag :
    flatScene.displayStyle.flatShadingEnabled = true ∧
      (syncFrame exampleLib flatScene allDirty (MeshState.init 1) 0).map
          (fun g => (g.st.m_authoredNormals, g.st.m_enableSubdiv, g.st.m_smoothNormals,
            g.events)) =
        some (false, false, true,
          [Event.getPoints, Event.buildAdjacencyTable, Event.computeSmoothNormals]) ∧
      quadScene.displayStyle.flatShadingEnabled = false ∧
      (syncFrame exampleLib quadScene allDirty (MeshState.init 1) 0).map
          (fun g => (g.st.m_authoredNormals, g.st.m_enableSubdiv, g.st.m_smoothNormals,
            g.events)) =
        some (false, false, false, [Event.getPoints]) :=
  ⟨rfl, by decide, rfl, by decide⟩

/-- C17 (authored normals and `m_normalsValid`), evaluated: after a `Sync`
that computed smooth normals, a `Sync` with the normals bit dirty and authored
normals in the scene leaves `m_normalsValid` set; the next `Sync`, with the
normals bit dirty and the authored normals gone, wants smooth normals, finds
the flags set and computes nothing: the cached normals stay empty. -/
theorem authored_normals_keep_normalsValid :
    Reachable exampleLib normalsAuthored ∧
      flatSynced.1.m_normalsValid = true ∧
      (normalsAuthored.1.m_authoredNormals, normalsAuthored.1.m_normalsValid,
        normalsAuthored.1.m_normals) = (true, true, authoredNormals) ∧
      (syncFrame exampleLib flatScene onlyNormals normalsAuthored.1 normalsAuthored.2.next).map
          (fun g => (g.st.m_authoredNormals, g.st.m_smoothNormals, g.st.m_normalsValid,
            g.st.m_normals, g.st.m_points.length, g.events)) =
        some (false, true, true, [], 9, []) :=
  ⟨reachable_sync exampleLib flatSynced normalsAuthored authoredNormalsScene onlyNormals
      ⟨1, [{ scene := flatScene, dirtyBits := allDirty }], rfl⟩ rfl,
    by decide, by decide, rfl⟩

/-! ## Claims on subsets and on the synthesis of normals -/

/-- C18 (size of the renderer mesh list), as amended. For every state and
every defined `Sync` that rebuilds: the number of tracked renderer meshes is
the number of `CreateMesh` calls of the `Sync` that returned a mesh; without
declared subsets it is 1 when the one `CreateMesh` succeeds and 0 when it
fails; with declared subsets it is the length of the subset list left by lines
357-403, a sublist of the split list; and when every `CreateMesh` succeeds
and every declared subset is a face set, the subset list left is the split
list and the number of meshes is `max 1` of its length. -/
theorem rebuilt_mesh_count (lib : Lib) (scene : Scene) (d : DirtyBits) (st : MeshState)
    (api : Api) (r : MeshState × Api) (hsync : Sync lib scene d st api = some r)
    (hnew : (resolve lib scene d (Frame.start st api.next)).newMesh = true) :
    r.1.m_rprMeshes.length = (r.2.log.drop api.log.length).countP Call.createdMesh ∧
      (r.1.m_topology.geomSubsets = [] →
        r.1.m_geomSubsets = [] ∧
          r.1.m_rprMeshes.length = if scene.createMeshOk api.next = true then 1 else 0) ∧
      (r.1.m_topology.geomSubsets ≠ [] →
        r.1.m_rprMeshes.length = r.1.m_geomSubsets.length ∧
          r.1.m_geomSubsets.Sublist (appendUnusedSubset r.1 r.1.m_topology.geomSubsets)) ∧
      ((∀ n, scene.createMeshOk n = true) →
        (∀ s ∈ r.1.m_topology.geomSubsets, s.type = SubsetType.TypeFaceSet) →
          r.1.m_geomSubsets =
              (if r.1.m_topology.geomSubsets = [] then []
                else appendUnusedSubset r.1 r.1.m_topology.geomSubsets) ∧
            r.1.m_rprMeshes.length = max 1 r.1.m_geomSubsets.length) := by
  obtain ⟨g, hg, hst, hlog⟩ := sync_delta lib scene d st api r hsync
  have hsc1 := createRprMeshes_sameCache _ _ _ hg
  have hsc2 := updateRprMeshes_sameCache lib scene d g
  have hsc := sameCache_trans hsc1 hsc2
  obtain ⟨hmk, extra, hcalls, hextra⟩ := updateRprMeshes_meshKeeping lib scene d g
  have hgs := updateRprMeshes_geomSubsets lib scene d g
  have htop : r.1.m_topology = (resolve lib scene d (Frame.start st api.next)).st.m_topology := by
    rw [hst]; unfold SameCache at hsc; rw [hsc]
  have happ : ∀ subs, appendUnusedSubset r.1 subs =
      appendUnusedSubset (resolve lib scene d (Frame.start st api.next)).st subs := by
    intro subs; rw [hst]; exact appendUnusedSubset_sameCache _ _ hsc subs
  have hnext : (resolve lib scene d (Frame.start st api.next)).next = api.next :=
    congrArg (fun x => x.2.2.2.2.1) (resolve_backend lib scene d (Frame.start st api.next))
  have hex : extra.countP Call.createdMesh = 0 :=
    countP_createdMesh_zero extra (fun c hc => (hextra c hc).1)
  simp only [happ]
  rw [hlog, hcalls, htop, hst, hmk, hgs]
  obtain ⟨_, hcase⟩ := createRprMeshes_rebuild scene _ g hg hnew
  rw [resolve_calls, List.nil_append, hnext] at hcase
  rcases hcase with ⟨c1, c2, c3, c4⟩ | ⟨c1, creates, c2, c3⟩
  · rw [c4, c2, c3]
    refine ⟨?_, ?_, ?_, ?_⟩
    · rw [List.countP_append, List.countP_append, countP_createdMesh_releaseAll, hex]
      cases scene.createMeshOk api.next <;> rfl
    · intro _
      refine ⟨rfl, ?_⟩
      cases scene.createMeshOk api.next <;> rfl
    · intro hne; exact absurd c1 hne
    · intro hall _
      rw [if_pos c1, hall api.next]
      exact ⟨rfl, rfl⟩
  · obtain ⟨k1, k2, _, _, k5⟩ := createSubsetMeshes_kept _ _ _ _ _ _ _ _ c2
    obtain ⟨_, _, _, _, _, k6, _⟩ := createSubsetMeshes_spec _ _ _ _ _ _ _ _ c2
    rw [c3]
    refine ⟨?_, ?_, ?_, ?_⟩
    · rw [List.countP_append, List.countP_append, countP_createdMesh_releaseAll, hex, k2]
      simp
    · intro he; exact absurd he c1
    · intro _; exact ⟨k6.symm, k1⟩
    · intro hall hfs
      have hk := k5 hall (appendUnusedSubset_faceSets _ _ hfs)
      rw [if_neg c1]
      refine ⟨hk, ?_⟩
      rw [← k6]
      have hpos : 0 < g.st.m_geomSubsets.length := by
        rw [hk]
        exact List.length_pos.mpr (appendUnusedSubset_ne_nil _ _ c1)
      omega

/-- C18 as amended, at the grid with one declared subset and a backend that
never fails: the first `Sync` rebuilds and tracks two meshes for the two
subsets of the split list. -/
theorem rebuilt_mesh_count_witness :
    quadSynced.1.m_rprMeshes = [0, 1] ∧ quadSynced.1.m_geomSubsets.length = 2 ∧
      quadSynced.1.m_rprMeshes.length =
        (quadSynced.2.log.drop Api.init.log.length).countP Call.createdMesh ∧
      quadSynced.1.m_rprMeshes.length = max 1 quadSynced.1.m_geomSubsets.length :=
  have h := rebuilt_mesh_count exampleLib quadScene allDirty (MeshState.init 1) Api.init
    quadSynced rfl rfl
  ⟨by decide, by decide, h.1, (h.2.2.2 (fun _ => rfl) (by decide)).2⟩

/-- C18 as stated fails: when `CreateMesh` fails, a rebuilding `Sync` of the
grid without declared subsets tracks no mesh, where the claim expects one; with
one declared subset it tracks no mesh and keeps no subset, where the split list
has two; and with a declared subset of unsupported type and a backend that
never fails it tracks one mesh, where the split list has two subsets. -/
theorem failed_creation_breaks_size_invariant :
    (resolve exampleLib (failingScene []) allDirty
        (Frame.start (MeshState.init 1) 0)).newMesh = true ∧
      (Sync exampleLib (failingScene []) allDirty (MeshState.init 1) Api.init).map
          (fun r => (r.1.m_rprMeshes, r.1.m_geomSubsets,
            (r.2.log.filter Call.isCreateMesh).length)) = some ([], [], 1) ∧
      (Sync exampleLib (failingScene [subsetA]) allDirty (MeshState.init 1) Api.init).map
          (fun r => (r.1.m_rprMeshes, r.1.m_geomSubsets,
            (appendUnusedSubset r.1 r.1.m_topology.geomSubsets).length,
            (r.2.log.filter Call.isCreateMesh).length)) = some ([], [], 2, 2) ∧
      (Sync exampleLib (subsetsScene [subsetOther] []) allDirty (MeshState.init 1)
          Api.init).map
          (fun r => (r.1.m_rprMeshes, r.1.m_geomSubsets.length,
            (appendUnusedSubset r.1 r.1.m_topology.geomSubsets).length)) = some ([0], 1, 2) :=
  ⟨rfl, rfl, rfl, rfl⟩

/-- C19 (subset and handle correspondence). After every run of `Sync` and
`Finalize` calls from the initial state, in every `Sync` whose rebuild phase is
defined: when the material step runs (there are renderer meshes) with a
non-empty subset list, the subset list and the renderer mesh list have equal
length and mesh `i` was returned by a `CreateMesh` call with the arrays of
subset `i`, so line 468 is not reached; and when the `Sync` rebuilds a mesh
with declared subsets, it calls `CreateMesh` once for every face-set subset of
the split list, in order, whatever the other calls return, and the subsets
left are a sublist of the split list with one mesh each. -/
theorem subset_handle_correspondence (lib : Lib) (id : SdfPath) (ops : List Op)
    (s : MeshState × Api) (hrun : runOps lib ops (MeshState.init id, Api.init) = some s)
    (scene : Scene) (d : DirtyBits) (g : Frame)
    (hg : createRprMeshes scene (resolve lib scene d (Frame.start s.1 s.2.next)) = some g) :
    ((beforeMaterial scene d g).st.m_rprMeshes ≠ [] →
      (beforeMaterial scene d g).st.m_geomSubsets ≠ [] →
        (beforeMaterial scene d g).st.m_geomSubsets.length =
            (beforeMaterial scene d g).st.m_rprMeshes.length ∧
          List.Forall₂
            (CreatedFrom (beforeMaterial scene d g).st (s.2.log ++ (beforeMaterial scene d g).calls))
            (beforeMaterial scene d g).st.m_geomSubsets
            (beforeMaterial scene d g).st.m_rprMeshes) ∧
      ((beforeMaterial scene d g).st.m_rprMeshes ≠ [] →
        reachesCodingError d (beforeMaterial scene d g) = false) ∧
      ((resolve lib scene d (Frame.start s.1 s.2.next)).newMesh = true →
        g.st.m_topology.geomSubsets ≠ [] →
          ∃ creates, g.calls = releaseAll s.1 ++ creates ∧
            List.Forall₂ (fun sub c => ∃ args res, subsetMeshArgs g.st sub = some args ∧
                c = Call.createMesh args res)
              (faceSets (appendUnusedSubset g.st g.st.m_topology.geomSubsets)) creates ∧
            g.st.m_geomSubsets.Sublist (appendUnusedSubset g.st g.st.m_topology.geomSubsets) ∧
            creates.countP Call.createdMesh = g.st.m_rprMeshes.length ∧
            g.st.m_geomSubsets.length = g.st.m_rprMeshes.length) := by
  have hc0 := runOps_corr lib ops _ s (corr_init id) hrun
  have hc1 := createRprMeshes_corr lib scene d s.1 s.2.next s.2.log g hc0 hg
  have hmat : (beforeMaterial scene d g).st.m_rprMeshes ≠ [] →
      (beforeMaterial scene d g).st.m_geomSubsets ≠ [] →
        List.Forall₂
          (CreatedFrom (beforeMaterial scene d g).st (s.2.log ++ (beforeMaterial scene d g).calls))
          (beforeMaterial scene d g).st.m_geomSubsets
          (beforeMaterial scene d g).st.m_rprMeshes := by
    rw [beforeMaterial_st]
    intro h1 h2
    refine (hc1 h1 h2).imp ?_
    intro sub m ⟨args, ha, hm⟩
    refine ⟨args, ha, ?_⟩
    rcases List.mem_append.mp hm with h | h
    · exact List.mem_append_left _ h
    · exact List.mem_append_right _ (beforeMaterial_calls scene d g _ h)
  refine ⟨fun h1 h2 => ⟨(hmat h1 h2).length_eq, hmat h1 h2⟩, ?_, ?_⟩
  · intro h1
    unfold reachesCodingError
    by_cases h2 : (beforeMaterial scene d g).st.m_geomSubsets = []
    · rw [h2]; simp
    · rw [(hmat h1 h2).length_eq]; simp
  · intro hnew hsub
    have hsc := createRprMeshes_sameCache _ _ _ hg
    have hb := resolve_backend lib scene d (Frame.start s.1 s.2.next)
    have hm : (resolve lib scene d (Frame.start s.1 s.2.next)).st.m_rprMeshes = s.1.m_rprMeshes :=
      congrArg (fun x => x.1) hb
    have hi : (resolve lib scene d (Frame.start s.1 s.2.next)).st.m_rprMeshInstances =
        s.1.m_rprMeshInstances := congrArg (fun x => x.2.1) hb
    have hr : releaseAll (resolve lib scene d (Frame.start s.1 s.2.next)).st = releaseAll s.1 := by
      unfold releaseAll; rw [hm, hi]
    have htop : g.st.m_topology =
        (resolve lib scene d (Frame.start s.1 s.2.next)).st.m_topology := by
      have := hsc; unfold SameCache at this; rw [this]
    obtain ⟨_, hcase⟩ := createRprMeshes_rebuild scene _ g hg hnew
    rw [resolve_calls, List.nil_append, hr] at hcase
    rcases hcase with ⟨c1, _, _, _⟩ | ⟨_, creates, c2, c3⟩
    · rw [htop] at hsub; exact absurd c1 hsub
    · obtain ⟨k1, k2, _, k4, _⟩ := createSubsetMeshes_kept _ _ _ _ _ _ _ _ c2
      obtain ⟨_, _, _, _, _, k6, _⟩ := createSubsetMeshes_spec _ _ _ _ _ _ _ _ c2
      rw [htop, appendUnusedSubset_sameCache _ _ hsc,
        subsetMeshArgs_congr _ _ (sameCache_geometry hsc)]
      exact ⟨creates, c3, k4, k1, k2, k6⟩

/-- C19 at the grid after a `Sync` and a `Finalize`: the next `Sync` rebuilds
with a subset of unsupported type, `subsetA` whose `CreateMesh` fails, and
`subsetB`; it is left with `subsetB` and the catch-all subset over face 2, and
with the meshes 3 and 4 made from them. -/
theorem subset_handle_correspondence_witness :
    (mixedFrame.st.m_geomSubsets.map HdGeomSubset.indices, mixedFrame.st.m_rprMeshes) =
        ([[3], [2]], [3, 4]) ∧
      (mixedFrame.calls.map Call.created) = [[], [3], [4]] ∧
      (beforeMaterial mixedScene allDirty mixedFrame).st.m_geomSubsets.length =
        (beforeMaterial mixedScene allDirty mixedFrame).st.m_rprMeshes.length ∧
      reachesCodingError allDirty (beforeMaterial mixedScene allDirty mixedFrame) = false :=
  have h := subset_handle_correspondence exampleLib 1
    [Op.sync { scene := quadScene, dirtyBits := allDirty }, Op.finalize] quadFinalized rfl
    mixedScene allDirty mixedFrame rfl
  ⟨by decide, by decide, (h.1 (by decide) (by decide)).1, h.2.1 (by decide)⟩

/-- C20 (normal synthesis at most once per change of points or topology). For
every run of `Sync` calls from the initial state, with the events of its
`Sync` calls: each `Sync` calls `ComputeSmoothNormals` at most once; between
two `Sync` calls that call it there is a `Sync`, the later one included, whose
mask has the points or the topology bit; and a `Sync` of the run that calls it
stores the result as the normals, with no normal indices (per vertex), and
rebuilds, releasing every tracked handle first. -/
theorem normals_synthesized_once (lib : Lib) (id : SdfPath) (inputs : List SyncInput)
    (evs : List (List Event))
    (hrun : runEvents lib inputs (MeshState.init id, Api.init) = some evs) :
    (∀ k sk inp, runSyncs lib (inputs.take k) (MeshState.init id, Api.init) = some sk →
        inputs[k]? = some inp →
        (syncFrame lib inp.scene inp.dirtyBits sk.1 sk.2.next).map Frame.events =
          some (evs.getD k [])) ∧
      (∀ e ∈ evs, e.count Event.computeSmoothNormals ≤ 1) ∧
      (∀ i j, i < j → Event.computeSmoothNormals ∈ evs.getD i [] →
        Event.computeSmoothNormals ∈ evs.getD j [] →
        ∃ k, i < k ∧ k ≤ j ∧ ∃ inp, inputs[k]? = some inp ∧
          (inp.dirtyBits.points = true ∨ inp.dirtyBits.topology = true)) ∧
      (∀ k sk inp g, runSyncs lib (inputs.take k) (MeshState.init id, Api.init) = some sk →
        inputs[k]? = some inp →
        syncFrame lib inp.scene inp.dirtyBits sk.1 sk.2.next = some g →
        Event.computeSmoothNormals ∈ g.events →
          g.st.m_normals = lib.ComputeSmoothNormals g.st.m_adjacency g.st.m_points.length
              g.st.m_points ∧
            g.st.m_normalIndices = [] ∧ g.st.m_authoredNormals = false ∧
            (resolve lib inp.scene inp.dirtyBits (Frame.start sk.1 sk.2.next)).newMesh = true ∧
            releaseAll sk.1 <+: g.calls) := by
  obtain ⟨_, h2, h3⟩ := runEvents_spec lib inputs _ evs hrun
  refine ⟨h3, h2, ?_, ?_⟩
  · intro i j hij hi hj
    exact runEvents_between lib inputs _ evs hrun i j hij hi hj
  · intro k sk inp g hsk _ hg hc
    have hinv := runSyncs_normalsInv lib (inputs.take k) _ sk (normalsInv_init id) hsk
    exact syncFrame_stored lib inp.scene inp.dirtyBits sk.1 sk.2.next g hinv hg hc

/-- C20 on a life of the grid with the shading flag set: the first `Sync` and
the `Sync` for new points compute the normals once each, the `Sync` calls for a
new material and a new display style do not, and the `Sync` with dirty points
lies between the two computations. -/
theorem normals_synthesized_once_witness :
    runEvents exampleLib flatLife (MeshState.init 1, Api.init) = some flatLifeEvents ∧
      (∀ e ∈ flatLifeEvents, e.count Event.computeSmoothNormals ≤ 1) ∧
      ∃ k, 0 < k ∧ k ≤ 2 ∧ ∃ inp, flatLife[k]? = some inp ∧
        (inp.dirtyBits.points = true ∨ inp.dirtyBits.topology = true) :=
  have h := normals_synthesized_once exampleLib 1 flatLife flatLifeEvents rfl
  ⟨rfl, h.2.1, h.2.2.1 0 2 (by decide) (by decide) (by decide)⟩

/-! ## Claim on the fallback material -/

/-- C21 (the fallback material stays live while bound), evaluated: in the first
`Sync` of the grid with two subsets and no realized material, every bit dirty,
the fallback material is created twice (handles 2 and 3); material 2 is bound
to mesh 0 and released right after, before material 3 is created for mesh 1;
at the end mesh 0 is bound to the released material 2 and the cached fallback
material is 3. With the primvar bit clean the same `Sync` creates one fallback
material, binds it to both meshes and releases nothing. -/
theorem fallback_material_released_while_bound :
    (Sync exampleLib unrealizedScene allDirty (MeshState.init 1) Api.init).map
        (fun r => (r.1.m_rprMeshes, r.1.m_fallbackMaterial, createdMaterials r.2.log,
          releasedMaterials r.2.log, lastMaterial r.2.log 0, lastMaterial r.2.log 1,
          r.2.log.filter Call.isMaterialCall)) =
        some ([0, 1], some 3, [2, 3], [2], some (some 2), some (some 3),
          [Call.createMaterial (18, 18, 18) 2, Call.setMeshMaterial 0 (some 2) false true,
            Call.releaseMaterial (some 2), Call.createMaterial (18, 18, 18) 3,
            Call.setMeshMaterial 1 (some 3) false true]) ∧
      (Sync exampleLib unrealizedScene allButPrimvar (MeshState.init 1) Api.init).map
        (fun r => (r.1.m_rprMeshes, r.1.m_fallbackMaterial, createdMaterials r.2.log,
          releasedMaterials r.2.log, lastMaterial r.2.log 0, lastMaterial r.2.log 1)) =
        some ([0, 1], some 2, [2], [], some (some 2), some (some 2)) :=
  ⟨rfl, rfl⟩

end HdRpr
